import Mathlib

/-!
# go-starter-api: the project generator

A shallow embedding of `generator/generator.go` (package `generator`), of the
generate handler and the archiver in `handlers/generate.go`, of the library
catalog in `types/types.go` and `types/github.go`, and of the expiry sweep in
`utils/cleanup.go`.

* Go strings are Lean `String`s; `fmt.Sprintf` with `%s` verbs is string
  concatenation.
* The file system is explicit state.  `filepath.Join(config.OutputDir, rel...)`
  is recorded as the pair of the output root and the slash-joined relative
  part, so that no path cleaning has to be modelled.
* `os.MkdirAll` and `os.WriteFile` may fail; which calls fail is decided by a
  `Disk` value.  A Go `error` is an `Option String` (`none` is `nil`).
* Calls to the logging library have no effect on the generated tree and are
  left out.
* Each generator is split into the content it builds and the write of that
  content; where a claim is about one section of a content (the function `main`
  of the entrypoint, the `Config` struct of the config loader), the section is
  a definition of its own and the content is the concatenation of the sections,
  in the order in which the source appends them.
* Text is observed through substring containment on characters, and through
  small readers of the generated text (declared package, declared struct
  fields, fields read from `cfg`, defaults passed to `getEnv`, lines of an
  environment file, the start command of the deployment descriptor).
* The archiver and the expiry sweep read a directory tree (`Node`);
  `filepath.Walk` visits it depth first with every listing in the order of the
  names.  The clock, the host separator and the calls that fail are
  parameters.
* The handler takes the decoded request body (`none` when binding fails), the
  clock and the archiver as parameters; a Go map is its lookup function; the
  network lookup of a version is a parameter that returns the empty string on
  every failure, as `fetchGitHubVersion` does.
-/

set_option maxRecDepth 1000000
set_option maxHeartbeats 4000000

namespace Generator

/-! ## Data model -/

/-- ProjectConfig holds project configuration (generator.go, lines 13-21). -/
structure ProjectConfig where
  Name : String
  ModulePath : String
  Structure : String
  Database : String
  Libraries : List String
  Deployment : String
  OutputDir : String
deriving DecidableEq

/-- A path below an output root: the result of
`filepath.Join(root, rel)`, kept as its two parts. -/
structure Path where
  root : String
  rel : String
deriving DecidableEq

/-- The part of the file system the generator touches: the directories it has
created and the files it has written, oldest first. -/
structure FileSystem where
  dirs : List Path
  files : List (Path × String)
deriving DecidableEq

/-- Which file-system calls succeed. -/
structure Disk where
  mkdirOk : Path → Bool
  writeOk : Path → Bool

/-- The state after a call together with the Go `error` it returned. -/
structure Outcome where
  err : Option String
  fs : FileSystem
deriving DecidableEq

/-- Sequencing of `if err := f(); err != nil { return err }`. -/
def Outcome.andThen (r : Outcome) (k : FileSystem → Outcome) : Outcome :=
  match r.err with
  | some e => ⟨some e, r.fs⟩
  | none => k r.fs

/-- A disk on which every call succeeds. -/
def Disk.healthy : Disk := ⟨fun _ => true, fun _ => true⟩

/-- The empty file system. -/
def FileSystem.empty : FileSystem := ⟨[], []⟩

/-- Creating a directory (and its parents): `os.MkdirAll(path, 0755)`.
Creating a directory that exists already succeeds and changes nothing. -/
def mkdirAll (d : Disk) (fs : FileSystem) (path : Path) : Outcome :=
  if d.mkdirOk path then
    if path ∈ fs.dirs then ⟨none, fs⟩ else ⟨none, { fs with dirs := fs.dirs ++ [path] }⟩
  else ⟨some ("mkdir " ++ path.rel), fs⟩

/-- writeFile writes content to a file (generator.go, lines 156-158):
`os.WriteFile` creates the file or replaces its content. -/
def writeFile (d : Disk) (fs : FileSystem) (path : Path) (content : String) : Outcome :=
  if d.writeOk path then
    ⟨none, { fs with files := fs.files.filter (fun f => f.1 ≠ path) ++ [(path, content)] }⟩
  else ⟨some ("write " ++ path.rel), fs⟩

/-! ## Helpers of the generator -/

/-- The loop of `hasLibrary` over the selected libraries. -/
def hasLibraryIn (lib : String) : List String → Bool
  | [] => false
  | l :: ls => if l = lib then true else hasLibraryIn lib ls

/-- hasLibrary checks if a library is selected (generator.go, lines 146-153). -/
def ProjectConfig.hasLibrary (c : ProjectConfig) (lib : String) : Bool :=
  hasLibraryIn lib c.Libraries

/-- Set defaults (generator.go, lines 37-46). -/
def setDefaults (config : ProjectConfig) : ProjectConfig :=
  let config := if config.Structure = "" then { config with Structure := "simple" } else config
  let config := if config.Deployment = "" then { config with Deployment := "railway" } else config
  let config := if config.Database = "" then { config with Database := "none" } else config
  config

/-- The directory list built by `createDirectoryStructure`
(generator.go, lines 120-133). -/
def plannedDirs (config : ProjectConfig) : List String :=
  let dirs := ["config"]
  let dirs :=
    if config.Structure = "standard" then
      dirs ++ ["cmd/server", "internal/handlers", "internal/middleware", "internal/models"]
    else dirs
  let dirs := if config.hasLibrary "go-migration" then dirs ++ ["migrations"] else dirs
  dirs

/-- The loop of `createDirectoryStructure` (generator.go, lines 135-140): it
stops at the first directory that cannot be created. -/
def mkdirEach (d : Disk) (root : String) : List String → FileSystem → Outcome
  | [], fs => ⟨none, fs⟩
  | dir :: rest, fs => (mkdirAll d fs ⟨root, dir⟩).andThen (mkdirEach d root rest)

/-- createDirectoryStructure creates project directories
(generator.go, lines 119-143). -/
def createDirectoryStructure (d : Disk) (config : ProjectConfig) (fs : FileSystem) : Outcome :=
  mkdirEach d config.OutputDir (plannedDirs config) fs

/-- The relative part of `filepath.Join(root, elems...)`: the elements joined
by a slash. -/
def Path.join (root : String) (elems : List String) : Path :=
  ⟨root, String.intercalate "/" elems⟩

/-! ## go.mod -/

/-- The module line and the library requirements of go.mod
(generator.go, lines 162-173). -/
def goModRequire (config : ProjectConfig) : String :=
  let content :=
    "module " ++ config.ModulePath ++ "\n\ngo 1.21\n\nrequire (\n\tgithub.com/gin-gonic/gin v1.9.1\n"
  config.Libraries.foldl
    (fun content lib => content ++ ("\tgithub.com/OkanUysal/" ++ lib ++ " v1.0.0\n")) content

/-- Add database drivers: the `switch config.Database`
(generator.go, lines 175-186). -/
def addDatabaseDrivers (database : String) (content : String) : String :=
  if database = "postgres" then
    let content := content ++ "\tgithub.com/lib/pq v1.10.9\n"
    let content := content ++ "\tgorm.io/driver/postgres v1.5.7\n"
    let content := content ++ "\tgorm.io/gorm v1.25.9\n"
    content
  else if database = "mysql" then
    let content := content ++ "\tgorm.io/driver/mysql v1.5.6\n"
    let content := content ++ "\tgorm.io/gorm v1.25.9\n"
    content
  else if database = "mongodb" then
    let content := content ++ "\tgo.mongodb.org/mongo-driver v1.14.0\n"
    content
  else content

/-- The content of go.mod (generator.go, lines 161-188). -/
def generateGoModContent (config : ProjectConfig) : String :=
  let content := goModRequire config
  let content := addDatabaseDrivers config.Database content
  let content := content ++ ")\n"
  content

/-- generateGoMod creates go.mod (generator.go, lines 161-191). -/
def generateGoMod (d : Disk) (config : ProjectConfig) (fs : FileSystem) : Outcome :=
  writeFile d fs (Path.join config.OutputDir ["go.mod"]) (generateGoModContent config)

/-! ## The entrypoint -/

/-- The relative path of the entrypoint (generator.go, lines 195-198). -/
def mainPath (config : ProjectConfig) : String :=
  let mainPath := "main.go"
  let mainPath := if config.Structure = "standard" then "cmd/server/main.go" else mainPath
  mainPath

/-- One step of the loop over the libraries that collects the imports: the
`switch lib` (generator.go, lines 207-216). -/
def addLibraryImport (imports : List String) (lib : String) : List String :=
  if lib = "go-logger" then imports ++ ["\"github.com/OkanUysal/go-logger\""]
  else if lib = "go-metrics" then imports ++ ["\"github.com/OkanUysal/go-metrics\""]
  else if lib = "go-migration" then imports ++ ["\"github.com/OkanUysal/go-migration\""]
  else if lib = "go-swagger" then imports ++ ["\"github.com/OkanUysal/go-swagger\""]
  else imports

/-- The import list of the entrypoint (generator.go, lines 200-217). -/
def mainImports (config : ProjectConfig) : List String :=
  let imports := ["\"log\"", "\"github.com/gin-gonic/gin\"", "\"" ++ config.ModulePath ++ "/config\""]
  config.Libraries.foldl addLibraryImport imports

/-- The package clause and the import block of the entrypoint
(generator.go, lines 219-223). -/
def mainHeader (config : ProjectConfig) : String :=
  let content := "package main\n\nimport (\n"
  let content := (mainImports config).foldl (fun content imp => content ++ ("\t" ++ imp ++ "\n")) content
  let content := content ++ ")\n\n"
  content

/-- The function `main` of the entrypoint (generator.go, lines 225-277). -/
def mainBody (config : ProjectConfig) : String :=
  let content := "func main() \x7b\n"
  let content := content ++ "\tcfg := config.Load()\n\n"
  let content :=
    if config.hasLibrary "go-logger" then
      let content := content ++ "\tlogger.Init(logger.Config\x7b\n"
      let content := content ++ "\t\tLevel: cfg.LogLevel,\n"
      let content := content ++ "\t\x7d)\n"
      let content := content ++ "\tdefer logger.Sync()\n\n"
      content
    else content
  let content :=
    if config.hasLibrary "go-migration" && config.Database != "none" then
      let content := content ++ "\tif err := migration.Up(cfg.DatabaseURL, \"./migrations\"); err != nil \x7b\n"
      let content := content ++ "\t\tlog.Fatal(err)\n"
      let content := content ++ "\t\x7d\n\n"
      content
    else content
  let content :=
    if config.hasLibrary "go-metrics" then
      let content := content ++ "\tmetricsCollector := metrics.NewMetrics(metrics.Config\x7b\n"
      let content := content ++ "\t\tNamespace: cfg.AppName,\n"
      let content := content ++ "\t\x7d)\n\n"
      content
    else content
  let content := content ++ "\trouter := gin.Default()\n\n"
  let content :=
    if config.hasLibrary "go-metrics" then
      content ++ "\trouter.Use(metricsCollector.Middleware())\n\n"
    else content
  let content := content ++ "\trouter.GET(\"/health\", func(c *gin.Context) \x7b\n"
  let content := content ++ "\t\tc.JSON(200, gin.H\x7b\"status\": \"ok\"\x7d)\n"
  let content := content ++ "\t\x7d)\n\n"
  let content :=
    if config.hasLibrary "go-metrics" then
      content ++ "\trouter.GET(\"/metrics\", metricsCollector.Handler())\n\n"
    else content
  let content := content ++ "\tapi := router.Group(\"/api/v1\")\n"
  let content := content ++ "\t\x7b\n"
  let content := content ++ "\t\tapi.GET(\"/users\", func(c *gin.Context) \x7b\n"
  let content := content ++ "\t\t\tc.JSON(200, gin.H\x7b\"users\": []string\x7b\x7d\x7d)\n"
  let content := content ++ "\t\t\x7d)\n"
  let content := content ++ "\t\x7d\n\n"
  let content := content ++ "\tport := cfg.Port\n"
  let content := content ++ "\tif port == \"\" \x7b\n"
  let content := content ++ "\t\tport = \"8080\"\n"
  let content := content ++ "\t\x7d\n\n"
  let content := content ++ "\tlog.Printf(\"Starting server on port %s\", port)\n"
  let content := content ++ "\tif err := router.Run(\":\" + port); err != nil \x7b\n"
  let content := content ++ "\t\tlog.Fatal(err)\n"
  let content := content ++ "\t\x7d\n"
  let content := content ++ "\x7d\n"
  content

/-- The content of the entrypoint (generator.go, lines 219-277): the
statements of `mainBody` go on appending to the content `mainHeader` built. -/
def generateMainContent (config : ProjectConfig) : String :=
  mainHeader config ++ mainBody config

/-- generateMain creates main.go (generator.go, lines 194-280). -/
def generateMain (d : Disk) (config : ProjectConfig) (fs : FileSystem) : Outcome :=
  writeFile d fs (Path.join config.OutputDir [mainPath config]) (generateMainContent config)

/-! ## The config loader -/

/-- The package clause and the `Config` struct of the config loader
(generator.go, lines 284-305). -/
def configStruct (config : ProjectConfig) : String :=
  let content := "package config\n\nimport \"os\"\n\ntype Config struct \x7b\n\tAppName string\n\tPort    string\n"
  let content := if config.Database != "none" then content ++ "\tDatabaseURL string\n" else content
  let content := if config.hasLibrary "go-auth" then content ++ "\tJWTSecret string\n" else content
  let content := if config.hasLibrary "go-logger" then content ++ "\tLogLevel string\n" else content
  let content := content ++ "\x7d\n\n"
  content

/-- The function `Load` of the config loader (generator.go, lines 306-323). -/
def configLoad (config : ProjectConfig) : String :=
  let content := "func Load() *Config \x7b\n"
  let content := content ++ "\treturn &Config\x7b\n"
  let content := content ++ ("\t\tAppName: getEnv(\"APP_NAME\", \"" ++ config.Name ++ "\"),\n")
  let content := content ++ "\t\tPort: getEnv(\"PORT\", \"8080\"),\n"
  let content :=
    if config.Database != "none" then content ++ "\t\tDatabaseURL: getEnv(\"DATABASE_URL\", \"\"),\n"
    else content
  let content :=
    if config.hasLibrary "go-auth" then content ++ "\t\tJWTSecret: getEnv(\"JWT_SECRET\", \"\"),\n"
    else content
  let content :=
    if config.hasLibrary "go-logger" then content ++ "\t\tLogLevel: getEnv(\"LOG_LEVEL\", \"info\"),\n"
    else content
  let content := content ++ "\t\x7d\n\x7d\n\n"
  content

/-- The helper `getEnv` of the config loader (generator.go, lines 324-329). -/
def configGetEnv : String :=
  let content := "func getEnv(key, def string) string \x7b\n"
  let content := content ++ "\tif v := os.Getenv(key); v != \"\" \x7b\n"
  let content := content ++ "\t\treturn v\n"
  let content := content ++ "\t\x7d\n"
  let content := content ++ "\treturn def\n"
  let content := content ++ "\x7d\n"
  content

/-- The content of config/config.go (generator.go, lines 284-329): the three
parts are appended to one content in this order. -/
def generateConfigContent (config : ProjectConfig) : String :=
  configStruct config ++ configLoad config ++ configGetEnv

/-- generateConfig creates config/config.go (generator.go, lines 283-332). -/
def generateConfig (d : Disk) (config : ProjectConfig) (fs : FileSystem) : Outcome :=
  writeFile d fs (Path.join config.OutputDir ["config", "config.go"]) (generateConfigContent config)

/-! ## Handlers and auth middleware -/

/-- The relative path of the handlers file (generator.go, lines 336-339). -/
def handlerPath (config : ProjectConfig) : String :=
  let handlerPath := "handlers.go"
  let handlerPath :=
    if config.Structure = "standard" then "internal/handlers/handlers.go" else handlerPath
  handlerPath

/-- The package name of the handlers file (generator.go, lines 341-344). -/
def handlerPkg (config : ProjectConfig) : String :=
  let pkg := "main"
  let pkg := if config.Structure = "standard" then "handlers" else pkg
  pkg

/-- The content of the handlers file (generator.go, lines 346-359). -/
def generateHandlersContent (config : ProjectConfig) : String :=
  let content := "package " ++ handlerPkg config ++ "\n\n"
  let content := content ++ "import \"github.com/gin-gonic/gin\"\n\n"
  let content :=
    if config.hasLibrary "go-response" then
      content ++ "import \"github.com/OkanUysal/go-response\"\n\n"
    else content
  let content := content ++ "func GetUsers(c *gin.Context) \x7b\n"
  let content :=
    if config.hasLibrary "go-response" then
      content ++ "\tresponse.Success(c, []string\x7b\x7d)\n"
    else
      content ++ "\tc.JSON(200, gin.H\x7b\"users\": []string\x7b\x7d\x7d)\n"
  let content := content ++ "\x7d\n"
  content

/-- generateHandlers creates handlers (generator.go, lines 335-362). -/
def generateHandlers (d : Disk) (config : ProjectConfig) (fs : FileSystem) : Outcome :=
  writeFile d fs (Path.join config.OutputDir [handlerPath config]) (generateHandlersContent config)

/-- The relative path of the auth middleware (generator.go, lines 366-369). -/
def middlewarePath (config : ProjectConfig) : String :=
  let middlewarePath := "middleware.go"
  let middlewarePath :=
    if config.Structure = "standard" then "internal/middleware/auth.go" else middlewarePath
  middlewarePath

/-- The package name of the auth middleware (generator.go, lines 371-374). -/
def middlewarePkg (config : ProjectConfig) : String :=
  let pkg := "main"
  let pkg := if config.Structure = "standard" then "middleware" else pkg
  pkg

/-- The content of the auth middleware (generator.go, lines 376-397). -/
def generateMiddlewareContent (config : ProjectConfig) : String :=
  let content := "package " ++ middlewarePkg config ++ "\n\n"
  let content := content ++ "import (\n"
  let content := content ++ "\t\"github.com/gin-gonic/gin\"\n"
  let content := content ++ "\t\"github.com/OkanUysal/go-auth\"\n"
  let content := content ++ ")\n\n"
  let content := content ++ "func AuthMiddleware() gin.HandlerFunc \x7b\n"
  let content := content ++ "\treturn func(c *gin.Context) \x7b\n"
  let content := content ++ "\t\ttoken := c.GetHeader(\"Authorization\")\n"
  let content := content ++ "\t\tif token == \"\" \x7b\n"
  let content := content ++ "\t\t\tc.JSON(401, gin.H\x7b\"error\": \"unauthorized\"\x7d)\n"
  let content := content ++ "\t\t\tc.Abort()\n"
  let content := content ++ "\t\t\treturn\n"
  let content := content ++ "\t\t\x7d\n\n"
  let content := content ++ "\t\tif _, err := auth.ValidateToken(token); err != nil \x7b\n"
  let content := content ++ "\t\t\tc.JSON(401, gin.H\x7b\"error\": \"invalid token\"\x7d)\n"
  let content := content ++ "\t\t\tc.Abort()\n"
  let content := content ++ "\t\t\treturn\n"
  let content := content ++ "\t\t\x7d\n\n"
  let content := content ++ "\t\tc.Next()\n"
  let content := content ++ "\t\x7d\n"
  let content := content ++ "\x7d\n"
  content

/-- generateMiddleware creates middleware (generator.go, lines 365-400). -/
def generateMiddleware (d : Disk) (config : ProjectConfig) (fs : FileSystem) : Outcome :=
  writeFile d fs (Path.join config.OutputDir [middlewarePath config])
    (generateMiddlewareContent config)

/-! ## Environment files, ignore file, deployment descriptor, readme -/

/-- The content of both environment files (generator.go, lines 404-417). -/
def generateEnvContent (config : ProjectConfig) : String :=
  let env := "APP_NAME=" ++ config.Name ++ "\n"
  let env := env ++ "PORT=8080\n"
  let env := if config.Database != "none" then env ++ "DATABASE_URL=\n" else env
  let env := if config.hasLibrary "go-auth" then env ++ "JWT_SECRET=your-secret-key\n" else env
  let env := if config.hasLibrary "go-logger" then env ++ "LOG_LEVEL=info\n" else env
  env

/-- generateEnvFiles creates .env files (generator.go, lines 403-423).  The
errors of the two writes are dropped and `nil` is returned. -/
def generateEnvFiles (d : Disk) (config : ProjectConfig) (fs : FileSystem) : Outcome :=
  let env := generateEnvContent config
  let fs := (writeFile d fs (Path.join config.OutputDir [".env"]) env).fs
  let fs := (writeFile d fs (Path.join config.OutputDir [".env.example"]) env).fs
  ⟨none, fs⟩

/-- The content of .gitignore (generator.go, lines 427-438). -/
def generateGitignoreContent : String :=
  "*.exe\n*.dll\n*.so\n*.dylib\n*.test\n*.out\nvendor/\n.env\n.DS_Store\ntmp/\ntemp/\n"

/-- generateGitignore creates .gitignore (generator.go, lines 426-441). -/
def generateGitignore (d : Disk) (config : ProjectConfig) (fs : FileSystem) : Outcome :=
  writeFile d fs (Path.join config.OutputDir [".gitignore"]) generateGitignoreContent

/-- The start command of the deployment descriptor
(generator.go, lines 445-448). -/
def startCmd (config : ProjectConfig) : String :=
  let startCmd := "go run main.go"
  let startCmd := if config.Structure = "standard" then "go run cmd/server/main.go" else startCmd
  startCmd

/-- The content of railway.json (generator.go, lines 450-461). -/
def generateRailwayContent (config : ProjectConfig) : String :=
  "\x7b\n  \"$schema\": \"https://railway.app/railway.schema.json\",\n  \"build\": \x7b\n    \"builder\": \"NIXPACKS\"\n  \x7d,\n  \"deploy\": \x7b\n    \"startCommand\": \""
    ++ startCmd config
    ++ "\",\n    \"restartPolicyType\": \"ON_FAILURE\",\n    \"restartPolicyMaxRetries\": 10\n  \x7d\n\x7d\n"

/-- generateRailwayConfig creates railway.json (generator.go, lines 444-464). -/
def generateRailwayConfig (d : Disk) (config : ProjectConfig) (fs : FileSystem) : Outcome :=
  writeFile d fs (Path.join config.OutputDir ["railway.json"]) (generateRailwayContent config)

/-- The rest of `text` after the characters of `pre`, when `text` starts with
them. -/
def stripLeading : List Char → List Char → Option (List Char)
  | [], text => some text
  | _ :: _, [] => none
  | a :: pre, b :: text => if a = b then stripLeading pre text else none

/-- Go's `strings.TrimPrefix(s, pre)`. -/
def trimPrefix (s pre : String) : String :=
  match stripLeading pre.data s.data with
  | some rest => String.mk rest
  | none => s

/-- The title and the feature list of README.md
(generator.go, lines 468-475). -/
def readmeFeatures (config : ProjectConfig) : String :=
  let content := "# " ++ config.Name ++ "\n\n"
  let content := content ++ "A Go API generated with go-starter.\n\n"
  let content := content ++ "## Features\n\n"
  let content :=
    config.Libraries.foldl
      (fun content lib =>
        let libName := trimPrefix lib "go-"
        content ++ ("- " ++ libName ++ "\n"))
      content
  content

/-- The sections of README.md after the feature list
(generator.go, lines 477-497). -/
def readmeRest (config : ProjectConfig) : String :=
  let content := "\n## Getting Started\n\n"
  let content := content ++ "```bash\n"
  let content := content ++ "go mod tidy\n"
  let content := content ++ "cp .env.example .env\n"
  let content := content ++ "go run main.go\n"
  let content := content ++ "```\n\n"
  let content := content ++ "## API Endpoints\n\n"
  let content := content ++ "- `GET /health` - Health check\n"
  let content :=
    if config.hasLibrary "go-metrics" then content ++ "- `GET /metrics` - Prometheus metrics\n"
    else content
  let content := content ++ "- `GET /api/v1/users` - Get users\n\n"
  let content :=
    if config.Deployment = "railway" then
      let content := content ++ "## Deployment\n\n"
      let content := content ++ "This project is ready for Railway deployment.\n\n"
      let content := content ++ "1. Push to GitHub\n"
      let content := content ++ "2. Connect to Railway\n"
      let content := content ++ "3. Deploy!\n"
      content
    else content
  content

/-- The content of README.md (generator.go, lines 468-497): the statements of
`readmeRest` go on appending to the content `readmeFeatures` built. -/
def generateReadmeContent (config : ProjectConfig) : String :=
  readmeFeatures config ++ readmeRest config

/-- generateReadme creates README.md (generator.go, lines 467-500). -/
def generateReadme (d : Disk) (config : ProjectConfig) (fs : FileSystem) : Outcome :=
  writeFile d fs (Path.join config.OutputDir ["README.md"]) (generateReadmeContent config)

/-! ## The pipeline -/

/-- GenerateProject generates a complete project (generator.go, lines 24-116).
The defaults are set on the configuration before any generator reads it. -/
def GenerateProject (d : Disk) (config : ProjectConfig) (fs : FileSystem) : Outcome :=
  (mkdirAll d fs (Path.join config.OutputDir [])).andThen fun fs =>
  let config := setDefaults config
  (createDirectoryStructure d config fs).andThen fun fs =>
  (generateGoMod d config fs).andThen fun fs =>
  (generateMain d config fs).andThen fun fs =>
  (generateConfig d config fs).andThen fun fs =>
  (generateHandlers d config fs).andThen fun fs =>
  (if config.hasLibrary "go-auth" then generateMiddleware d config fs else ⟨none, fs⟩).andThen fun fs =>
  (generateEnvFiles d config fs).andThen fun fs =>
  (generateGitignore d config fs).andThen fun fs =>
  (if config.Deployment = "railway" then generateRailwayConfig d config fs
    else ⟨none, fs⟩).andThen fun fs =>
  (generateReadme d config fs).andThen fun fs =>
  ⟨none, fs⟩

/-! ## Observations on generated text and paths -/

/-- Substring containment (Go's `strings.Contains`): the characters of `pat`
occur contiguously in `text`. -/
def Contains (text pat : String) : Prop := pat.data <:+: text.data

instance (text pat : String) : Decidable (Contains text pat) :=
  inferInstanceAs (Decidable (pat.data <:+: text.data))

/-- The pieces of a character list between the occurrences of `sep`. -/
def splitOnChar (sep : Char) : List Char → List (List Char)
  | [] => [[]]
  | c :: cs =>
    if c = sep then [] :: splitOnChar sep cs
    else
      match splitOnChar sep cs with
      | [] => [[c]]
      | piece :: pieces => (c :: piece) :: pieces

/-- The slash-separated segments of a path. -/
def pathSegments (p : String) : List String :=
  (splitOnChar '/' p.data).map String.mk

/-- A path is absolute when it starts with a slash. -/
def isAbsolute (p : String) : Bool := p.data.head? = some '/'

/-- A generated path stays below the output root: it is not absolute and has
no `..` segment. -/
def staysBelowRoot (p : String) : Bool := !isAbsolute p && !(pathSegments p).contains ".."

/-- The package name a Go file declares: the text between a leading
`package ` and the end of the first line. -/
def declaredPackage (content : String) : Option String :=
  match stripLeading "package ".data content.data with
  | some rest => some (String.mk (rest.takeWhile (fun ch => ch != '\n')))
  | none => none

/-- The example selection of the specification. -/
def exampleSelection : ProjectConfig :=
  { Name := "my-api", ModulePath := "my-api", Structure := "simple", Database := "none",
    Libraries := ["go-logger"], Deployment := "railway", OutputDir := "out" }

/-- The texts that betray a database in generated files: the config field, the
environment variable, and the import paths of the database drivers. -/
def databaseTraces : List String :=
  ["DatabaseURL", "DATABASE_URL", "github.com/lib/pq", "gorm.io/driver/postgres",
   "gorm.io/driver/mysql", "gorm.io/gorm", "go.mongodb.org/mongo-driver"]

/-! ## Occurrences of a text in generated content

The generated contents are concatenations of fixed texts and of a few texts
that vary (project name, module path, library ids).  `Safe pat t` says that
no occurrence of `pat` begins inside `t`; it composes along
concatenation, and for a fixed text it is decided by `noStart`. -/

/-- One of the two texts is the beginning of the other. -/
def agree : List Char → List Char → Bool
  | [], _ => true
  | _ :: _, [] => true
  | a :: p, b :: s => if a = b then agree p s else false

/-- No occurrence of `pat` begins inside `lit`, whatever follows `lit`. -/
def noStart (pat : List Char) : List Char → Bool
  | [] => true
  | b :: t => !agree pat (b :: t) && noStart pat t

/-- None of the non-empty endings of the first text agrees with `lit`. -/
def noneAgree : List Char → List Char → Bool
  | [], _ => true
  | a :: p, lit => !agree (a :: p) lit && noneAgree p lit

/-- No occurrence of `pat` that begins before `lit` reaches into `lit`. -/
def noRunInto (pat lit : List Char) : Bool := noneAgree pat.tail lit

/-- Whatever follows `t`, an occurrence of `pat` in the whole lies in what follows. -/
def Safe (pat t : List Char) : Prop := ∀ v, pat <:+: t ++ v → pat <:+: v

/-! ## The generated contents as sequences of parts

Each content is a concatenation of fixed parts, of parts that are present
under a condition, and of variable texts.  The parts are named here; that the
generators produce exactly these sequences is proved below. -/

/-- Concatenation of a list of strings. -/
def joinAll : List String → String
  | [] => ""
  | s :: ss => s ++ joinAll ss

/-- Every fixed text of the list is one in which no occurrence of `pat`
begins. -/
def litsSafe (pat : List Char) (lits : List String) : Bool :=
  lits.all (fun s => noStart pat s.data)

/-- Head of the `Config` struct (generator.go, lines 284-291). -/
def structHead : String :=
  "package config\n\nimport \"os\"\n\ntype Config struct \x7b\n\tAppName string\n\tPort    string\n"

/-- End of the `Config` struct (generator.go, line 305). -/
def structEnd : String := "\x7d\n\n"

/-- Head of `Load` up to the default of `AppName` (generator.go, lines 306-308). -/
def loadHead : String :=
  "func Load() *Config \x7b\n" ++ "\treturn &Config\x7b\n" ++ "\t\tAppName: getEnv(\"APP_NAME\", \""

/-- What follows the project name in `Load` (generator.go, lines 308-309). -/
def loadAfterName : String := "\"),\n" ++ "\t\tPort: getEnv(\"PORT\", \"8080\"),\n"

/-- End of `Load` (generator.go, line 323). -/
def loadEnd : String := "\t\x7d\n\x7d\n\n"

/-- The fixed parts of the config loader that do not depend on the database. -/
def configLits : List String :=
  [structHead, "\tJWTSecret string\n", "\tLogLevel string\n", structEnd, loadHead, loadAfterName,
   "\t\tJWTSecret: getEnv(\"JWT_SECRET\", \"\"),\n", "\t\tLogLevel: getEnv(\"LOG_LEVEL\", \"info\"),\n",
   loadEnd, configGetEnv]

/-- What follows the module path in go.mod (generator.go, lines 162-167). -/
def goModAfterModule : String := "\n\ngo 1.21\n\nrequire (\n\tgithub.com/gin-gonic/gin v1.9.1\n"

/-- The fixed parts of go.mod that do not depend on the database. -/
def goModLits : List String :=
  ["module ", goModAfterModule, "\tgithub.com/OkanUysal/", " v1.0.0\n", ")\n"]

/-- The requirement lines of go.mod for a list of dependencies: a tab, the
dependency, a line end. -/
def requireLines (deps : List String) : String :=
  joinAll (deps.map (fun dep => "\t" ++ dep ++ "\n"))

/-- The driver dependencies of the postgres backend. -/
def postgresDrivers : List String :=
  ["github.com/lib/pq v1.10.9", "gorm.io/driver/postgres v1.5.7", "gorm.io/gorm v1.25.9"]

/-- The driver dependencies of the mysql backend. -/
def mysqlDrivers : List String := ["gorm.io/driver/mysql v1.5.6", "gorm.io/gorm v1.25.9"]

/-- The driver dependencies of the mongodb backend. -/
def mongodbDrivers : List String := ["go.mongodb.org/mongo-driver v1.14.0"]

/-- The lines of a text after the line `type Config struct {`. -/
def afterStructOpen : List (List Char) → List (List Char)
  | [] => []
  | l :: ls => if l = "type Config struct \x7b".data then ls else afterStructOpen ls

/-- The lines of a text before the first line that is a closing brace. -/
def untilClose : List (List Char) → List (List Char)
  | [] => []
  | l :: ls => if l = "\x7d".data then [] else l :: untilClose ls

/-- The first word of a line. -/
def firstWord (line : List Char) : String :=
  String.mk ((line.dropWhile Char.isWhitespace).takeWhile (fun ch => !ch.isWhitespace))

/-- The field names the `Config` struct of a Go text declares, in order. -/
def declaredFields (content : String) : List String :=
  (untilClose (afterStructOpen (splitOnChar '\n' content.data))).map firstWord

/-- The fields the config loader is to have for a selection: `AppName` and
`Port`, `DatabaseURL` with a database, `JWTSecret` with the auth library,
`LogLevel` with the logger library. -/
def configFields (c : ProjectConfig) : List String :=
  ["AppName", "Port"]
    ++ (if c.Database ≠ "none" then ["DatabaseURL"] else [])
    ++ (if "go-auth" ∈ c.Libraries then ["JWTSecret"] else [])
    ++ (if "go-logger" ∈ c.Libraries then ["LogLevel"] else [])

/-- The environment variable a field is read from and its default value. -/
def fieldSource (name : String) (field : String) : String × String :=
  if field = "AppName" then ("APP_NAME", name)
  else if field = "Port" then ("PORT", "8080")
  else if field = "DatabaseURL" then ("DATABASE_URL", "")
  else if field = "JWTSecret" then ("JWT_SECRET", "")
  else if field = "LogLevel" then ("LOG_LEVEL", "info")
  else ("", "")

/-- The line of `Load` that initialises a field from its environment
variable. -/
def fieldInit (name : String) (field : String) : String :=
  "\t\t" ++ field ++ ": getEnv(\"" ++ (fieldSource name field).1 ++ "\", \""
    ++ (fieldSource name field).2 ++ "\"),\n"

/-- Start of `main` (generator.go, lines 225-226). -/
def bodyStart : String := "func main() \x7b\n" ++ "\tcfg := config.Load()\n\n"

/-- The logger initialisation block (generator.go, lines 229-232). -/
def loggerBlock : String :=
  "\tlogger.Init(logger.Config\x7b\n" ++ "\t\tLevel: cfg.LogLevel,\n" ++ "\t\x7d)\n"
    ++ "\tdefer logger.Sync()\n\n"

/-- The migration block (generator.go, lines 236-238). -/
def migrationBlock : String :=
  "\tif err := migration.Up(cfg.DatabaseURL, \"./migrations\"); err != nil \x7b\n"
    ++ "\t\tlog.Fatal(err)\n" ++ "\t\x7d\n\n"

/-- The metrics initialisation block (generator.go, lines 242-244). -/
def metricsBlock : String :=
  "\tmetricsCollector := metrics.NewMetrics(metrics.Config\x7b\n" ++ "\t\tNamespace: cfg.AppName,\n"
    ++ "\t\x7d)\n\n"

/-- Creation of the router (generator.go, line 247). -/
def routerInit : String := "\trouter := gin.Default()\n\n"

/-- Installation of the metrics middleware (generator.go, line 250). -/
def metricsMiddleware : String := "\trouter.Use(metricsCollector.Middleware())\n\n"

/-- The health-check route (generator.go, lines 253-255). -/
def healthRoute : String :=
  "\trouter.GET(\"/health\", func(c *gin.Context) \x7b\n"
    ++ "\t\tc.JSON(200, gin.H\x7b\"status\": \"ok\"\x7d)\n" ++ "\t\x7d)\n\n"

/-- The metrics route (generator.go, line 258). -/
def metricsRoute : String := "\trouter.GET(\"/metrics\", metricsCollector.Handler())\n\n"

/-- The users-list route under `/api/v1` (generator.go, lines 261-266). -/
def usersRoute : String :=
  "\tapi := router.Group(\"/api/v1\")\n" ++ "\t\x7b\n"
    ++ "\t\tapi.GET(\"/users\", func(c *gin.Context) \x7b\n"
    ++ "\t\t\tc.JSON(200, gin.H\x7b\"users\": []string\x7b\x7d\x7d)\n" ++ "\t\t\x7d)\n" ++ "\t\x7d\n\n"

/-- End of `main`: the port and the start of the server
(generator.go, lines 268-277). -/
def bodyEnd : String :=
  "\tport := cfg.Port\n" ++ "\tif port == \"\" \x7b\n" ++ "\t\tport = \"8080\"\n" ++ "\t\x7d\n\n"
    ++ "\tlog.Printf(\"Starting server on port %s\", port)\n"
    ++ "\tif err := router.Run(\":\" + port); err != nil \x7b\n" ++ "\t\tlog.Fatal(err)\n"
    ++ "\t\x7d\n" ++ "\x7d\n"

/-- The parts of `main` for the three conditions of the generator: logger
selected, migration selected with a database, metrics selected. -/
def bodyParts (lg mg mt : Bool) : List String :=
  [bodyStart, if lg = true then loggerBlock else "", if mg = true then migrationBlock else "",
   if mt = true then metricsBlock else "", routerInit,
   if mt = true then metricsMiddleware else "", healthRoute,
   if mt = true then metricsRoute else "", usersRoute, bodyEnd]

/-- The fixed texts `main` can be made of when at most the given conditions
hold. -/
def bodyLits (lg mg mt : Bool) : List String :=
  [bodyStart, routerInit, healthRoute, usersRoute, bodyEnd]
    ++ (if lg = true then [loggerBlock] else [])
    ++ (if mg = true then [migrationBlock] else [])
    ++ (if mt = true then [metricsBlock, metricsMiddleware, metricsRoute] else [])

/-- The library ids with the package identifier through which the generated
code calls each library. -/
def libraryIdents : List (String × String) :=
  [("go-logger", "logger"), ("go-metrics", "metrics"), ("go-migration", "migration"),
   ("go-swagger", "swagger"), ("go-response", "response"), ("go-auth", "auth")]

/-- The import path of a library. -/
def importPath (lib : String) : String := "github.com/OkanUysal/" ++ lib

/-- The text that starts a call through a package identifier. -/
def callThrough (ident : String) : String := ident ++ "."

/-- The fixed texts the import block of the entrypoint can be made of when at
most the given libraries (logger, metrics, migration, swagger) are
selected. -/
def headerLits (lg mt mg sw : Bool) : List String :=
  ["package main\n\nimport (\n", "\t", "\n", ")\n\n", "\"log\"", "\"github.com/gin-gonic/gin\"",
   "\"", "/config\""]
    ++ (if lg = true then ["\"github.com/OkanUysal/go-logger\""] else [])
    ++ (if mt = true then ["\"github.com/OkanUysal/go-metrics\""] else [])
    ++ (if mg = true then ["\"github.com/OkanUysal/go-migration\""] else [])
    ++ (if sw = true then ["\"github.com/OkanUysal/go-swagger\""] else [])

/-- The fixed texts the handlers file can be made of when the response library
may (`true`) or may not (`false`) be selected. -/
def handlersLits (rs : Bool) : List String :=
  ["package " ++ "main" ++ "\n\n", "package " ++ "handlers" ++ "\n\n",
   "import \"github.com/gin-gonic/gin\"\n\n",
   "func GetUsers(c *gin.Context) \x7b\n",
   "\tc.JSON(200, gin.H\x7b\"users\": []string\x7b\x7d\x7d)\n", "\x7d\n"]
    ++ (if rs = true then
          ["import \"github.com/OkanUysal/go-response\"\n\n", "\tresponse.Success(c, []string\x7b\x7d)\n"]
        else [])

/-- The fields of `cfg` a Go text reads: the identifiers that follow the
occurrences of `cfg.`, in order. -/
def cfgReads : List Char → List String
  | [] => []
  | ch :: rest =>
    (match stripLeading "cfg.".data (ch :: rest) with
      | some after => [String.mk (after.takeWhile Char.isAlphanum)]
      | none => [])
    ++ cfgReads rest

/-- The example selection with two libraries. -/
def selectionLoggerMetrics : ProjectConfig :=
  { exampleSelection with Libraries := ["go-logger", "go-metrics"] }

/-- The same selection with the two libraries in the other order. -/
def selectionMetricsLogger : ProjectConfig :=
  { exampleSelection with Libraries := ["go-metrics", "go-logger"] }

/-- The requirement lines of go.mod for the selected libraries, in the order
of the list. -/
def goModLibraryLines (libs : List String) : List String :=
  libs.map (fun lib => "\tgithub.com/OkanUysal/" ++ lib ++ " v1.0.0\n")

/-- The import lines of the entrypoint for the selected libraries, in the
order of the list. -/
def libraryImportLines (libs : List String) : List String :=
  (libs.flatMap (addLibraryImport [])).map (fun imp => "\t" ++ imp ++ "\n")

/-- The feature lines of the readme for the selected libraries, in the order
of the list. -/
def readmeFeatureLines (libs : List String) : List String :=
  libs.map (fun lib => "- " ++ trimPrefix lib "go-" ++ "\n")

/-- The relative paths at which the pipeline writes files for a selection
(after defaulting), in the order of the pipeline. -/
def plannedFiles (c : ProjectConfig) : List String :=
  ["go.mod", mainPath (setDefaults c), "config/config.go", handlerPath (setDefaults c)]
    ++ (if (setDefaults c).hasLibrary "go-auth" = true then [middlewarePath (setDefaults c)]
        else [])
    ++ [".env", ".env.example", ".gitignore"]
    ++ (if (setDefaults c).Deployment = "railway" then ["railway.json"] else [])
    ++ ["README.md"]

/-- Every file of `fs` was in `fs0` already or lies at one of the relative
paths `allowed`. -/
def Within (allowed : List String) (fs0 fs : FileSystem) : Prop :=
  ∀ f ∈ fs.files, f ∈ fs0.files ∨ f.1.rel ∈ allowed

instance (allowed : List String) (fs0 fs : FileSystem) : Decidable (Within allowed fs0 fs) :=
  inferInstanceAs (Decidable (∀ f ∈ fs.files, f ∈ fs0.files ∨ f.1.rel ∈ allowed))

/-! ## Relocation of a generated tree -/

/-- The same relative path below another root. -/
def Path.reroot (root : String) (p : Path) : Path := ⟨root, p.rel⟩

/-- The same tree below another root. -/
def FileSystem.reroot (root : String) (fs : FileSystem) : FileSystem :=
  ⟨fs.dirs.map (Path.reroot root), fs.files.map (fun f => (f.1.reroot root, f.2))⟩

/-- Every directory and file of the file system lies below `root`. -/
def Rooted (root : String) (fs : FileSystem) : Prop :=
  (∀ p ∈ fs.dirs, p.root = root) ∧ (∀ f ∈ fs.files, f.1.root = root)

instance (root : String) (fs : FileSystem) : Decidable (Rooted root fs) :=
  inferInstanceAs (Decidable ((∀ p ∈ fs.dirs, p.root = root) ∧ (∀ f ∈ fs.files, f.1.root = root)))

/-- Two disks behave alike below their roots: a call on a relative path below
`root2` on the second disk succeeds exactly when the call on the same relative
path below `root1` succeeds on the first. -/
def Disk.Alike (d1 : Disk) (root1 : String) (d2 : Disk) (root2 : String) : Prop :=
  (∀ rel, d2.mkdirOk ⟨root2, rel⟩ = d1.mkdirOk ⟨root1, rel⟩)
    ∧ (∀ rel, d2.writeOk ⟨root2, rel⟩ = d1.writeOk ⟨root1, rel⟩)

/-- The relative paths and contents of the files of a file system. -/
def FileSystem.tree (fs : FileSystem) : List (String × String) :=
  fs.files.map (fun f => (f.1.rel, f.2))

/-- Two outcomes correspond: the same error, and the second tree is the first
one below the root `root2`, the first lying below `root1`. -/
def Corresponds (root1 root2 : String) (r1 r2 : Outcome) : Prop :=
  r2.err = r1.err ∧ r2.fs = r1.fs.reroot root2 ∧ Rooted root1 r1.fs

/-- A disk on which every call succeeds except the write of README.md. -/
def diskNoReadme : Disk := ⟨fun _ => true, fun p => p.rel != "README.md"⟩

/-! ## The request and response types (package `types`) -/

namespace Types

/-- DatabaseConfig holds database configuration (types.go, lines 14-16); the
field `Type` of the source is `Type_` here. -/
structure DatabaseConfig where
  Type_ : String
deriving DecidableEq

/-- GenerateRequest represents the project generation request
(types.go, lines 4-11). -/
structure GenerateRequest where
  Name : String
  ModulePath : String
  Structure : String
  Database : DatabaseConfig
  Libraries : List String
  Deployment : String
deriving DecidableEq

/-- GenerateResponse represents the generation response
(types.go, lines 30-36). -/
structure GenerateResponse where
  Success : Bool
  DownloadURL : String
  FileName : String
  Message : String
  Error : String
deriving DecidableEq

end Types

/-! ## The generate handler (package `handlers`) -/

namespace Handlers

/-- What the handler sends: a JSON body with a status, or the archive file
with its content disposition. -/
inductive Reply where
  | json (status : Nat) (body : Types.GenerateResponse)
  | file (filePath : String) (contentDisposition : String)
deriving DecidableEq

/-- The HTTP status of a reply; a served file has status 200. -/
def Reply.status : Reply → Nat
  | Reply.json status _ => status
  | Reply.file _ _ => 200

/-- Whether a reply is a JSON body with `success: false`. -/
def Reply.isFailure : Reply → Bool
  | Reply.json _ body => !body.Success
  | Reply.file _ _ => false

/-- The failure body `GenerateResponse{Success: false, Error: message}`. -/
def failure (message : String) : Types.GenerateResponse :=
  { Success := false, DownloadURL := "", FileName := "", Message := "", Error := message }

/-- The elements of `filepath.Join` joined by a slash (the cleaning of the
joined path is not modelled). -/
def joinPath (elems : List String) : String := String.intercalate "/" elems

/-- The temporary directory of a request: `temp/<name>_<unix time>`
(generate.go, line 66). -/
def tempDir (name : String) (now : Int) : String :=
  joinPath ["temp", name ++ "_" ++ toString now]

/-- The project directory of a request (generate.go, line 67). -/
def projectDir (name : String) (now : Int) : String :=
  joinPath [tempDir name now, name]

/-- The configuration handed to the generator (generate.go, lines 75-83). -/
def projectConfig (req : Types.GenerateRequest) (projectDir : String) : ProjectConfig :=
  { Name := req.Name,
    ModulePath := req.ModulePath,
    Structure := req.Structure,
    Database := req.Database.Type_,
    Libraries := req.Libraries,
    Deployment := req.Deployment,
    OutputDir := projectDir }

/-- GenerateProject generates a new project and returns a ZIP file
(generate.go, lines 27-124).  `body` is the result of binding the JSON body
(`none` when it is not well formed), `now` the Unix time of the request, and
`createZip` the archiver, which gets the file system, the source directory and
the target path.  The metrics counters and the deletion of the temporary
directory ten minutes later are left out. -/
def GenerateProject (d : Disk) (createZip : FileSystem → String → String → Outcome) (now : Int)
    (body : Option Types.GenerateRequest) (fs : FileSystem) : Reply × FileSystem :=
  match body with
  | none => (Reply.json 400 (failure "Invalid request body"), fs)
  | some req =>
    if req.Name = "" then (Reply.json 400 (failure "Project name is required"), fs)
    else if req.ModulePath = "" then (Reply.json 400 (failure "Module path is required"), fs)
    else
      let tempDir := tempDir req.Name now
      let projectDir := joinPath [tempDir, req.Name]
      let config := projectConfig req projectDir
      let r := Generator.GenerateProject d config fs
      match r.err with
      | some err => (Reply.json 500 (failure ("Failed to generate project: " ++ err)), r.fs)
      | none =>
        let zipFileName := req.Name ++ ".zip"
        let zipFilePath := joinPath [tempDir, zipFileName]
        let z := createZip r.fs projectDir zipFilePath
        match z.err with
        | some err => (Reply.json 500 (failure ("Failed to create ZIP: " ++ err)), z.fs)
        | none => (Reply.file zipFilePath ("attachment; filename=" ++ zipFileName), z.fs)

end Handlers

/-- The values of `structure`. -/
def structureValues : List String := ["simple", "standard"]

/-- The values of `database`. -/
def databaseValues : List String := ["postgres", "mysql", "mongodb", "none"]

/-- The values of `deployment`. -/
def deploymentValues : List String := ["railway", "local", "docker"]

/-- A request that passes validation with a structure outside the enum. -/
def requestOddStructure : Types.GenerateRequest :=
  { Name := "my-api", ModulePath := "my-api", Structure := "layered", Database := ⟨"none"⟩,
    Libraries := [], Deployment := "railway" }

/-! ## The pipeline as a list of artifacts -/

/-- An artifact of the pipeline: its relative path, its content, and whether
`GenerateProject` gets to see the error of its write. -/
structure Artifact where
  rel : String
  content : String
  checked : Bool
deriving DecidableEq

/-- The artifacts `GenerateProject` writes for a defaulted configuration, in
the order of the pipeline (generator.go, lines 55-112).  The two environment
files are written by `generateEnvFiles`, which drops the errors of its writes
(lines 419-422). -/
def artifacts (config : ProjectConfig) : List Artifact :=
  [⟨"go.mod", generateGoModContent config, true⟩,
   ⟨mainPath config, generateMainContent config, true⟩,
   ⟨"config/config.go", generateConfigContent config, true⟩,
   ⟨handlerPath config, generateHandlersContent config, true⟩]
    ++ (if config.hasLibrary "go-auth" then
          [⟨middlewarePath config, generateMiddlewareContent config, true⟩]
        else [])
    ++ [⟨".env", generateEnvContent config, false⟩,
        ⟨".env.example", generateEnvContent config, false⟩,
        ⟨".gitignore", generateGitignoreContent, true⟩]
    ++ (if config.Deployment = "railway" then
          [⟨"railway.json", generateRailwayContent config, true⟩]
        else [])
    ++ [⟨"README.md", generateReadmeContent config, true⟩]

/-- Writing a list of artifacts in order: the error of a checked write ends
the run, the error of an unchecked write is dropped. -/
def writeEach (d : Disk) (root : String) : List Artifact → FileSystem → Outcome
  | [], fs => ⟨none, fs⟩
  | a :: rest, fs =>
    if a.checked then (writeFile d fs ⟨root, a.rel⟩ a.content).andThen (writeEach d root rest)
    else writeEach d root rest (writeFile d fs ⟨root, a.rel⟩ a.content).fs

/-- A disk on which every call succeeds except the write of `.env`. -/
def diskNoEnv : Disk := ⟨fun _ => true, fun p => p.rel != ".env"⟩

/-! ## Reading the generated files -/

/-- The content of the file at `path` (`os.ReadFile`), if there is one. -/
def FileSystem.read (fs : FileSystem) (path : Path) : Option String :=
  (fs.files.find? (fun f => f.1 = path)).map Prod.snd

/-- The text after the first occurrence of `pat`. -/
def afterFirst (pat : List Char) : List Char → Option (List Char)
  | [] => stripLeading pat []
  | ch :: rest =>
    match stripLeading pat (ch :: rest) with
    | some after => some after
    | none => afterFirst pat rest

/-- The text between the first occurrence of `pat` and the next double quote. -/
def quotedAfter (pat : String) (content : String) : Option String :=
  (afterFirst pat.data content.data).map fun after =>
    String.mk (after.takeWhile (fun ch => ch != '"'))

/-- The default value a Go text passes to `getEnv` for the variable `key`. -/
def loaderDefault (content key : String) : Option String :=
  quotedAfter ("getEnv(\"" ++ key ++ "\", \"") content

/-- The value on the first line `key=value` of an environment file. -/
def envValue (content key : String) : Option String :=
  (((splitOnChar '\n' content.data).filterMap (stripLeading (key ++ "=").data)).head?).map
    String.mk

/-- The key/value pairs of the non-empty lines of an environment file. -/
def envPairs (content : String) : List (String × String) :=
  ((splitOnChar '\n' content.data).filter (fun line => !line.isEmpty)).map fun line =>
    (String.mk (line.takeWhile (fun ch => ch != '=')),
     String.mk ((line.dropWhile (fun ch => ch != '=')).drop 1))

/-- The example selection with the auth library instead of the logger. -/
def selectionAuth : ProjectConfig :=
  { exampleSelection with Libraries := ["go-auth"] }

/-- The ids of the OkanUysal libraries a Go text imports: what follows each
occurrence of `"github.com/OkanUysal/` up to the closing quote, in order. -/
def importedLibraries : List Char → List String
  | [] => []
  | ch :: rest =>
    (match stripLeading "\"github.com/OkanUysal/".data (ch :: rest) with
      | some after => [String.mk (after.takeWhile (fun x => x != '"'))]
      | none => [])
    ++ importedLibraries rest

/-- The start command of a deployment descriptor: the value of the key
`startCommand`. -/
def startCommand (content : String) : Option String :=
  quotedAfter "\"startCommand\": \"" content

/-! ## The library catalog (package types) -/

namespace Types

/-- A Go map from strings to strings, as its lookup `v, ok := m[key]`. -/
def GoMap : Type := String → Option String

/-- The map `make(map[string]string)`. -/
def GoMap.empty : GoMap := fun _ => none

/-- The assignment `m[key] = value`. -/
def GoMap.set (m : GoMap) (key value : String) : GoMap :=
  fun k => if k = key then some value else m k

/-- A map literal: the entries assigned in order. -/
def GoMap.ofList (entries : List (String × String)) : GoMap :=
  entries.foldl (fun m e => m.set e.1 e.2) GoMap.empty

/-- The value `m[key]`: the empty string when the key is absent. -/
def GoMap.index (m : GoMap) (key : String) : String :=
  match m key with
  | some v => v
  | none => ""

/-- Library represents an available library (types.go, lines 18-27). -/
structure Library where
  Name : String
  DisplayName : String
  Description : String
  Version : String
  RepoURL : String
  Category : String
  RequiresDB : Bool
deriving DecidableEq

/-- The libraries whose versions are looked up (github.go, lines 22-33). -/
def libraries : List String :=
  ["go-auth", "go-migration", "go-logger", "go-cache", "go-swagger", "go-response",
   "go-validator", "go-pagination", "go-websocket", "go-metrics"]

/-- FetchLatestVersions fetches latest versions from GitHub for all libraries
(github.go, lines 18-44).  The parameter is `fetchGitHubVersion` (lines 47-88)
with its client: the first tag of the repository, or the empty string on
every failure. -/
def FetchLatestVersions (fetchGitHubVersion : String → String) : GoMap :=
  libraries.foldl
    (fun versions lib =>
      let version := fetchGitHubVersion lib
      if version != "" then versions.set lib version else versions)
    GoMap.empty

/-- Default versions, the fallback if the lookup fails (types.go, lines 44-55). -/
def defaultVersions : GoMap :=
  GoMap.ofList
    [("go-auth", "v1.0.0"),
     ("go-migration", "v1.0.0"),
     ("go-logger", "v1.0.1"),
     ("go-cache", "v1.0.0"),
     ("go-swagger", "v1.1.1"),
     ("go-response", "v1.0.0"),
     ("go-validator", "v1.0.0"),
     ("go-pagination", "v1.0.0"),
     ("go-websocket", "v1.0.0"),
     ("go-metrics", "v1.0.5")]

/-- Helper to get version, looked up or fallback (types.go, lines 58-63). -/
def getVersion (versions : GoMap) (name : String) : String :=
  match versions name with
  | some v => if v != "" then v else defaultVersions.index name
  | none => defaultVersions.index name

/-- The list `GetAvailableLibraries` returns for the looked-up versions
(types.go, lines 65-156). -/
def availableLibraries (versions : GoMap) : List Library :=
  [{ Name := "go-auth",
     DisplayName := "Authentication",
     Description := "JWT authentication & authorization with middleware",
     Version := getVersion versions "go-auth",
     RepoURL := "https://github.com/OkanUysal/go-auth",
     Category := "Security",
     RequiresDB := false },
   { Name := "go-migration",
     DisplayName := "Database Migration",
     Description := "Database migrations for PostgreSQL, MySQL, MongoDB",
     Version := getVersion versions "go-migration",
     RepoURL := "https://github.com/OkanUysal/go-migration",
     Category := "Database",
     RequiresDB := true },
   { Name := "go-logger",
     DisplayName := "Structured Logger",
     Description := "High-performance structured logging with Zap",
     Version := getVersion versions "go-logger",
     RepoURL := "https://github.com/OkanUysal/go-logger",
     Category := "Observability",
     RequiresDB := false },
   { Name := "go-cache",
     DisplayName := "Caching",
     Description := "Multi-backend caching (Redis, In-Memory)",
     Version := getVersion versions "go-cache",
     RepoURL := "https://github.com/OkanUysal/go-cache",
     Category := "Performance",
     RequiresDB := false },
   { Name := "go-swagger",
     DisplayName := "API Documentation",
     Description := "Automatic Swagger/OpenAPI documentation",
     Version := getVersion versions "go-swagger",
     RepoURL := "https://github.com/OkanUysal/go-swagger",
     Category := "Documentation",
     RequiresDB := false },
   { Name := "go-response",
     DisplayName := "API Response",
     Description := "Standardized API response format",
     Version := getVersion versions "go-response",
     RepoURL := "https://github.com/OkanUysal/go-response",
     Category := "API",
     RequiresDB := false },
   { Name := "go-validator",
     DisplayName := "Request Validator",
     Description := "Request validation with custom rules",
     Version := getVersion versions "go-validator",
     RepoURL := "https://github.com/OkanUysal/go-validator",
     Category := "API",
     RequiresDB := false },
   { Name := "go-pagination",
     DisplayName := "Pagination",
     Description := "Offset & cursor-based pagination",
     Version := getVersion versions "go-pagination",
     RepoURL := "https://github.com/OkanUysal/go-pagination",
     Category := "API",
     RequiresDB := false },
   { Name := "go-websocket",
     DisplayName := "WebSocket",
     Description := "Real-time WebSocket with room management",
     Version := getVersion versions "go-websocket",
     RepoURL := "https://github.com/OkanUysal/go-websocket",
     Category := "Real-time",
     RequiresDB := false },
   { Name := "go-metrics",
     DisplayName := "Metrics & Monitoring",
     Description := "Prometheus metrics with Grafana integration",
     Version := getVersion versions "go-metrics",
     RepoURL := "https://github.com/OkanUysal/go-metrics",
     Category := "Observability",
     RequiresDB := false }]

/-- GetAvailableLibraries returns all available libraries with latest versions
(types.go, lines 39-157). -/
def GetAvailableLibraries (fetchGitHubVersion : String → String) : List Library :=
  let versions := FetchLatestVersions fetchGitHubVersion
  availableLibraries versions

end Types

namespace Handlers

/-- The JSON reply of the catalog endpoint: status, `success`, `data`, `count`. -/
structure LibrariesReply where
  status : Nat
  success : Bool
  data : List Types.Library
  count : Nat
deriving DecidableEq

/-- GetLibraries returns all available libraries (libraries.go, lines 18-33). -/
def GetLibraries (fetchGitHubVersion : String → String) : LibrariesReply :=
  let libraries := Types.GetAvailableLibraries fetchGitHubVersion
  ⟨200, true, libraries, libraries.length⟩

end Handlers

/-- A library entry without its version. -/
def metadata (l : Types.Library) : String × String × String × String × String × Bool :=
  (l.Name, l.DisplayName, l.Description, l.RepoURL, l.Category, l.RequiresDB)

/-- A lookup that fails for every library. -/
def fetchNothing : String → String := fun _ => ""

/-- A lookup that succeeds for the logger only. -/
def fetchLoggerOnly : String → String := fun lib => if lib = "go-logger" then "v9.9.9" else ""

/-! ## Directory trees and `filepath.Walk`

The archiver and the expiry sweep read a directory tree from the disk.  A tree
is an entry with its name, its modification time in nanoseconds and its content
(a file) or its entries (a directory), in whatever order the disk holds them.
A path is the list of its segments.  For `Walk` every entry can be read and it
never hands an error to its callback; the expiry sweep meets a disk on which
reading a directory and removing an entry can fail (`SweepDisk`). -/

/-- An entry of a directory tree. -/
inductive Node where
  | file (name : String) (modTime : Int) (content : String)
  | dir (name : String) (modTime : Int) (children : List Node)

/-- The name of an entry (`info.Name()`). -/
def Node.name : Node → String
  | Node.file n _ _ => n
  | Node.dir n _ _ => n

/-- Whether an entry is a directory (`info.IsDir()`). -/
def Node.isDir : Node → Bool
  | Node.file _ _ _ => false
  | Node.dir _ _ _ => true

/-- The modification time of an entry (`info.ModTime()`). -/
def Node.modTime : Node → Int
  | Node.file _ m _ => m
  | Node.dir _ m _ => m

/-- The order of Go strings on their characters: `a <= b`.  Go compares the
bytes of the UTF-8 encoding, which orders strings as their code points do. -/
def lexLe : List Char → List Char → Bool
  | [], _ => true
  | _ :: _, [] => false
  | a :: as, b :: bs =>
    if a.toNat < b.toNat then true
    else if b.toNat < a.toNat then false
    else lexLe as bs

/-- The order in which `readDirNames` lists the entries of a directory: by
name (`sort.Strings`). -/
def Node.le (a b : Node) : Prop := lexLe a.name.data b.name.data = true

instance : DecidableRel Node.le := fun a b =>
  inferInstanceAs (Decidable (lexLe a.name.data b.name.data = true))

mutual
/-- The tree as `filepath.Walk` reads it: the entries of every directory in the
order of their names. -/
def Node.sortTree : Node → Node
  | Node.file n m c => Node.file n m c
  | Node.dir n m cs => Node.dir n m (sortKids cs)
/-- The entries of a directory as `readDirNames` lists them, each read in
turn. -/
def sortKids : List Node → List Node
  | [] => []
  | c :: cs => List.orderedInsert Node.le c.sortTree (sortKids cs)
end

/-- One call of the callback of `filepath.Walk`: the path and what `info`
tells, with the content of a file. -/
structure Visit where
  path : List String
  isDir : Bool
  modTime : Int
  content : String
deriving DecidableEq

mutual
/-- The calls `walk` makes below `path` for an entry: the entry, then the
entries of a directory in their order. -/
def walkNode (path : List String) : Node → List Visit
  | Node.file n m c => [⟨path ++ [n], false, m, c⟩]
  | Node.dir n m cs => ⟨path ++ [n], true, m, ""⟩ :: walkKids (path ++ [n]) cs
/-- The loop of `walk` over the entries of a directory. -/
def walkKids (path : List String) : List Node → List Visit
  | [] => []
  | c :: cs => walkNode path c ++ walkKids path cs
end

/-- The calls of `filepath.Walk(root, fn)` for a callback that returns `nil`
and leaves the tree alone, where `root` is the entry `root` in the directory
`parent`. -/
def Walk (parent : List String) (root : Node) : List Visit :=
  walkNode parent root.sortTree

/-! ## The expiry sweep (package utils)

The sweep walks the tree the disk holds when it begins.  The clock is read
once (cleanup.go, line 17) and is a parameter.  Removing an entry and reading
the names of a directory can fail (`SweepDisk`); a removal that fails may have
removed a part of what the entry held.  The modification times are those the
tree records: that the removal of an entry updates the modification time of
the directory that held it is not modelled. -/

/-- The largest `time.Duration`. -/
def maxDuration : Int := 2 ^ 63 - 1

/-- The smallest `time.Duration`. -/
def minDuration : Int := -(2 ^ 63)

/-- Go's `t.Sub(u)` on times in nanoseconds: the difference, or the largest
(smallest) duration when the difference exceeds it. -/
def timeSub (t u : Int) : Int :=
  if t - u > maxDuration then maxDuration
  else if t - u < minDuration then minDuration
  else t - u

/-- The test `now.Sub(info.ModTime()) > maxAge` (cleanup.go, line 31). -/
def isOld (now maxAge modTime : Int) : Bool := decide (timeSub now modTime > maxAge)

/-- What a call of `os.RemoveAll(path)` does.  `done`: the entry is removed with
all it holds and the call returns `nil`.  `failed left`: the call returns an
error, having removed what it could: the entry itself stays, and of the
entries below it those at the paths `left` accepts are still there. -/
inductive Removal where
  | done
  | failed (left : List String → Bool)

/-- The disk as the sweep meets it: what `os.RemoveAll` does at each path, and
whether the names of the directory at a path can be read (`readDirNames`). -/
structure SweepDisk where
  remove : List String → Removal
  readable : List String → Bool

/-- A disk on which every removal succeeds and every directory can be read. -/
def SweepDisk.healthy : SweepDisk := ⟨fun _ => Removal.done, fun _ => true⟩

/-- The errors `filepath.Walk` hands to the callback, which returns them
(cleanup.go, lines 21-23): `lstat` of a name that was listed and is gone, and
`readDirNames` of a directory that cannot be read. -/
inductive WalkError where
  | lstat (path : List String)
  | readDir (path : List String)
deriving DecidableEq

/-- Every entry is there. -/
def present : List String → Bool := fun _ => true

mutual
/-- What is there of an entry when only the entries at the paths `alive`
accepts are left; an entry goes with all it holds. -/
def pruneNode (alive : List String → Bool) (path : List String) : Node → List Node
  | Node.file n m c => if alive (path ++ [n]) then [Node.file n m c] else []
  | Node.dir n m cs =>
    if alive (path ++ [n]) then [Node.dir n m (pruneKids alive (path ++ [n]) cs)] else []
/-- The same for the entries of a directory. -/
def pruneKids (alive : List String → Bool) (path : List String) : List Node → List Node
  | [] => []
  | c :: cs => pruneNode alive path c ++ pruneKids alive path cs
end

/-- The outcome of the sweep on a part of the tree: the error that stopped the
walk, if one did, what is left of the part, and the paths removed, one for
each `removed++` (cleanup.go, line 36). -/
structure Swept where
  err : Option WalkError
  left : List Node
  removed : List (List String)

/-- The outcome for a directory that stays, from the outcome for its entries. -/
def Swept.inDir (n : String) (m : Int) (r : Swept) : Swept :=
  ⟨r.err, [Node.dir n m r.left], r.removed⟩

/-- The loop of `walk` over the names of a directory: an error returned for an
entry stops the walk, and the entries after it stay as they are (`rest`). -/
def Swept.andThen (r : Swept) (rest : List Node) (s : Swept) : Swept :=
  match r.err with
  | some e => ⟨some e, r.left ++ rest, r.removed⟩
  | none => ⟨s.err, r.left ++ s.left, r.removed ++ s.removed⟩

mutual
/-- The expiry sweep on an entry below the root (cleanup.go, lines 20-46, under
`walk`).  The tree is the one the disk held when the sweep began, and `alive`
tells which of its entries are still there; the entry swept is.  `walk` reads
the names of a directory before it calls the callback, and a directory that
cannot be read has the callback return the error (line 22), which stops the
walk.  An old entry is removed with all it holds and `SkipDir` keeps the walk
out of it.  When `RemoveAll` fails the callback returns `nil` (line 34) and
the walk goes on: into the names read before the call, of which those the call
removed are gone. -/
def sweepNode (d : SweepDisk) (now maxAge : Int) (alive : List String → Bool)
    (path : List String) : Node → Swept
  | Node.file n m c =>
    if isOld now maxAge m then
      match d.remove (path ++ [n]) with
      | Removal.done => ⟨none, [], [path ++ [n]]⟩
      | Removal.failed _ => ⟨none, [Node.file n m c], []⟩
    else ⟨none, [Node.file n m c], []⟩
  | Node.dir n m cs =>
    if d.readable (path ++ [n]) then
      if isOld now maxAge m then
        match d.remove (path ++ [n]) with
        | Removal.done => ⟨none, [], [path ++ [n]]⟩
        | Removal.failed left =>
          Swept.inDir n m
            (sweepKids d now maxAge alive (fun q => alive q && left q) (path ++ [n]) cs)
      else Swept.inDir n m (sweepKids d now maxAge alive alive (path ++ [n]) cs)
    else
      ⟨some (WalkError.readDir (path ++ [n])),
        [Node.dir n m (pruneKids alive (path ++ [n]) cs)], []⟩
/-- The loop of `walk` over the entries of a directory: `listed` tells which
entries were there when the names were read, `alive` which are there now.  A
name that was listed and is gone makes `lstat` fail; the callback returns that
error and the walk stops. -/
def sweepKids (d : SweepDisk) (now maxAge : Int) (listed alive : List String → Bool)
    (path : List String) : List Node → Swept
  | [] => ⟨none, [], []⟩
  | c :: cs =>
    if listed (path ++ [c.name]) then
      if alive (path ++ [c.name]) then
        Swept.andThen (sweepNode d now maxAge alive path c) (pruneKids alive path cs)
          (sweepKids d now maxAge listed alive path cs)
      else ⟨some (WalkError.lstat (path ++ [c.name])), pruneKids alive path cs, []⟩
    else sweepKids d now maxAge listed alive path cs
end

/-- The outcome of a run of `CleanupOldFiles`: the returned error, what `dir`
names afterwards, and the paths removed. -/
structure Cleanup where
  err : Option WalkError
  root : Option Node
  removed : List (List String)

/-- CleanupOldFiles removes files older than the specified duration
(cleanup.go, lines 12-53).  `now` is the reading of the clock (line 17) and
`root` is what `dir` names in the directory `parent`, if it exists.  A missing
root returns `nil` at once; the root itself is skipped (lines 26-28), a root
whose names cannot be read returns the error of the walk, and the error of the
walk is the result (line 52). -/
def CleanupOldFiles (d : SweepDisk) (now maxAge : Int) (parent : List String) :
    Option Node → Cleanup
  | none => ⟨none, none, []⟩
  | some (Node.file n m c) => ⟨none, some (Node.file n m c), []⟩
  | some (Node.dir n m cs) =>
    if d.readable (parent ++ [n]) then
      ⟨(sweepKids d now maxAge present present (parent ++ [n]) (sortKids cs)).err,
        some (Node.dir n m
          (sweepKids d now maxAge present present (parent ++ [n]) (sortKids cs)).left),
        (sweepKids d now maxAge present present (parent ++ [n]) (sortKids cs)).removed⟩
    else ⟨some (WalkError.readDir (parent ++ [n])), some (Node.dir n m cs), []⟩

mutual
/-- The calls of `walk` for an entry, each with the modification times of the
entry and of the directories above it below the root (nearest first). -/
def agesNode (path : List String) (above : List Int) : Node → List (Visit × List Int)
  | Node.file n m c => [(⟨path ++ [n], false, m, c⟩, m :: above)]
  | Node.dir n m cs =>
    (⟨path ++ [n], true, m, ""⟩, m :: above) :: agesKids (path ++ [n]) (m :: above) cs
/-- The same for the entries of a directory. -/
def agesKids (path : List String) (above : List Int) : List Node → List (Visit × List Int)
  | [] => []
  | c :: cs => agesNode path above c ++ agesKids path above cs
end

/-- Neither the entry nor a directory above it is old. -/
def survives (now maxAge : Int) (e : Visit × List Int) : Bool :=
  e.2.all (fun m => !isOld now maxAge m)

/-- The entries of a tree, if there is one: the calls of `walk` below the
root. -/
def entriesBelow (parent : List String) : Option Node → List Visit
  | none => []
  | some (Node.file _ _ _) => []
  | some (Node.dir n _ cs) => walkKids (parent ++ [n]) cs

/-- A small tree under `temp`: an old project directory that holds a fresh
file, a fresh project directory that holds an old file, and a file aged
exactly the maximum age.  The clock reads 1000 and the maximum age is 100. -/
def tempTree : Node :=
  Node.dir "temp" 0
    [Node.dir "b_2" 950 [Node.file "old.zip" 10 "z", Node.file "new.zip" 990 "y"],
     Node.dir "a_1" 100 [Node.file "fresh.txt" 999 "x"],
     Node.file "edge" 900 "e"]

/-- A disk on which the removal of the directory `temp/a_1` fails after it
removed what the directory held, and every other removal succeeds. -/
def diskPartRemoval : SweepDisk :=
  ⟨fun p => if p = ["temp", "a_1"] then Removal.failed (fun _ => false) else Removal.done,
    fun _ => true⟩

/-- A disk on which every removal fails and removes nothing. -/
def diskNoRemoval : SweepDisk := ⟨fun _ => Removal.failed (fun _ => true), fun _ => true⟩

/-- A disk on which every removal succeeds and the names of the directory
`temp/b_2` cannot be read. -/
def diskUnreadable : SweepDisk :=
  ⟨fun _ => Removal.done, fun p => p != ["temp", "b_2"]⟩

/-- A root that holds one file, last modified at time 0. -/
def ancientTree : Node := Node.dir "temp" 0 [Node.file "ancient" 0 "a"]

mutual
/-- Every directory of the tree lists its entries in the order of their
names. -/
def Node.Ordered : Node → Prop
  | Node.file _ _ _ => True
  | Node.dir _ _ cs => KidsOrdered cs ∧ cs.Sorted Node.le
/-- Every entry of the list is ordered. -/
def KidsOrdered : List Node → Prop
  | [] => True
  | c :: cs => c.Ordered ∧ KidsOrdered cs
end

/-- The entries of a tree, if there is one, each with the modification times
of the entry and of the directories above it below the root. -/
def agesBelow (parent : List String) : Option Node → List (Visit × List Int)
  | none => []
  | some (Node.file _ _ _) => []
  | some (Node.dir n _ cs) => agesKids (parent ++ [n]) [] cs

/-! ## The archive (handlers/generate.go, createZip)

The archive is the list of its entries: the header as `archive.CreateHeader`
records it and the bytes copied to the writer it returns.  The host separator
of `filepath` is a parameter. -/

/-- The method `zip.Store`. -/
def zipStore : Nat := 0

/-- The method `zip.Deflate`. -/
def zipDeflate : Nat := 8

/-- The fields of `zip.FileHeader` the archiver deals with. -/
structure FileHeader where
  Name : String
  Method : Nat
  Modified : Int
  IsDir : Bool
deriving DecidableEq

/-- An entry of the archive: its header and its data. -/
structure ZipEntry where
  header : FileHeader
  data : String
deriving DecidableEq

/-- Which calls of the archiver succeed: `os.Create` of the target, adding an
entry for a path, `os.Open` of a path. -/
structure ZipDisk where
  createOk : Bool
  writeOk : List String → Bool
  openOk : List String → Bool

/-- Every call of the archiver succeeds. -/
def ZipDisk.healthy : ZipDisk := ⟨true, fun _ => true, fun _ => true⟩

/-- The header `zip.FileInfoHeader(info)` gives: the base name, no method, the
modification time and the mode of the entry. -/
def FileInfoHeader (v : Visit) : FileHeader :=
  ⟨(v.path.getLast?).getD "", zipStore, v.modTime, v.isDir⟩

/-- The segments of `filepath.Rel(base, target)`: what is left of the target
after the segments it shares with the base, behind one `..` for every segment
left of the base. -/
def relSegments : List String → List String → List String
  | [], target => target
  | b :: base, [] => (b :: base).map (fun _ => "..")
  | b :: base, t :: target =>
    if b = t then relSegments base target
    else (b :: base).map (fun _ => "..") ++ t :: target

/-- A path as text: its segments with the separator between them. -/
def joinSep (sep : Char) : List String → List Char
  | [] => []
  | [s] => s.data
  | s :: t :: rest => s.data ++ sep :: joinSep sep (t :: rest)

/-- Go's `filepath.ToSlash` on a host with separator `sep`. -/
def ToSlash (sep : Char) (path : List Char) : List Char :=
  if sep = '/' then path else path.map (fun ch => if ch = sep then '/' else ch)

/-- The header `createZip` builds for a call of the walk
(generate.go, lines 143-164): the header of the entry with the slash-separated
path relative to the parent of the source directory as its name, a trailing
slash for a directory, and the deflate method. -/
def zipHeader (sep : Char) (sourceDir : List String) (v : Visit) : FileHeader :=
  let relPath := joinSep sep (relSegments sourceDir.dropLast v.path)
  let header := FileInfoHeader v
  let header := { header with Name := String.mk (ToSlash sep relPath) }
  let header := { header with Method := zipDeflate }
  let header := if v.isDir then { header with Name := header.Name ++ "/" } else header
  header

/-- The header as `archive.CreateHeader(header)` of `archive/zip` records it.
A name that ends in a slash makes a directory entry, which has no data: the
writer records it with the method `Store`, whatever the header asks for. -/
def CreateHeader (header : FileHeader) : FileHeader :=
  if header.Name.data.getLast? = some '/' then { header with Method := zipStore } else header

/-- The callback of the walk in `createZip` (generate.go, lines 137-187) for a
call without error: the error it returns and the entries it has added. -/
def zipVisit (z : ZipDisk) (sep : Char) (sourceDir : List String) (v : Visit) :
    Option String × List ZipEntry :=
  if v.path = sourceDir then (none, [])
  else
    let header := zipHeader sep sourceDir v
    if !z.writeOk v.path then (some "create header", [])
    else
      let recorded := CreateHeader header
      if !v.isDir then
        if !z.openOk v.path then (some "open", [⟨recorded, ""⟩])
        else (none, [⟨recorded, v.content⟩])
      else (none, [⟨recorded, ""⟩])

/-- The walk of `createZip` over the calls of `filepath.Walk`: it ends at the
first error. -/
def zipWalk (z : ZipDisk) (sep : Char) (sourceDir : List String) :
    List Visit → Option String × List ZipEntry
  | [] => (none, [])
  | v :: vs =>
    match zipVisit z sep sourceDir v with
    | (some e, added) => (some e, added)
    | (none, added) =>
      ((zipWalk z sep sourceDir vs).1, added ++ (zipWalk z sep sourceDir vs).2)

/-- createZip creates a ZIP archive of the specified directory
(generate.go, lines 126-188).  The source directory is the entry `root` in the
directory `parent`; the target lies outside it.  The result is the returned
error and the entries of the archive. -/
def createZip (z : ZipDisk) (sep : Char) (parent : List String) (root : Node) :
    Option String × List ZipEntry :=
  if !z.createOk then (some "create", [])
  else zipWalk z sep (parent ++ [root.name]) (Walk parent root)

/-- The name the archive is to give an entry: the path relative to the parent
of the root with forward slashes, and a trailing slash for a directory. -/
def entryName (v : Visit) : String :=
  String.mk (joinSep '/' v.path ++ (if v.isDir then ['/'] else []))

/-- A name an entry of a directory can have on a host with separator `sep`:
not empty, without a slash and without the separator. -/
def goodName (sep : Char) (n : String) : Bool :=
  !n.data.isEmpty && !n.data.contains '/' && !n.data.contains sep

mutual
/-- Every name in the tree is a good name and the entries of a directory have
different names. -/
def Node.wellFormed (sep : Char) : Node → Bool
  | Node.file n _ _ => goodName sep n
  | Node.dir n _ cs =>
    goodName sep n && kidsWellFormed sep cs && decide ((cs.map Node.name).Nodup)
/-- Every entry of the list is well formed. -/
def kidsWellFormed (sep : Char) : List Node → Bool
  | [] => true
  | c :: cs => c.wellFormed sep && kidsWellFormed sep cs
end

/-- Unpacking one entry below `dest` on a disk without failures: a name that
ends in a slash makes the directory of that name, any other name makes the file
of that name with the data of the entry. -/
def unpackEntry (dest : String) (fs : FileSystem) (e : ZipEntry) : FileSystem :=
  if e.header.Name.data.getLast? = some '/' then
    (mkdirAll Disk.healthy fs ⟨dest, String.mk e.header.Name.data.dropLast⟩).fs
  else (writeFile Disk.healthy fs ⟨dest, e.header.Name⟩ e.data).fs

/-- Unpacking an archive into the empty directory `dest`. -/
def unpack (dest : String) (entries : List ZipEntry) : FileSystem :=
  entries.foldl (unpackEntry dest) FileSystem.empty

/-- The directories among the entries of a tree, as paths below `dest`. -/
def treeDirs (dest : String) (visits : List Visit) : List Path :=
  (visits.filter (fun v => v.isDir)).map (fun v => ⟨dest, String.mk (joinSep '/' v.path)⟩)

/-- The files among the entries of a tree, as paths below `dest`, with their
bytes. -/
def treeFiles (dest : String) (visits : List Visit) : List (Path × String) :=
  (visits.filter (fun v => !v.isDir)).map
    (fun v => (⟨dest, String.mk (joinSep '/' v.path)⟩, v.content))

/-- A project tree as the disk may hold it: files at the root, a directory with
a file, a directory with a directory, and an empty directory. -/
def projectTree : Node :=
  Node.dir "my-api" 5
    [Node.file "main.go" 7 "package main\n",
     Node.dir "migrations" 6 [],
     Node.file ".env" 8 "PORT=8080\n",
     Node.dir "internal" 6 [Node.dir "handlers" 6 [Node.file "handlers.go" 9 "package handlers\n"]],
     Node.dir "config" 6 [Node.file "config.go" 7 "package config\n"]]

/-- The entry the archive is to hold for a call of the walk: the name of the
entry, the deflate method for a file and the store method for a directory, the
modification time and the kind of the entry, and the bytes of a file. -/
def entryFor (v : Visit) : ZipEntry :=
  ⟨⟨entryName v, if v.isDir then zipStore else zipDeflate, v.modTime, v.isDir⟩, v.content⟩

/-- The entries `kids` of a directory after the entry `leaf` is put at the
path `segs` below it: missing directories on the way are created, an entry at
the path itself is kept (a directory) or replaced (`replace`, a file). -/
def insertAt (leaf : String → Node) (replace : Bool) : List String → List Node → List Node
  | [], kids => kids
  | [s], kids =>
    if replace then kids.filter (fun k => k.name != s) ++ [leaf s]
    else if kids.any (fun k => k.name == s) then kids
    else kids ++ [leaf s]
  | s :: t :: rest, kids =>
    if kids.any (fun k => k.name == s) then
      kids.map fun k =>
        match k with
        | Node.dir n m cs =>
          if n = s then Node.dir n m (insertAt leaf replace (t :: rest) cs) else Node.dir n m cs
        | Node.file n m c => Node.file n m c
    else kids ++ [Node.dir s 0 (insertAt leaf replace (t :: rest) [])]

/-- The directory tree, named `name`, that the directories and files of a file
system state make up below their root (all modification times 0). -/
def FileSystem.toNode (name : String) (fs : FileSystem) : Node :=
  Node.dir name 0
    (fs.files.foldl
      (fun kids f => insertAt (fun s => Node.file s 0 f.2) true (pathSegments f.1.rel) kids)
      (fs.dirs.foldl
        (fun kids d =>
          if d.rel = "" then kids
          else insertAt (fun s => Node.dir s 0 []) false (pathSegments d.rel) kids)
        []))

/-! ## Parent directories and the run command of the readme -/

/-- The directory part of a relative slash path (`filepath.Dir`): the path
without its last segment; the empty path stands for the output root. -/
def parentDir (rel : String) : String :=
  String.intercalate "/" (pathSegments rel).dropLast

/-- The run command a readme gives: its first line that starts with
`go run `. -/
def readmeRunCommand (content : String) : Option String :=
  (((splitOnChar '\n' content.data).filter
      (fun line => (stripLeading "go run ".data line).isSome)).head?).map String.mk

/-- The example selection with the layered structure. -/
def selectionStandard : ProjectConfig :=
  { exampleSelection with Structure := "standard" }

/-- The example selection with the swagger library instead of the logger. -/
def selectionSwagger : ProjectConfig :=
  { exampleSelection with Libraries := ["go-swagger"] }

/-- The example selection (database `none`) with the migration library instead
of the logger. -/
def selectionMigration : ProjectConfig :=
  { exampleSelection with Libraries := ["go-migration"] }

/-! ## Parts of the entrypoint, the loader and the environment files -/

/-- The example selection without libraries and with a module path that is
the text of the logger block. -/
def selectionBlockInPath : ProjectConfig :=
  { exampleSelection with Libraries := [], ModulePath := loggerBlock }

/-- The fixed texts of the import block of the entrypoint, line by line: the
lines of the fixed imports and of the four library imports, and what stands
before and after the module path on its line. -/
def headerLines : List String :=
  ["package main\n\nimport (\n", ")\n\n", "\t" ++ "\"log\"" ++ "\n",
   "\t" ++ "\"github.com/gin-gonic/gin\"" ++ "\n", "\t" ++ "\"", "/config\"" ++ "\n",
   "\t" ++ "\"github.com/OkanUysal/go-logger\"" ++ "\n",
   "\t" ++ "\"github.com/OkanUysal/go-metrics\"" ++ "\n",
   "\t" ++ "\"github.com/OkanUysal/go-migration\"" ++ "\n",
   "\t" ++ "\"github.com/OkanUysal/go-swagger\"" ++ "\n"]

/-- The example selection without libraries and with a line break in the
project name. -/
def selectionLineBreak : ProjectConfig :=
  { exampleSelection with Name := "my\napi", Libraries := [] }

/-- The environment content after the line of `APP_NAME`, for the three
conditions of the generator: a database, the auth library, the logger
library. -/
def envAfter (db au lg : Bool) : String :=
  joinAll ["PORT=8080\n", if db = true then "DATABASE_URL=\n" else "",
    if au = true then "JWT_SECRET=your-secret-key\n" else "",
    if lg = true then "LOG_LEVEL=info\n" else ""]

/-- The project name stands for itself between the quotes of a Go string
literal and on one line: it holds no double quote, no backslash and no line
break. -/
def plainName (name : String) : Bool :=
  name.data.all (fun ch => ch != '"' && ch != '\\' && ch != '\n')

/-- The config loader up to the project name, for the three conditions of the
generator: a database, the auth library, the logger library. -/
def configBefore (db au lg : Bool) : String :=
  joinAll [structHead, if db = true then "\tDatabaseURL string\n" else "",
    if au = true then "\tJWTSecret string\n" else "",
    if lg = true then "\tLogLevel string\n" else "", structEnd, loadHead]

/-- The config loader after the project name. -/
def configAfter (db au lg : Bool) : String :=
  joinAll [loadAfterName,
    if db = true then "\t\tDatabaseURL: getEnv(\"DATABASE_URL\", \"\"),\n" else "",
    if au = true then "\t\tJWTSecret: getEnv(\"JWT_SECRET\", \"\"),\n" else "",
    if lg = true then "\t\tLogLevel: getEnv(\"LOG_LEVEL\", \"info\"),\n" else "",
    loadEnd, configGetEnv]

/-- No occurrence of `pat` that begins with characters other than `ch` before
`lit` reaches into `lit`: for every split of `pat` into a non-empty beginning
free of `ch` and an ending, the ending does not agree with `lit`. -/
def noRunFree (ch : Char) : List Char → List Char → Bool
  | [], _ => true
  | a :: p, lit => if a = ch then true else !agree p lit && noRunFree ch p lit

/-- The example selection without libraries and with a double quote in the
project name. -/
def selectionQuote : ProjectConfig :=
  { exampleSelection with Name := "a\"b", Libraries := [] }

/-! # Theorems -/

/-! ## Library membership -/

theorem hasLibraryIn_iff (lib : String) (libs : List String) :
    hasLibraryIn lib libs = true ↔ lib ∈ libs := by
  induction libs with
  | nil => simp [hasLibraryIn]
  | cons l ls ih =>
    by_cases h : l = lib
    · simp [hasLibraryIn, h]
    · have h2 : ¬ lib = l := fun e => h e.symm
      simp [hasLibraryIn, h, h2, ih]

theorem hasLibrary_iff (c : ProjectConfig) (lib : String) :
    c.hasLibrary lib = true ↔ lib ∈ c.Libraries :=
  hasLibraryIn_iff lib c.Libraries

theorem hasLibrary_eq_decide (c : ProjectConfig) (lib : String) :
    c.hasLibrary lib = decide (lib ∈ c.Libraries) := by
  by_cases h : lib ∈ c.Libraries
  · simp [h, (hasLibrary_iff c lib).2 h]
  · have : ¬ c.hasLibrary lib = true := fun e => h ((hasLibrary_iff c lib).1 e)
    simp [h, this]

/-! ## Occurrences: composition lemmas -/

theorem agree_of_isPrefix_append : ∀ (p s v : List Char), p <+: s ++ v → agree p s = true
  | [], _, _, _ => by simp [agree]
  | _ :: _, [], _, _ => by simp [agree]
  | a :: p, b :: s, v, h => by
    rw [List.cons_append, List.cons_prefix_cons] at h
    simp [agree, h.1, agree_of_isPrefix_append p s v h.2]

theorem Safe.nil (pat : List Char) : Safe pat [] := fun _ h => h

theorem Safe.append {pat a b : List Char} (ha : Safe pat a) (hb : Safe pat b) :
    Safe pat (a ++ b) := by
  intro v h
  rw [List.append_assoc] at h
  exact hb v (ha _ h)

theorem Safe.lit {pat : List Char} : ∀ {lit : List Char}, noStart pat lit = true → Safe pat lit
  | [], _ => Safe.nil pat
  | b :: t, h => by
    intro v hv
    simp only [noStart, Bool.and_eq_true, Bool.not_eq_true'] at h
    rw [List.cons_append, List.infix_cons_iff] at hv
    rcases hv with hv | hv
    · have := agree_of_isPrefix_append pat (b :: t) v (by simpa using hv)
      rw [h.1] at this
      exact absurd this (by simp)
    · exact Safe.lit h.2 v hv

theorem Safe.not_occurs {pat t : List Char} (hp : pat ≠ []) (h : Safe pat t) : ¬ pat <:+: t := by
  intro hc
  have := h [] (by simpa using hc)
  exact hp (List.infix_nil.1 this)

theorem noneAgree_spec : ∀ (x lit q : List Char), noneAgree x lit = true → q ≠ [] → q <:+ x →
    agree q lit = false
  | [], _, q, _, hq, hs => absurd (List.suffix_nil.1 hs) hq
  | a :: x, lit, q, h, hq, hs => by
    simp only [noneAgree, Bool.and_eq_true, Bool.not_eq_true'] at h
    rcases List.suffix_cons_iff.1 hs with e | hs2
    · rw [e]; exact h.1
    · exact noneAgree_spec x lit q h.2 hq hs2

theorem occurs_before_lit {pat lit : List Char} (hr : noRunInto pat lit = true) (w : List Char) :
    ∀ v : List Char, pat <:+: v ++ (lit ++ w) → pat <:+: v ∨ pat <:+: lit ++ w
  | [], h => Or.inr (by simpa using h)
  | a :: v, h => by
    rw [List.cons_append, List.infix_cons_iff] at h
    rcases h with h | h
    · -- pat begins the text
      obtain ⟨t, ht⟩ := h
      have ht2 : pat ++ t = (a :: v) ++ (lit ++ w) := by simpa using ht
      rcases List.append_eq_append_iff.1 ht2 with ⟨b, hb1, _⟩ | ⟨q, hq1, hq2⟩
      · exact Or.inl ⟨[], b, by simpa using hb1.symm⟩
      · by_cases hq : q = []
        · subst hq
          exact Or.inl ⟨[], [], by simpa using hq1⟩
        · exfalso
          have hsuf : q <:+ pat.tail := by
            rw [hq1]; exact ⟨v, by simp⟩
          have h1 := noneAgree_spec _ lit q hr hq hsuf
          have h2 := agree_of_isPrefix_append q lit w ⟨t, hq2.symm⟩
          rw [h1] at h2
          exact absurd h2 (by simp)
    · rcases occurs_before_lit hr w v h with h | h
      · exact Or.inl (List.infix_cons h)
      · exact Or.inr h

theorem Safe.var {pat v lit : List Char} (hv : ¬ pat <:+: v) (hr : noRunInto pat lit = true)
    (hl : Safe pat lit) : Safe pat (v ++ lit) := by
  intro w h
  rw [List.append_assoc] at h
  rcases occurs_before_lit hr w v h with h | h
  · exact absurd h hv
  · exact hl w h

theorem Safe.flatten {pat : List Char} : ∀ {ls : List (List Char)}, (∀ x ∈ ls, Safe pat x) →
    Safe pat ls.flatten
  | [], _ => Safe.nil pat
  | x :: ls, h => by
    rw [List.flatten_cons]
    exact Safe.append (h x (List.mem_cons_self _ _))
      (Safe.flatten fun y hy => h y (List.mem_cons_of_mem _ hy))

theorem foldl_append_data {β : Type} (g : β → String) :
    ∀ (l : List β) (init : String),
      (l.foldl (fun acc x => acc ++ g x) init).data
        = init.data ++ (l.map (fun x => (g x).data)).flatten
  | [], init => by simp
  | x :: l, init => by
    rw [List.foldl_cons, foldl_append_data g l (init ++ g x)]
    simp [String.data_append, List.append_assoc]

/-! ## Occurrences in strings built by concatenation -/

theorem safe_data_append {pat : List Char} {a b : String} (ha : Safe pat a.data)
    (hb : Safe pat b.data) : Safe pat (a ++ b).data := by
  rw [String.data_append]; exact Safe.append ha hb

theorem safe_data_lit_var_lit {pat : List Char} {a v b : String} (ha : Safe pat a.data)
    (hv : ¬ pat <:+: v.data) (hr : noRunInto pat b.data = true) (hb : Safe pat b.data) :
    Safe pat (a ++ v ++ b).data := by
  rw [String.data_append, String.data_append, List.append_assoc]
  exact Safe.append ha (Safe.var hv hr hb)

theorem safe_data_foldl {pat : List Char} {β : Type} (g : β → String) (l : List β)
    (init : String) (hi : Safe pat init.data) (hg : ∀ x ∈ l, Safe pat (g x).data) :
    Safe pat (l.foldl (fun acc x => acc ++ g x) init).data := by
  rw [foldl_append_data]
  refine Safe.append hi (Safe.flatten ?_)
  intro y hy
  obtain ⟨x, hx, rfl⟩ := List.mem_map.1 hy
  exact hg x hx

theorem not_contains_of_safe {text pat : String} (hp : pat.data ≠ [])
    (h : Safe pat.data text.data) : ¬ Contains text pat :=
  Safe.not_occurs hp h

theorem setDefaults_Name (c : ProjectConfig) : (setDefaults c).Name = c.Name := by
  unfold setDefaults; simp only []; split_ifs <;> rfl

theorem setDefaults_ModulePath (c : ProjectConfig) : (setDefaults c).ModulePath = c.ModulePath := by
  unfold setDefaults; simp only []; split_ifs <;> rfl

theorem setDefaults_Database_none (c : ProjectConfig) (h : c.Database = "none" ∨ c.Database = "") :
    (setDefaults c).Database = "none" := by
  unfold setDefaults; simp only []; split_ifs <;> simp_all

/-! ## C1: the directory plan -/

/-- C1: for every selection and every database value, the directory list is
`config`, then the four layered directories exactly when the structure is
`standard`, then `migrations` exactly when `go-migration` is among the
libraries; on a disk without failures `createDirectoryStructure` creates
exactly these directories, in this order, below the output root. -/
theorem C1_directory_plan (c : ProjectConfig) (db : String) :
    plannedDirs { c with Database := db }
        = ["config"]
          ++ (if c.Structure = "standard" then
                ["cmd/server", "internal/handlers", "internal/middleware", "internal/models"]
              else [])
          ++ (if "go-migration" ∈ c.Libraries then ["migrations"] else [])
      ∧ (createDirectoryStructure Disk.healthy { c with Database := db } FileSystem.empty).err = none
      ∧ (createDirectoryStructure Disk.healthy { c with Database := db } FileSystem.empty).fs.dirs
          = (plannedDirs { c with Database := db }).map (fun dir => (⟨c.OutputDir, dir⟩ : Path)) := by
  have hl : ∀ c2 : ProjectConfig, c2.hasLibrary "go-migration" = decide ("go-migration" ∈ c2.Libraries) :=
    fun c2 => hasLibrary_eq_decide c2 _
  by_cases hs : c.Structure = "standard" <;> by_cases hm : "go-migration" ∈ c.Libraries <;>
    simp [plannedDirs, createDirectoryStructure, mkdirEach, mkdirAll, Outcome.andThen,
      Disk.healthy, FileSystem.empty, hl, hs, hm]

theorem andThen_none (fs : FileSystem) (k : FileSystem → Outcome) :
    (Outcome.andThen ⟨none, fs⟩ k) = k fs := rfl

theorem mkdirAll_healthy (fs : FileSystem) (p : Path) :
    ∃ ds, mkdirAll Disk.healthy fs p = ⟨none, ⟨ds, fs.files⟩⟩ := by
  by_cases h : p ∈ fs.dirs
  · exact ⟨fs.dirs, by simp [mkdirAll, Disk.healthy, h]⟩
  · exact ⟨fs.dirs ++ [p], by simp [mkdirAll, Disk.healthy, h]⟩

theorem mkdirEach_healthy (root : String) (dirs : List String) :
    ∀ fs : FileSystem, ∃ ds, mkdirEach Disk.healthy root dirs fs = ⟨none, ⟨ds, fs.files⟩⟩ := by
  induction dirs with
  | nil => intro fs; exact ⟨fs.dirs, rfl⟩
  | cons dir rest ih =>
    intro fs
    obtain ⟨ds, h⟩ := mkdirAll_healthy fs ⟨root, dir⟩
    obtain ⟨ds2, h2⟩ := ih ⟨ds, fs.files⟩
    exact ⟨ds2, by simp [mkdirEach, h, andThen_none, h2]⟩

theorem writeFile_healthy_fresh (ds : List Path) (files : List (Path × String)) (p : Path)
    (content : String) (h : ∀ f ∈ files, f.1 ≠ p) :
    writeFile Disk.healthy ⟨ds, files⟩ p content = ⟨none, ⟨ds, files ++ [(p, content)]⟩⟩ := by
  have : files.filter (fun f => f.1 ≠ p) = files := by
    rw [List.filter_eq_self]; intro f hf; simpa using h f hf
  unfold writeFile
  rw [this]
  rfl

theorem setDefaults_Libraries (c : ProjectConfig) : (setDefaults c).Libraries = c.Libraries := by
  unfold setDefaults; simp only []; split_ifs <;> rfl

theorem setDefaults_OutputDir (c : ProjectConfig) : (setDefaults c).OutputDir = c.OutputDir := by
  unfold setDefaults; simp only []; split_ifs <;> rfl

theorem setDefaults_standard (c : ProjectConfig) :
    (setDefaults c).Structure = "standard" ↔ c.Structure = "standard" := by
  unfold setDefaults; simp only []; split_ifs <;> simp_all

/-- The files `GenerateProject` writes on a disk without failures, in the order
of writing. -/
theorem GenerateProject_healthy (c : ProjectConfig) :
    ∃ ds, GenerateProject Disk.healthy c FileSystem.empty = ⟨none, ⟨ds,
      [((⟨c.OutputDir, "go.mod"⟩ : Path), generateGoModContent (setDefaults c)),
       (⟨c.OutputDir, mainPath c⟩, generateMainContent (setDefaults c)),
       (⟨c.OutputDir, "config/config.go"⟩, generateConfigContent (setDefaults c)),
       (⟨c.OutputDir, handlerPath c⟩, generateHandlersContent (setDefaults c))]
      ++ (if "go-auth" ∈ c.Libraries then
            [(⟨c.OutputDir, middlewarePath c⟩, generateMiddlewareContent (setDefaults c))]
          else [])
      ++ [(⟨c.OutputDir, ".env"⟩, generateEnvContent (setDefaults c)),
          (⟨c.OutputDir, ".env.example"⟩, generateEnvContent (setDefaults c)),
          (⟨c.OutputDir, ".gitignore"⟩, generateGitignoreContent)]
      ++ (if (setDefaults c).Deployment = "railway" then
            [(⟨c.OutputDir, "railway.json"⟩, generateRailwayContent (setDefaults c))]
          else [])
      ++ [(⟨c.OutputDir, "README.md"⟩, generateReadmeContent (setDefaults c))]⟩⟩ := by
  obtain ⟨ds0, h0⟩ := mkdirAll_healthy FileSystem.empty (Path.join c.OutputDir [])
  obtain ⟨ds, h1⟩ := mkdirEach_healthy (setDefaults c).OutputDir (plannedDirs (setDefaults c))
    ⟨ds0, FileSystem.empty.files⟩
  refine ⟨ds, ?_⟩
  have hl := hasLibrary_eq_decide (setDefaults c) "go-auth"
  rw [setDefaults_Libraries] at hl
  have hj1 : ∀ a : String, String.intercalate "/" [a] = a := fun a => rfl
  have hj2 : String.intercalate "/" ["config", "config.go"] = "config/config.go" := by decide
  have hw : ∀ (files : List (Path × String)) (rel content : String)
      (k : FileSystem → Outcome),
      (∀ f ∈ files, f.1 ≠ (⟨c.OutputDir, rel⟩ : Path)) →
      (writeFile Disk.healthy ⟨ds, files⟩ ⟨c.OutputDir, rel⟩ content).andThen k
        = k ⟨ds, files ++ [(⟨c.OutputDir, rel⟩, content)]⟩ := by
    intro files rel content k h
    rw [writeFile_healthy_fresh ds files _ content h, andThen_none]
  have hwfs : ∀ (files : List (Path × String)) (rel content : String),
      (∀ f ∈ files, f.1 ≠ (⟨c.OutputDir, rel⟩ : Path)) →
      (writeFile Disk.healthy ⟨ds, files⟩ ⟨c.OutputDir, rel⟩ content).fs
        = ⟨ds, files ++ [(⟨c.OutputDir, rel⟩, content)]⟩ := by
    intro files rel content h
    rw [writeFile_healthy_fresh ds files _ content h]
  have hp1 : mainPath (setDefaults c) = mainPath c := by
    simp only [mainPath, setDefaults_standard]
  have hp2 : handlerPath (setDefaults c) = handlerPath c := by
    simp only [handlerPath, setDefaults_standard]
  have hp3 : middlewarePath (setDefaults c) = middlewarePath c := by
    simp only [middlewarePath, setDefaults_standard]
  unfold GenerateProject
  rw [h0, andThen_none]
  simp only [createDirectoryStructure]
  rw [h1, andThen_none]
  simp only [generateGoMod, generateMain, generateConfig, generateHandlers, generateMiddleware,
    generateEnvFiles, generateGitignore, generateRailwayConfig, generateReadme, Path.join, hj1,
    hj2, setDefaults_OutputDir, FileSystem.empty, hp1, hp2, hp3, hl]
  by_cases hs : c.Structure = "standard" <;> by_cases ha : "go-auth" ∈ c.Libraries <;>
    by_cases hr : (setDefaults c).Deployment = "railway" <;>
    simp only [mainPath, handlerPath, middlewarePath, hs, ha, hr, if_true, if_false,
      decide_True, decide_False, Bool.false_eq_true] <;>
    (repeat (first
      | rw [hw _ _ _ _ (by simp)]
      | rw [hwfs _ _ _ (by simp)]
      | rw [andThen_none])) <;>
    simp

/-! ## C2: the written paths -/

/-- C2: on a disk without failures `GenerateProject` succeeds and the relative
paths it writes are go.mod, the entrypoint, config/config.go, the handlers
file, the auth middleware exactly when `go-auth` is selected, .env,
.env.example, .gitignore, railway.json exactly when the defaulted deployment
is `railway`, and README.md, with the layered paths exactly when the structure
is `standard`; these paths are pairwise distinct, lie below the output root,
are not absolute and have no `..` segment. -/
theorem C2_written_paths (c : ProjectConfig) :
    (GenerateProject Disk.healthy c FileSystem.empty).err = none
      ∧ (GenerateProject Disk.healthy c FileSystem.empty).fs.files.map (fun f => f.1.rel)
          = ["go.mod",
             if c.Structure = "standard" then "cmd/server/main.go" else "main.go",
             "config/config.go",
             if c.Structure = "standard" then "internal/handlers/handlers.go" else "handlers.go"]
            ++ (if "go-auth" ∈ c.Libraries then
                  [if c.Structure = "standard" then "internal/middleware/auth.go" else "middleware.go"]
                else [])
            ++ [".env", ".env.example", ".gitignore"]
            ++ (if (setDefaults c).Deployment = "railway" then ["railway.json"] else [])
            ++ ["README.md"]
      ∧ ((GenerateProject Disk.healthy c FileSystem.empty).fs.files.map (fun f => f.1.rel)).Nodup
      ∧ (∀ f ∈ (GenerateProject Disk.healthy c FileSystem.empty).fs.files,
          f.1.root = c.OutputDir ∧ staysBelowRoot f.1.rel = true) := by
  obtain ⟨ds, h⟩ := GenerateProject_healthy c
  rw [h]
  by_cases hs : c.Structure = "standard" <;> by_cases ha : "go-auth" ∈ c.Libraries <;>
    by_cases hr : (setDefaults c).Deployment = "railway" <;>
    simp only [mainPath, handlerPath, middlewarePath, hs, ha, hr, if_true, if_false,
      List.map_append, List.map_cons, List.map_nil, List.cons_append, List.nil_append,
      List.append_nil, List.mem_cons, List.mem_singleton, true_and, forall_eq_or_imp, forall_eq,
      List.not_mem_nil, false_imp_iff, implies_true, and_true] <;>
    decide

/-! ## C3: package names -/

theorem stripLeading_append : ∀ (pre rest : List Char), stripLeading pre (pre ++ rest) = some rest
  | [], rest => by cases rest <;> rfl
  | a :: pre, rest => by simp [stripLeading, stripLeading_append pre rest]

theorem takeWhile_line : ∀ (name rest : List Char), (∀ ch ∈ name, ch ≠ '\n') →
    (name ++ '\n' :: rest).takeWhile (fun ch => ch != '\n') = name
  | [], rest, _ => by simp [List.takeWhile]
  | a :: name, rest, h => by
    have ha : a ≠ '\n' := h a (List.mem_cons_self _ _)
    have ih := takeWhile_line name rest (fun ch hc => h ch (List.mem_cons_of_mem _ hc))
    have hb : (a != '\n') = true := by simpa using ha
    rw [List.cons_append, List.takeWhile_cons, hb]
    simp [ih]

theorem declaredPackage_of_data (content name : String) (rest : List Char)
    (h : content.data = "package ".data ++ (name.data ++ '\n' :: rest))
    (hn : ∀ ch ∈ name.data, ch ≠ '\n') : declaredPackage content = some name := by
  unfold declaredPackage
  rw [h, stripLeading_append]
  simp only []
  rw [takeWhile_line _ _ hn]

theorem declaredPackage_main (c : ProjectConfig) :
    declaredPackage (generateMainContent c) = some "main" := by
  apply declaredPackage_of_data _ "main"
      ("\nimport (\n".data ++ (((mainImports c).map (fun imp => ("\t" ++ imp ++ "\n").data)).flatten
        ++ (")\n\n".data ++ (mainBody c).data)))
  · simp only [generateMainContent, mainHeader, String.data_append, foldl_append_data,
      List.append_assoc]
    rfl
  · decide

theorem declaredPackage_handlers (c : ProjectConfig) :
    declaredPackage (generateHandlersContent c)
      = some (if c.Structure = "standard" then "handlers" else "main") := by
  by_cases hs : c.Structure = "standard" <;> by_cases hr : c.hasLibrary "go-response" = true <;>
    simp only [generateHandlersContent, handlerPkg, hs, hr, if_true, if_false] <;> decide

theorem declaredPackage_middleware (c : ProjectConfig) :
    declaredPackage (generateMiddlewareContent c)
      = some (if c.Structure = "standard" then "middleware" else "main") := by
  by_cases hs : c.Structure = "standard" <;>
    simp only [generateMiddlewareContent, middlewarePkg, hs, if_true, if_false] <;> decide

/-- C3 (counterexample): for the example selection the entrypoint declares
the same package with structure `standard` as with structure `simple`, so the
layout switch does not change the package name of all three files. -/
theorem C3_entrypoint_package_unchanged :
    declaredPackage (generateMainContent { exampleSelection with Structure := "standard" })
      = declaredPackage (generateMainContent { exampleSelection with Structure := "simple" }) := by
  rw [declaredPackage_main, declaredPackage_main]

/-- C3 (amended): the entrypoint declares package `main` in every layout; the
handlers file declares `handlers` and the auth middleware `middleware` when
the structure is `standard`, and both declare `main` otherwise, so for these
two files the name under `standard` differs from the name under `simple`;
when the structure is `simple`, or left unset and defaulted, all three
declare `main`. -/
theorem C3_package_names (c : ProjectConfig) :
    declaredPackage (generateMainContent c) = some "main"
      ∧ declaredPackage (generateHandlersContent c)
          = some (if c.Structure = "standard" then "handlers" else "main")
      ∧ declaredPackage (generateMiddlewareContent c)
          = some (if c.Structure = "standard" then "middleware" else "main")
      ∧ declaredPackage (generateHandlersContent { c with Structure := "standard" })
          ≠ declaredPackage (generateHandlersContent { c with Structure := "simple" })
      ∧ declaredPackage (generateMiddlewareContent { c with Structure := "standard" })
          ≠ declaredPackage (generateMiddlewareContent { c with Structure := "simple" })
      ∧ declaredPackage (generateMainContent (setDefaults { c with Structure := "" })) = some "main"
      ∧ declaredPackage (generateHandlersContent (setDefaults { c with Structure := "" }))
          = some "main"
      ∧ declaredPackage (generateMiddlewareContent (setDefaults { c with Structure := "" }))
          = some "main" := by
  have hd : (setDefaults { c with Structure := "" }).Structure = "simple" := by
    unfold setDefaults; simp only []; split_ifs <;> simp_all
  refine ⟨declaredPackage_main c, declaredPackage_handlers c, declaredPackage_middleware c,
    ?_, ?_, declaredPackage_main _, ?_, ?_⟩
  · rw [declaredPackage_handlers, declaredPackage_handlers]; simp
  · rw [declaredPackage_middleware, declaredPackage_middleware]; simp
  · rw [declaredPackage_handlers, hd]; simp
  · rw [declaredPackage_middleware, hd]; simp

/-! ## C4: no database, no trace -/

theorem safe_joinAll {pat : List Char} : ∀ (l : List String), (∀ s ∈ l, Safe pat s.data) →
    Safe pat (joinAll l).data
  | [], _ => Safe.nil pat
  | s :: l, h => by
    rw [joinAll, String.data_append]
    exact Safe.append (h s (List.mem_cons_self _ _))
      (safe_joinAll l fun t ht => h t (List.mem_cons_of_mem _ ht))

theorem litsSafe_mem {pat : List Char} {lits : List String} (h : litsSafe pat lits = true)
    {s : String} (hs : s ∈ lits) : Safe pat s.data :=
  Safe.lit ((List.all_eq_true.1 h) s hs)

theorem safe_data_opt {pat : List Char} (b : Bool) {s : String} (h : Safe pat s.data) :
    Safe pat (if b = true then s else "").data := by
  cases b
  · exact Safe.nil pat
  · exact h

theorem safe_data_var {pat : List Char} {v lit : String} (hv : ¬ pat <:+: v.data)
    (hr : noRunInto pat lit.data = true) (hl : Safe pat lit.data) : Safe pat (v ++ lit).data := by
  rw [String.data_append]; exact Safe.var hv hr hl

theorem generateConfigContent_eq (c : ProjectConfig) :
    generateConfigContent c
      = joinAll [structHead,
          if (c.Database != "none") = true then "\tDatabaseURL string\n" else "",
          if c.hasLibrary "go-auth" = true then "\tJWTSecret string\n" else "",
          if c.hasLibrary "go-logger" = true then "\tLogLevel string\n" else "",
          structEnd, loadHead, c.Name ++ loadAfterName,
          if (c.Database != "none") = true then "\t\tDatabaseURL: getEnv(\"DATABASE_URL\", \"\"),\n"
            else "",
          if c.hasLibrary "go-auth" = true then "\t\tJWTSecret: getEnv(\"JWT_SECRET\", \"\"),\n" else "",
          if c.hasLibrary "go-logger" = true then "\t\tLogLevel: getEnv(\"LOG_LEVEL\", \"info\"),\n"
            else "",
          loadEnd, configGetEnv] := by
  simp only [generateConfigContent, configStruct, configLoad, joinAll, structHead, structEnd,
    loadHead, loadAfterName, loadEnd]
  cases (c.Database != "none") <;> cases c.hasLibrary "go-auth" <;>
    cases c.hasLibrary "go-logger" <;>
    simp only [if_true, if_false, Bool.false_eq_true, String.append_assoc, String.append_empty,
      String.empty_append]

/-- No occurrence of `pat` begins in the config loader of a selection without
a database, when the fixed parts pass the check and the name is free of it. -/
theorem generateConfigContent_safe (c : ProjectConfig) (pat : List Char)
    (hdb : c.Database = "none") (hname : ¬ pat <:+: c.Name.data)
    (hl : litsSafe pat configLits = true) (hr : noRunInto pat loadAfterName.data = true) :
    Safe pat (generateConfigContent c).data := by
  have hd : (c.Database != "none") = false := by rw [hdb]; decide
  rw [generateConfigContent_eq, hd]
  apply safe_joinAll
  intro s hs
  simp only [List.mem_cons, List.mem_singleton, List.not_mem_nil, or_false] at hs
  rcases hs with rfl | rfl | rfl | rfl | rfl | rfl | rfl | rfl | rfl | rfl | rfl | rfl
  · exact litsSafe_mem hl (by simp [configLits])
  · exact Safe.nil pat
  · exact safe_data_opt _ (litsSafe_mem hl (by simp [configLits]))
  · exact safe_data_opt _ (litsSafe_mem hl (by simp [configLits]))
  · exact litsSafe_mem hl (by simp [configLits])
  · exact litsSafe_mem hl (by simp [configLits])
  · exact safe_data_var hname hr (litsSafe_mem hl (by simp [configLits]))
  · exact Safe.nil pat
  · exact safe_data_opt _ (litsSafe_mem hl (by simp [configLits]))
  · exact safe_data_opt _ (litsSafe_mem hl (by simp [configLits]))
  · exact litsSafe_mem hl (by simp [configLits])
  · exact litsSafe_mem hl (by simp [configLits])

theorem addDatabaseDrivers_none (content : String) : addDatabaseDrivers "none" content = content := by
  simp [addDatabaseDrivers]

/-- No occurrence of `pat` begins in the go.mod of a selection without a
database, when the fixed parts pass the check and the module path and the
library ids are free of it. -/
theorem generateGoModContent_safe (c : ProjectConfig) (pat : List Char)
    (hdb : c.Database = "none") (hmod : ¬ pat <:+: c.ModulePath.data)
    (hlibs : ∀ lib ∈ c.Libraries, ¬ pat <:+: lib.data)
    (hl : litsSafe pat goModLits = true) (hr1 : noRunInto pat goModAfterModule.data = true)
    (hr2 : noRunInto pat " v1.0.0\n".data = true) :
    Safe pat (generateGoModContent c).data := by
  simp only [generateGoModContent, goModRequire, hdb, addDatabaseDrivers_none]
  refine safe_data_append (safe_data_foldl _ _ _ ?_ ?_) (litsSafe_mem hl (by simp [goModLits]))
  · exact safe_data_lit_var_lit (litsSafe_mem hl (by simp [goModLits])) hmod hr1
      (litsSafe_mem hl (by simp [goModLits, goModAfterModule]))
  · intro lib hlib
    exact safe_data_lit_var_lit (litsSafe_mem hl (by simp [goModLits])) (hlibs lib hlib) hr2
      (litsSafe_mem hl (by simp [goModLits]))

/-- C4: for a selection without a database (`none`, or unset and defaulted),
none of the database texts (the `DatabaseURL` field, the `DATABASE_URL`
variable, the import paths of the database drivers) occurs in the generated
config loader or in the generated go.mod, provided the project name, the
module path and the library ids do not contain that text themselves. -/
theorem C4_database_none (c : ProjectConfig) (pat : String) (hpat : pat ∈ databaseTraces)
    (hdb : c.Database = "none" ∨ c.Database = "")
    (hname : ¬ Contains c.Name pat) (hmod : ¬ Contains c.ModulePath pat)
    (hlibs : ∀ lib ∈ c.Libraries, ¬ Contains lib pat) :
    ¬ Contains (generateConfigContent (setDefaults c)) pat
      ∧ ¬ Contains (generateGoModContent (setDefaults c)) pat := by
  have hd := setDefaults_Database_none c hdb
  have hn : ¬ pat.data <:+: (setDefaults c).Name.data := by rw [setDefaults_Name]; exact hname
  have hm : ¬ pat.data <:+: (setDefaults c).ModulePath.data := by
    rw [setDefaults_ModulePath]; exact hmod
  have hls : ∀ lib ∈ (setDefaults c).Libraries, ¬ pat.data <:+: lib.data := by
    rw [setDefaults_Libraries]; exact hlibs
  simp only [databaseTraces, List.mem_cons, List.mem_singleton, List.not_mem_nil, or_false] at hpat
  rcases hpat with rfl | rfl | rfl | rfl | rfl | rfl | rfl <;>
    exact ⟨not_contains_of_safe (by decide)
        (generateConfigContent_safe _ _ hd hn (by decide!) (by decide!)),
      not_contains_of_safe (by decide)
        (generateGoModContent_safe _ _ hd hm hls (by decide!) (by decide!) (by decide!))⟩

/-- C4 (witness): the example selection, which has no database, and the text
`DatabaseURL`. -/
theorem C4_database_none_witness :
    ("DatabaseURL" ∈ databaseTraces
        ∧ (exampleSelection.Database = "none" ∨ exampleSelection.Database = "")
        ∧ ¬ Contains exampleSelection.Name "DatabaseURL"
        ∧ ¬ Contains exampleSelection.ModulePath "DatabaseURL"
        ∧ ∀ lib ∈ exampleSelection.Libraries, ¬ Contains lib "DatabaseURL")
      ∧ ¬ Contains (generateConfigContent (setDefaults exampleSelection)) "DatabaseURL"
      ∧ ¬ Contains (generateGoModContent (setDefaults exampleSelection)) "DatabaseURL" :=
  ⟨⟨by decide, by decide, by decide, by decide, by decide⟩,
    C4_database_none exampleSelection "DatabaseURL" (by decide) (by decide) (by decide)
      (by decide) (by decide)⟩

/-! ## C5: the driver dependencies -/

theorem data_injective {a b : String} (h : a.data = b.data) : a = b := by
  cases a; cases b; simp_all

theorem append_left_cancel (x : String) {a b : String} (h : x ++ a = x ++ b) : a = b := by
  apply data_injective
  have := congrArg String.data h
  simpa [String.data_append] using this

theorem addDatabaseDrivers_postgres (content : String) :
    addDatabaseDrivers "postgres" content = content ++ requireLines postgresDrivers := by
  have e : requireLines postgresDrivers
      = "\tgithub.com/lib/pq v1.10.9\n" ++ ("\tgorm.io/driver/postgres v1.5.7\n"
          ++ "\tgorm.io/gorm v1.25.9\n") := by decide
  rw [e]
  simp [addDatabaseDrivers, String.append_assoc]

theorem addDatabaseDrivers_mysql (content : String) :
    addDatabaseDrivers "mysql" content = content ++ requireLines mysqlDrivers := by
  have e : requireLines mysqlDrivers
      = "\tgorm.io/driver/mysql v1.5.6\n" ++ "\tgorm.io/gorm v1.25.9\n" := by decide
  rw [e]
  simp [addDatabaseDrivers, String.append_assoc]

theorem addDatabaseDrivers_mongodb (content : String) :
    addDatabaseDrivers "mongodb" content = content ++ requireLines mongodbDrivers := by
  have e : requireLines mongodbDrivers = "\tgo.mongodb.org/mongo-driver v1.14.0\n" := by decide
  rw [e]
  simp [addDatabaseDrivers]

/-- C5: with database `postgres` go.mod consists of the module line and
library requirements, the three postgres driver lines and the closing line;
with `mysql` it has the two mysql lines instead, with `mongodb` the one
mongodb line, and with `none` no driver line.  The three driver lists are
non-empty and pairwise different, each backend has a line neither other
backend has, and for a fixed selection the three go.mod contents differ
pairwise. -/
theorem C5_driver_lines (c : ProjectConfig) :
    generateGoModContent { c with Database := "postgres" }
        = goModRequire c ++ requireLines postgresDrivers ++ ")\n"
      ∧ generateGoModContent { c with Database := "mysql" }
        = goModRequire c ++ requireLines mysqlDrivers ++ ")\n"
      ∧ generateGoModContent { c with Database := "mongodb" }
        = goModRequire c ++ requireLines mongodbDrivers ++ ")\n"
      ∧ generateGoModContent { c with Database := "none" } = goModRequire c ++ ")\n"
      ∧ (postgresDrivers ≠ [] ∧ mysqlDrivers ≠ [] ∧ mongodbDrivers ≠ [])
      ∧ (postgresDrivers ≠ mysqlDrivers ∧ postgresDrivers ≠ mongodbDrivers
          ∧ mysqlDrivers ≠ mongodbDrivers)
      ∧ (∃ dep ∈ postgresDrivers, dep ∉ mysqlDrivers ∧ dep ∉ mongodbDrivers)
      ∧ (∃ dep ∈ mysqlDrivers, dep ∉ postgresDrivers ∧ dep ∉ mongodbDrivers)
      ∧ (∃ dep ∈ mongodbDrivers, dep ∉ postgresDrivers ∧ dep ∉ mysqlDrivers)
      ∧ generateGoModContent { c with Database := "postgres" }
          ≠ generateGoModContent { c with Database := "mysql" }
      ∧ generateGoModContent { c with Database := "postgres" }
          ≠ generateGoModContent { c with Database := "mongodb" }
      ∧ generateGoModContent { c with Database := "mysql" }
          ≠ generateGoModContent { c with Database := "mongodb" } := by
  have hreq : ∀ db : String, goModRequire { c with Database := db } = goModRequire c :=
    fun _ => rfl
  have e1 : generateGoModContent { c with Database := "postgres" }
      = goModRequire c ++ (requireLines postgresDrivers ++ ")\n") := by
    simp only [generateGoModContent, hreq, addDatabaseDrivers_postgres, String.append_assoc]
  have e2 : generateGoModContent { c with Database := "mysql" }
      = goModRequire c ++ (requireLines mysqlDrivers ++ ")\n") := by
    simp only [generateGoModContent, hreq, addDatabaseDrivers_mysql, String.append_assoc]
  have e3 : generateGoModContent { c with Database := "mongodb" }
      = goModRequire c ++ (requireLines mongodbDrivers ++ ")\n") := by
    simp only [generateGoModContent, hreq, addDatabaseDrivers_mongodb, String.append_assoc]
  have e4 : generateGoModContent { c with Database := "none" } = goModRequire c ++ ")\n" := by
    simp only [generateGoModContent, addDatabaseDrivers_none, hreq]
  refine ⟨by rw [e1, String.append_assoc], by rw [e2, String.append_assoc],
    by rw [e3, String.append_assoc], e4, by decide, by decide,
    ⟨"github.com/lib/pq v1.10.9", by decide, by decide, by decide⟩,
    ⟨"gorm.io/driver/mysql v1.5.6", by decide, by decide, by decide⟩,
    ⟨"go.mongodb.org/mongo-driver v1.14.0", by decide, by decide, by decide⟩, ?_, ?_, ?_⟩
  · rw [e1, e2]; intro h; exact absurd (append_left_cancel _ h) (by decide)
  · rw [e1, e3]; intro h; exact absurd (append_left_cancel _ h) (by decide)
  · rw [e2, e3]; intro h; exact absurd (append_left_cancel _ h) (by decide)

/-! ## C6: the fields of the config loader -/

theorem fieldInit_AppName (name : String) :
    fieldInit name "AppName" = "\t\tAppName: getEnv(\"APP_NAME\", \"" ++ (name ++ "\"),\n") := by
  apply data_injective
  simp only [fieldInit, fieldSource, if_true, String.data_append, List.append_assoc]
  rfl

theorem fieldInit_Port (name : String) :
    fieldInit name "Port" = "\t\tPort: getEnv(\"PORT\", \"8080\"),\n" := by
  simp [fieldInit, fieldSource]

theorem fieldInit_DatabaseURL (name : String) :
    fieldInit name "DatabaseURL" = "\t\tDatabaseURL: getEnv(\"DATABASE_URL\", \"\"),\n" := by
  simp [fieldInit, fieldSource]

theorem fieldInit_JWTSecret (name : String) :
    fieldInit name "JWTSecret" = "\t\tJWTSecret: getEnv(\"JWT_SECRET\", \"\"),\n" := by
  simp [fieldInit, fieldSource]

theorem fieldInit_LogLevel (name : String) :
    fieldInit name "LogLevel" = "\t\tLogLevel: getEnv(\"LOG_LEVEL\", \"info\"),\n" := by
  simp [fieldInit, fieldSource]

theorem hasLibrary_false_iff (c : ProjectConfig) (lib : String) :
    c.hasLibrary lib = false ↔ lib ∉ c.Libraries := by
  rw [← hasLibrary_iff]; simp

theorem declaredFields_configStruct (c : ProjectConfig) :
    declaredFields (configStruct c) = configFields c := by
  have key : ∀ db au lg : Bool, (c.Database != "none") = db → c.hasLibrary "go-auth" = au →
      c.hasLibrary "go-logger" = lg → declaredFields (configStruct c) = configFields c := by
    intro db au lg hdb hau hlg
    have hdb2 : (c.Database ≠ "none") ↔ db = true := by
      rw [← hdb]; simp
    have hau2 : ("go-auth" ∈ c.Libraries) ↔ au = true := by rw [← hau, hasLibrary_iff]
    have hlg2 : ("go-logger" ∈ c.Libraries) ↔ lg = true := by rw [← hlg, hasLibrary_iff]
    simp only [configStruct, configFields, hdb, hau, hlg, hdb2, hau2, hlg2]
    cases db <;> cases au <;> cases lg <;>
      simp only [if_true, if_false, Bool.false_eq_true] <;> decide!
  exact key _ _ _ rfl rfl rfl

theorem mainBody_eq (c : ProjectConfig) :
    mainBody c = joinAll (bodyParts (c.hasLibrary "go-logger")
      (c.hasLibrary "go-migration" && c.Database != "none") (c.hasLibrary "go-metrics")) := by
  simp only [mainBody, bodyParts, joinAll, bodyStart, loggerBlock, migrationBlock, metricsBlock,
    routerInit, metricsMiddleware, healthRoute, metricsRoute, usersRoute, bodyEnd]
  cases c.hasLibrary "go-logger" <;>
    cases (c.hasLibrary "go-migration" && c.Database != "none") <;>
    cases c.hasLibrary "go-metrics" <;>
    simp only [if_true, if_false, Bool.false_eq_true, String.append_assoc, String.append_empty,
      String.empty_append]

theorem contains_joinAll_of_mem {s : String} : ∀ {l : List String}, s ∈ l → Contains (joinAll l) s
  | t :: l, h => by
    unfold Contains
    rw [joinAll, String.data_append]
    rcases List.mem_cons.1 h with rfl | h2
    · exact ⟨[], (joinAll l).data, by simp⟩
    · obtain ⟨a, b, e⟩ := contains_joinAll_of_mem h2
      exact ⟨t.data ++ a, b, by rw [← e]; simp [List.append_assoc]⟩

theorem contains_append_right {text pat : String} (pre : String) (h : Contains text pat) :
    Contains (pre ++ text) pat := by
  obtain ⟨a, b, e⟩ := h
  exact ⟨pre.data ++ a, b, by rw [String.data_append, ← e]; simp [List.append_assoc]⟩

/-- No occurrence of `pat` begins in `main`, when the fixed parts that the
conditions of the selection admit pass the check. -/
theorem mainBody_safe (c : ProjectConfig) (pat : List Char) (lg mg mt : Bool)
    (hlg : c.hasLibrary "go-logger" = true → lg = true)
    (hmg : (c.hasLibrary "go-migration" && c.Database != "none") = true → mg = true)
    (hmt : c.hasLibrary "go-metrics" = true → mt = true)
    (h : litsSafe pat (bodyLits lg mg mt) = true) : Safe pat (mainBody c).data := by
  rw [mainBody_eq]
  have hopt : ∀ (b : Bool) (s : String), (b = true → s ∈ bodyLits lg mg mt) →
      Safe pat (if b = true then s else "").data := by
    intro b s hb
    cases b
    · exact Safe.nil pat
    · exact litsSafe_mem h (hb rfl)
  apply safe_joinAll
  intro s hs
  simp only [bodyParts, List.mem_cons, List.mem_singleton, List.not_mem_nil, or_false] at hs
  rcases hs with rfl | rfl | rfl | rfl | rfl | rfl | rfl | rfl | rfl | rfl
  · exact litsSafe_mem h (by simp [bodyLits])
  · exact hopt _ _ (fun hb => by simp [bodyLits, hlg hb])
  · exact hopt _ _ (fun hb => by simp [bodyLits, hmg hb])
  · exact hopt _ _ (fun hb => by simp [bodyLits, hmt hb])
  · exact litsSafe_mem h (by simp [bodyLits])
  · exact hopt _ _ (fun hb => by simp [bodyLits, hmt hb])
  · exact litsSafe_mem h (by simp [bodyLits])
  · exact hopt _ _ (fun hb => by simp [bodyLits, hmt hb])
  · exact litsSafe_mem h (by simp [bodyLits])
  · exact litsSafe_mem h (by simp [bodyLits])

theorem bool_imp_true (b : Bool) : b = true → true = true := fun _ => rfl

theorem bool_false_imp {b c : Bool} (h : b = false) : b = true → c = true := by
  rw [h]; intro h2; exact absurd h2 (by decide)

/-- The function `main` of the generated entrypoint contains the logger
initialisation block exactly when `go-logger` is selected, the metrics
initialisation block, the metrics middleware and the `/metrics` route exactly
when `go-metrics` is selected, and the migration block exactly when
`go-migration` is selected and the database is not `none`; it contains the
`/health` route and the `/api/v1` users-list route for every selection. -/
theorem mainBody_blocks (c : ProjectConfig) :
    (Contains (mainBody c) loggerBlock ↔ "go-logger" ∈ c.Libraries)
      ∧ (Contains (mainBody c) metricsBlock ↔ "go-metrics" ∈ c.Libraries)
      ∧ (Contains (mainBody c) metricsMiddleware ↔ "go-metrics" ∈ c.Libraries)
      ∧ (Contains (mainBody c) metricsRoute ↔ "go-metrics" ∈ c.Libraries)
      ∧ (Contains (mainBody c) migrationBlock
          ↔ ("go-migration" ∈ c.Libraries ∧ c.Database ≠ "none"))
      ∧ Contains (mainBody c) healthRoute
      ∧ Contains (mainBody c) usersRoute := by
  have hmig : (c.hasLibrary "go-migration" && c.Database != "none") = true
      ↔ ("go-migration" ∈ c.Libraries ∧ c.Database ≠ "none") := by
    rw [Bool.and_eq_true, hasLibrary_iff]; simp
  have present : ∀ (s : String) (lg mg mt : Bool),
      s ∈ bodyParts lg mg mt →
      c.hasLibrary "go-logger" = lg →
      (c.hasLibrary "go-migration" && c.Database != "none") = mg →
      c.hasLibrary "go-metrics" = mt → Contains (mainBody c) s := by
    intro s lg mg mt hs h1 h2 h3
    rw [mainBody_eq, h1, h2, h3]
    exact contains_joinAll_of_mem hs
  refine ⟨⟨?_, ?_⟩, ⟨?_, ?_⟩, ⟨?_, ?_⟩, ⟨?_, ?_⟩, ⟨?_, ?_⟩, ?_, ?_⟩
  · intro h
    by_contra hn
    exact not_contains_of_safe (by decide) (mainBody_safe c _ false true true
      (bool_false_imp ((hasLibrary_false_iff c _).2 hn)) (bool_imp_true _) (bool_imp_true _)
      (by decide!)) h
  · intro h
    exact present _ true _ _ (by simp [bodyParts]) ((hasLibrary_iff c _).2 h) rfl rfl
  · intro h
    by_contra hn
    exact not_contains_of_safe (by decide) (mainBody_safe c _ true true false
      (bool_imp_true _) (bool_imp_true _) (bool_false_imp ((hasLibrary_false_iff c _).2 hn))
      (by decide!)) h
  · intro h
    exact present _ _ _ true (by simp [bodyParts]) rfl rfl ((hasLibrary_iff c _).2 h)
  · intro h
    by_contra hn
    exact not_contains_of_safe (by decide) (mainBody_safe c _ true true false
      (bool_imp_true _) (bool_imp_true _) (bool_false_imp ((hasLibrary_false_iff c _).2 hn))
      (by decide!)) h
  · intro h
    exact present _ _ _ true (by simp [bodyParts]) rfl rfl ((hasLibrary_iff c _).2 h)
  · intro h
    by_contra hn
    exact not_contains_of_safe (by decide) (mainBody_safe c _ true true false
      (bool_imp_true _) (bool_imp_true _) (bool_false_imp ((hasLibrary_false_iff c _).2 hn))
      (by decide!)) h
  · intro h
    exact present _ _ _ true (by simp [bodyParts]) rfl rfl ((hasLibrary_iff c _).2 h)
  · intro h
    by_contra hn
    have hf : (c.hasLibrary "go-migration" && c.Database != "none") = false := by
      cases hb : (c.hasLibrary "go-migration" && c.Database != "none")
      · rfl
      · exact absurd (hmig.1 hb) hn
    exact not_contains_of_safe (by decide) (mainBody_safe c _ true false true
      (bool_imp_true _) (bool_false_imp hf) (bool_imp_true _) (by decide!)) h
  · intro h
    exact present _ _ true _ (by simp [bodyParts]) rfl (hmig.2 h) rfl
  · exact present _ _ _ _ (by simp [bodyParts]) rfl rfl rfl
  · exact present _ _ _ _ (by simp [bodyParts]) rfl rfl rfl

/-! ## C8: absent libraries leave no trace -/

theorem foldl_addLibraryImport (libs : List String) : ∀ (imports : List String),
    ∀ imp ∈ libs.foldl addLibraryImport imports,
      imp ∈ imports
        ∨ (imp = "\"github.com/OkanUysal/go-logger\"" ∧ "go-logger" ∈ libs)
        ∨ (imp = "\"github.com/OkanUysal/go-metrics\"" ∧ "go-metrics" ∈ libs)
        ∨ (imp = "\"github.com/OkanUysal/go-migration\"" ∧ "go-migration" ∈ libs)
        ∨ (imp = "\"github.com/OkanUysal/go-swagger\"" ∧ "go-swagger" ∈ libs) := by
  induction libs with
  | nil => intro imports imp h; exact Or.inl h
  | cons lib libs ih =>
    intro imports imp h
    rw [List.foldl_cons] at h
    rcases ih _ imp h with h1 | ⟨e, m⟩ | ⟨e, m⟩ | ⟨e, m⟩ | ⟨e, m⟩
    · unfold addLibraryImport at h1
      split_ifs at h1 with c1 c2 c3 c4
      · rcases List.mem_append.1 h1 with h2 | h2
        · exact Or.inl h2
        · exact Or.inr (Or.inl ⟨List.mem_singleton.1 h2, by simp [c1]⟩)
      · rcases List.mem_append.1 h1 with h2 | h2
        · exact Or.inl h2
        · exact Or.inr (Or.inr (Or.inl ⟨List.mem_singleton.1 h2, by simp [c2]⟩))
      · rcases List.mem_append.1 h1 with h2 | h2
        · exact Or.inl h2
        · exact Or.inr (Or.inr (Or.inr (Or.inl ⟨List.mem_singleton.1 h2, by simp [c3]⟩)))
      · rcases List.mem_append.1 h1 with h2 | h2
        · exact Or.inl h2
        · exact Or.inr (Or.inr (Or.inr (Or.inr ⟨List.mem_singleton.1 h2, by simp [c4]⟩)))
      · exact Or.inl h1
    · exact Or.inr (Or.inl ⟨e, List.mem_cons_of_mem _ m⟩)
    · exact Or.inr (Or.inr (Or.inl ⟨e, List.mem_cons_of_mem _ m⟩))
    · exact Or.inr (Or.inr (Or.inr (Or.inl ⟨e, List.mem_cons_of_mem _ m⟩)))
    · exact Or.inr (Or.inr (Or.inr (Or.inr ⟨e, List.mem_cons_of_mem _ m⟩)))

/-- No occurrence of `pat` begins in the import block of the entrypoint, when
the fixed parts that the selected libraries admit pass the check and the
module path is free of `pat`. -/
theorem mainHeader_safe (c : ProjectConfig) (pat : List Char) (lg mt mg sw : Bool)
    (hlg : "go-logger" ∈ c.Libraries → lg = true) (hmt : "go-metrics" ∈ c.Libraries → mt = true)
    (hmg : "go-migration" ∈ c.Libraries → mg = true)
    (hsw : "go-swagger" ∈ c.Libraries → sw = true)
    (hmod : ¬ pat <:+: c.ModulePath.data)
    (h : litsSafe pat (headerLits lg mt mg sw) = true)
    (hr : noRunInto pat "/config\"".data = true) : Safe pat (mainHeader c).data := by
  have htab : Safe pat "\t".data := litsSafe_mem h (by simp [headerLits])
  have hnl : Safe pat "\n".data := litsSafe_mem h (by simp [headerLits])
  have hline : ∀ imp : String, Safe pat imp.data → Safe pat ("\t" ++ imp ++ "\n").data :=
    fun imp hi => safe_data_append (safe_data_append htab hi) hnl
  simp only [mainHeader]
  refine safe_data_append (safe_data_foldl _ _ _ (litsSafe_mem h (by simp [headerLits])) ?_)
    (litsSafe_mem h (by simp [headerLits]))
  intro imp himp
  apply hline
  rcases foldl_addLibraryImport _ _ imp himp with h1 | ⟨e, m⟩ | ⟨e, m⟩ | ⟨e, m⟩ | ⟨e, m⟩
  · simp only [List.mem_cons, List.mem_singleton, List.not_mem_nil, or_false] at h1
    rcases h1 with rfl | rfl | rfl
    · exact litsSafe_mem h (by simp [headerLits])
    · exact litsSafe_mem h (by simp [headerLits])
    · exact safe_data_lit_var_lit (litsSafe_mem h (by simp [headerLits])) hmod hr
        (litsSafe_mem h (by simp [headerLits]))
  · rw [e]; exact litsSafe_mem h (by simp [headerLits, hlg m])
  · rw [e]; exact litsSafe_mem h (by simp [headerLits, hmt m])
  · rw [e]; exact litsSafe_mem h (by simp [headerLits, hmg m])
  · rw [e]; exact litsSafe_mem h (by simp [headerLits, hsw m])

/-- No occurrence of `pat` begins in the handlers file, when the fixed parts
that the selection admits pass the check. -/
theorem generateHandlersContent_safe (c : ProjectConfig) (pat : List Char) (rs : Bool)
    (hrs : c.hasLibrary "go-response" = true → rs = true)
    (h : litsSafe pat (handlersLits rs) = true) : Safe pat (generateHandlersContent c).data := by
  have hpkg : Safe pat ("package " ++ handlerPkg c ++ "\n\n").data := by
    unfold handlerPkg
    by_cases hs : c.Structure = "standard"
    · simp only [hs, if_true]; exact litsSafe_mem h (by simp [handlersLits])
    · simp only [hs, if_false]; exact litsSafe_mem h (by simp [handlersLits])
  simp only [generateHandlersContent]
  cases hb : c.hasLibrary "go-response"
  · simp only [Bool.false_eq_true, if_false]
    exact safe_data_append (safe_data_append (safe_data_append (safe_data_append hpkg
      (litsSafe_mem h (by simp [handlersLits]))) (litsSafe_mem h (by simp [handlersLits])))
      (litsSafe_mem h (by simp [handlersLits]))) (litsSafe_mem h (by simp [handlersLits]))
  · simp only [if_true]
    have hr := hrs hb
    exact safe_data_append (safe_data_append (safe_data_append (safe_data_append
      (safe_data_append hpkg (litsSafe_mem h (by simp [handlersLits])))
      (litsSafe_mem h (by simp [handlersLits, hr])))
      (litsSafe_mem h (by simp [handlersLits]))) (litsSafe_mem h (by simp [handlersLits, hr])))
      (litsSafe_mem h (by simp [handlersLits]))

theorem generateMainContent_safe (c : ProjectConfig) (pat : List Char)
    (hh : Safe pat (mainHeader c).data) (hb : Safe pat (mainBody c).data) :
    Safe pat (generateMainContent c).data := safe_data_append hh hb

theorem no_trace (c : ProjectConfig) (pat : String) (lg mt mg sw rs : Bool)
    (hlg : "go-logger" ∈ c.Libraries → lg = true) (hmt : "go-metrics" ∈ c.Libraries → mt = true)
    (hmg : "go-migration" ∈ c.Libraries → mg = true)
    (hsw : "go-swagger" ∈ c.Libraries → sw = true)
    (hrs : "go-response" ∈ c.Libraries → rs = true)
    (hmod : ¬ Contains c.ModulePath pat) (hp : pat.data ≠ [])
    (hH : litsSafe pat.data (headerLits lg mt mg sw) = true)
    (hR : noRunInto pat.data "/config\"".data = true)
    (hB : litsSafe pat.data (bodyLits lg mg mt) = true)
    (hD : litsSafe pat.data (handlersLits rs) = true) :
    ¬ Contains (generateMainContent c) pat ∧ ¬ Contains (generateHandlersContent c) pat := by
  constructor
  · refine not_contains_of_safe hp (generateMainContent_safe c _
      (mainHeader_safe c _ lg mt mg sw hlg hmt hmg hsw hmod hH hR)
      (mainBody_safe c _ lg mg mt (fun h => hlg ((hasLibrary_iff c _).1 h)) ?_
        (fun h => hmt ((hasLibrary_iff c _).1 h)) hB))
    intro h
    rw [Bool.and_eq_true] at h
    exact hmg ((hasLibrary_iff c _).1 h.1)
  · exact not_contains_of_safe hp (generateHandlersContent_safe c _ rs
      (fun h => hrs ((hasLibrary_iff c _).1 h)) hD)

theorem within_andThen {allowed : List String} {fs0 : FileSystem} {r : Outcome}
    {k : FileSystem → Outcome} (hr : Within allowed fs0 r.fs)
    (hk : ∀ fs, Within allowed fs0 fs → Within allowed fs0 (k fs).fs) :
    Within allowed fs0 (r.andThen k).fs := by
  unfold Outcome.andThen
  cases h : r.err with
  | none => exact hk _ hr
  | some e => exact hr

theorem within_writeFile {allowed : List String} {fs0 fs : FileSystem} (d : Disk) (p : Path)
    (content : String) (h : Within allowed fs0 fs) (hp : p.rel ∈ allowed) :
    Within allowed fs0 (writeFile d fs p content).fs := by
  unfold writeFile
  split_ifs
  · intro f hf
    rcases List.mem_append.1 hf with hf | hf
    · exact h f (List.mem_of_mem_filter hf)
    · rw [List.mem_singleton.1 hf]; exact Or.inr hp
  · exact h

theorem within_mkdirAll {allowed : List String} {fs0 fs : FileSystem} (d : Disk) (p : Path)
    (h : Within allowed fs0 fs) : Within allowed fs0 (mkdirAll d fs p).fs := by
  unfold mkdirAll
  split_ifs <;> exact h

theorem within_mkdirEach {allowed : List String} {fs0 : FileSystem} (d : Disk) (root : String) :
    ∀ (dirs : List String) (fs : FileSystem), Within allowed fs0 fs →
      Within allowed fs0 (mkdirEach d root dirs fs).fs
  | [], _, h => h
  | dir :: rest, fs, h => by
    rw [mkdirEach]
    exact within_andThen (within_mkdirAll d _ h) (fun fs2 h2 => within_mkdirEach d root rest fs2 h2)

/-- Whatever calls fail, `GenerateProject` writes files only at the planned
paths of the selection. -/
theorem GenerateProject_within (d : Disk) (c : ProjectConfig) (fs0 : FileSystem) :
    Within (plannedFiles c) fs0 (GenerateProject d c fs0).fs := by
  have hj1 : ∀ (root a : String), (Path.join root [a]).rel = a := fun _ _ => rfl
  have hj2 : ∀ root : String, (Path.join root ["config", "config.go"]).rel = "config/config.go" := by
    intro root
    show String.intercalate "/" ["config", "config.go"] = "config/config.go"
    decide
  have h0 : Within (plannedFiles c) fs0 fs0 := fun f hf => Or.inl hf
  unfold GenerateProject
  refine within_andThen (within_mkdirAll d _ h0) fun fs h => ?_
  refine within_andThen (within_mkdirEach d _ _ _ h) fun fs h => ?_
  refine within_andThen (within_writeFile d _ _ h (by simp [hj1, plannedFiles])) fun fs h => ?_
  refine within_andThen (within_writeFile d _ _ h (by simp [hj1, plannedFiles])) fun fs h => ?_
  refine within_andThen (within_writeFile d _ _ h (by simp [hj2, plannedFiles])) fun fs h => ?_
  refine within_andThen (within_writeFile d _ _ h (by simp [hj1, plannedFiles])) fun fs h => ?_
  refine within_andThen ?_ fun fs h => ?_
  · split_ifs with ha
    · exact within_writeFile d _ _ h (by simp [hj1, plannedFiles, ha])
    · exact h
  refine within_andThen ?_ fun fs h => ?_
  · exact within_writeFile d _ _ (within_writeFile d _ _ h (by simp [hj1, plannedFiles]))
      (by simp [hj1, plannedFiles])
  refine within_andThen (within_writeFile d _ _ h (by simp [hj1, plannedFiles])) fun fs h => ?_
  refine within_andThen ?_ fun fs h => ?_
  · split_ifs with hr
    · exact within_writeFile d _ _ h (by simp [hj1, plannedFiles, hr])
    · exact h
  refine within_andThen (within_writeFile d _ _ h (by simp [hj1, plannedFiles])) fun fs h => ?_
  exact h

theorem no_middleware_file (d : Disk) (c : ProjectConfig) (fs0 : FileSystem)
    (h : "go-auth" ∉ c.Libraries) :
    ∀ f ∈ (GenerateProject d c fs0).fs.files,
      f ∈ fs0.files ∨ (f.1.rel ≠ "middleware.go" ∧ f.1.rel ≠ "internal/middleware/auth.go") := by
  have ha : (setDefaults c).hasLibrary "go-auth" = false := by
    rw [hasLibrary_false_iff, setDefaults_Libraries]; exact h
  have hall : ∀ x ∈ plannedFiles c, x ≠ "middleware.go" ∧ x ≠ "internal/middleware/auth.go" := by
    by_cases hs : (setDefaults c).Structure = "standard" <;>
      by_cases hr : (setDefaults c).Deployment = "railway" <;>
      simp only [plannedFiles, mainPath, handlerPath, ha, hs, hr, if_true, if_false,
        Bool.false_eq_true, List.cons_append, List.nil_append, List.append_nil] <;>
      decide
  intro f hf
  rcases GenerateProject_within d c fs0 f hf with h1 | h1
  · exact Or.inl h1
  · exact Or.inr (hall _ h1)

/-- C8: for each of the six libraries that is not among the selected
libraries, and a module path that contains neither the import path of the
library nor a call through its package identifier, neither the generated
entrypoint nor the generated handlers file contains the import path
`github.com/OkanUysal/<library>` or a call through the identifier; and when
the library is `go-auth`, whatever calls fail, `GenerateProject` writes no
file at a path of the auth middleware. -/
theorem C8_no_trace (c : ProjectConfig) (lib ident : String)
    (hL : (lib, ident) ∈ libraryIdents) (habs : lib ∉ c.Libraries)
    (hmod1 : ¬ Contains c.ModulePath (importPath lib))
    (hmod2 : ¬ Contains c.ModulePath (callThrough ident)) :
    (¬ Contains (generateMainContent c) (importPath lib)
        ∧ ¬ Contains (generateHandlersContent c) (importPath lib))
      ∧ (¬ Contains (generateMainContent c) (callThrough ident)
        ∧ ¬ Contains (generateHandlersContent c) (callThrough ident))
      ∧ (lib = "go-auth" →
          ∀ (d : Disk) (fs0 : FileSystem), ∀ f ∈ (GenerateProject d c fs0).fs.files,
            f ∈ fs0.files
              ∨ (f.1.rel ≠ "middleware.go" ∧ f.1.rel ≠ "internal/middleware/auth.go")) := by
  refine ⟨?_, ?_, fun e d fs0 => no_middleware_file d c fs0 (e ▸ habs)⟩ <;>
    simp only [libraryIdents, List.mem_cons, List.mem_singleton, List.not_mem_nil, or_false,
      Prod.mk.injEq] at hL
  · rcases hL with ⟨rfl, rfl⟩ | ⟨rfl, rfl⟩ | ⟨rfl, rfl⟩ | ⟨rfl, rfl⟩ | ⟨rfl, rfl⟩ | ⟨rfl, rfl⟩
    · exact no_trace c _ false true true true true (fun m => absurd m habs) (fun _ => rfl)
        (fun _ => rfl) (fun _ => rfl) (fun _ => rfl) hmod1 (by decide) (by decide!) (by decide!)
        (by decide!) (by decide!)
    · exact no_trace c _ true false true true true (fun _ => rfl) (fun m => absurd m habs)
        (fun _ => rfl) (fun _ => rfl) (fun _ => rfl) hmod1 (by decide) (by decide!) (by decide!)
        (by decide!) (by decide!)
    · exact no_trace c _ true true false true true (fun _ => rfl) (fun _ => rfl)
        (fun m => absurd m habs) (fun _ => rfl) (fun _ => rfl) hmod1 (by decide) (by decide!)
        (by decide!) (by decide!) (by decide!)
    · exact no_trace c _ true true true false true (fun _ => rfl) (fun _ => rfl)
        (fun _ => rfl) (fun m => absurd m habs) (fun _ => rfl) hmod1 (by decide) (by decide!)
        (by decide!) (by decide!) (by decide!)
    · exact no_trace c _ true true true true false (fun _ => rfl) (fun _ => rfl)
        (fun _ => rfl) (fun _ => rfl) (fun m => absurd m habs) hmod1 (by decide) (by decide!)
        (by decide!) (by decide!) (by decide!)
    · exact no_trace c _ true true true true true (fun _ => rfl) (fun _ => rfl)
        (fun _ => rfl) (fun _ => rfl) (fun _ => rfl) hmod1 (by decide) (by decide!) (by decide!)
        (by decide!) (by decide!)
  · rcases hL with ⟨rfl, rfl⟩ | ⟨rfl, rfl⟩ | ⟨rfl, rfl⟩ | ⟨rfl, rfl⟩ | ⟨rfl, rfl⟩ | ⟨rfl, rfl⟩
    · exact no_trace c _ false true true true true (fun m => absurd m habs) (fun _ => rfl)
        (fun _ => rfl) (fun _ => rfl) (fun _ => rfl) hmod2 (by decide) (by decide!) (by decide!)
        (by decide!) (by decide!)
    · exact no_trace c _ true false true true true (fun _ => rfl) (fun m => absurd m habs)
        (fun _ => rfl) (fun _ => rfl) (fun _ => rfl) hmod2 (by decide) (by decide!) (by decide!)
        (by decide!) (by decide!)
    · exact no_trace c _ true true false true true (fun _ => rfl) (fun _ => rfl)
        (fun m => absurd m habs) (fun _ => rfl) (fun _ => rfl) hmod2 (by decide) (by decide!)
        (by decide!) (by decide!) (by decide!)
    · exact no_trace c _ true true true false true (fun _ => rfl) (fun _ => rfl)
        (fun _ => rfl) (fun m => absurd m habs) (fun _ => rfl) hmod2 (by decide) (by decide!)
        (by decide!) (by decide!) (by decide!)
    · exact no_trace c _ true true true true false (fun _ => rfl) (fun _ => rfl)
        (fun _ => rfl) (fun _ => rfl) (fun m => absurd m habs) hmod2 (by decide) (by decide!)
        (by decide!) (by decide!) (by decide!)
    · exact no_trace c _ true true true true true (fun _ => rfl) (fun _ => rfl)
        (fun _ => rfl) (fun _ => rfl) (fun _ => rfl) hmod2 (by decide) (by decide!) (by decide!)
        (by decide!) (by decide!)

/-- C8 (witness): the example selection, which does not select `go-auth`. -/
theorem C8_no_trace_witness :
    (("go-auth", "auth") ∈ libraryIdents ∧ "go-auth" ∉ exampleSelection.Libraries
        ∧ ¬ Contains exampleSelection.ModulePath (importPath "go-auth")
        ∧ ¬ Contains exampleSelection.ModulePath (callThrough "auth"))
      ∧ (¬ Contains (generateMainContent exampleSelection) (importPath "go-auth")
          ∧ ¬ Contains (generateHandlersContent exampleSelection) (importPath "go-auth"))
      ∧ (¬ Contains (generateMainContent exampleSelection) (callThrough "auth")
          ∧ ¬ Contains (generateHandlersContent exampleSelection) (callThrough "auth"))
      ∧ ("go-auth" = "go-auth" →
          ∀ (d : Disk) (fs0 : FileSystem),
            ∀ f ∈ (GenerateProject d exampleSelection fs0).fs.files,
              f ∈ fs0.files
                ∨ (f.1.rel ≠ "middleware.go" ∧ f.1.rel ≠ "internal/middleware/auth.go")) :=
  ⟨⟨by decide, by decide, by decide, by decide⟩,
    C8_no_trace exampleSelection "go-auth" "auth" (by decide) (by decide) (by decide)
      (by decide)⟩

/-! ## C7: the blocks in the whole entrypoint -/

/-- No occurrence of `pat` begins in the import block of the entrypoint, when
its fixed lines pass the check and the module path is free of `pat`. -/
theorem mainHeader_safe_lines (c : ProjectConfig) (pat : List Char)
    (hmod : ¬ pat <:+: c.ModulePath.data) (h : litsSafe pat headerLines = true)
    (hr : noRunInto pat ("/config\"" ++ "\n").data = true) : Safe pat (mainHeader c).data := by
  simp only [mainHeader]
  refine safe_data_append (safe_data_foldl _ _ _ (litsSafe_mem h (by simp [headerLines])) ?_)
    (litsSafe_mem h (by simp [headerLines]))
  intro imp himp
  rcases foldl_addLibraryImport _ _ imp himp with h1 | ⟨e, _⟩ | ⟨e, _⟩ | ⟨e, _⟩ | ⟨e, _⟩
  · simp only [List.mem_cons, List.mem_singleton, List.not_mem_nil, or_false] at h1
    rcases h1 with rfl | rfl | rfl
    · exact litsSafe_mem h (by simp [headerLines])
    · exact litsSafe_mem h (by simp [headerLines])
    · have e : "\t" ++ ("\"" ++ c.ModulePath ++ "/config\"") ++ "\n"
          = ("\t" ++ "\"") ++ c.ModulePath ++ ("/config\"" ++ "\n") := by
        simp only [String.append_assoc]
      rw [e]
      exact safe_data_lit_var_lit (litsSafe_mem h (by simp [headerLines])) hmod hr
        (litsSafe_mem h (by simp [headerLines]))
  · rw [e]; exact litsSafe_mem h (by simp [headerLines])
  · rw [e]; exact litsSafe_mem h (by simp [headerLines])
  · rw [e]; exact litsSafe_mem h (by simp [headerLines])
  · rw [e]; exact litsSafe_mem h (by simp [headerLines])

/-- C7 fails for a module path that holds a block: the selection without
libraries whose module path is the text of the logger block gets an
entrypoint that contains the logger block, in the import of the config
package, although `go-logger` is not selected; its function `main` does not
contain the block. -/
theorem C7_block_in_module_path :
    selectionBlockInPath.Name ≠ "" ∧ selectionBlockInPath.ModulePath ≠ ""
      ∧ "go-logger" ∉ selectionBlockInPath.Libraries
      ∧ Contains (generateMainContent selectionBlockInPath) loggerBlock
      ∧ ¬ Contains (mainBody selectionBlockInPath) loggerBlock := by
  refine ⟨by decide, by decide, by decide, ?_, ?_⟩
  · decide!
  · decide!

/-- C7 (amended): for every selection, and for each of the five texts that
depend on a library, provided the module path does not contain that text: the
generated entrypoint contains the logger initialisation block exactly when
`go-logger` is selected, the metrics initialisation block, the metrics
middleware and the `/metrics` route exactly when `go-metrics` is selected, and
the migration block exactly when `go-migration` is selected and the database
is not `none`; and for every selection the entrypoint contains the `/health`
route and the `/api/v1` users-list route. -/
theorem C7_entrypoint_blocks (c : ProjectConfig) :
    (¬ Contains c.ModulePath loggerBlock →
        (Contains (generateMainContent c) loggerBlock ↔ "go-logger" ∈ c.Libraries))
      ∧ (¬ Contains c.ModulePath metricsBlock →
        (Contains (generateMainContent c) metricsBlock ↔ "go-metrics" ∈ c.Libraries))
      ∧ (¬ Contains c.ModulePath metricsMiddleware →
        (Contains (generateMainContent c) metricsMiddleware ↔ "go-metrics" ∈ c.Libraries))
      ∧ (¬ Contains c.ModulePath metricsRoute →
        (Contains (generateMainContent c) metricsRoute ↔ "go-metrics" ∈ c.Libraries))
      ∧ (¬ Contains c.ModulePath migrationBlock →
        (Contains (generateMainContent c) migrationBlock
          ↔ ("go-migration" ∈ c.Libraries ∧ c.Database ≠ "none")))
      ∧ Contains (generateMainContent c) healthRoute
      ∧ Contains (generateMainContent c) usersRoute := by
  have hb := mainBody_blocks c
  have up : ∀ block, Contains (mainBody c) block → Contains (generateMainContent c) block :=
    fun block h => contains_append_right _ h
  have hmig : (c.hasLibrary "go-migration" && c.Database != "none") = true
      ↔ ("go-migration" ∈ c.Libraries ∧ c.Database ≠ "none") := by
    rw [Bool.and_eq_true, hasLibrary_iff]; simp
  refine ⟨fun hmod => ⟨?_, fun h => up _ (hb.1.2 h)⟩,
    fun hmod => ⟨?_, fun h => up _ (hb.2.1.2 h)⟩,
    fun hmod => ⟨?_, fun h => up _ (hb.2.2.1.2 h)⟩,
    fun hmod => ⟨?_, fun h => up _ (hb.2.2.2.1.2 h)⟩,
    fun hmod => ⟨?_, fun h => up _ (hb.2.2.2.2.1.2 h)⟩, up _ hb.2.2.2.2.2.1,
    up _ hb.2.2.2.2.2.2⟩
  · intro h
    by_contra hn
    exact not_contains_of_safe (by decide) (generateMainContent_safe c _
      (mainHeader_safe_lines c _ hmod (by decide!) (by decide!))
      (mainBody_safe c _ false true true
        (bool_false_imp ((hasLibrary_false_iff c _).2 hn)) (bool_imp_true _) (bool_imp_true _)
        (by decide!))) h
  · intro h
    by_contra hn
    exact not_contains_of_safe (by decide) (generateMainContent_safe c _
      (mainHeader_safe_lines c _ hmod (by decide!) (by decide!))
      (mainBody_safe c _ true true false
        (bool_imp_true _) (bool_imp_true _) (bool_false_imp ((hasLibrary_false_iff c _).2 hn))
        (by decide!))) h
  · intro h
    by_contra hn
    exact not_contains_of_safe (by decide) (generateMainContent_safe c _
      (mainHeader_safe_lines c _ hmod (by decide!) (by decide!))
      (mainBody_safe c _ true true false
        (bool_imp_true _) (bool_imp_true _) (bool_false_imp ((hasLibrary_false_iff c _).2 hn))
        (by decide!))) h
  · intro h
    by_contra hn
    exact not_contains_of_safe (by decide) (generateMainContent_safe c _
      (mainHeader_safe_lines c _ hmod (by decide!) (by decide!))
      (mainBody_safe c _ true true false
        (bool_imp_true _) (bool_imp_true _) (bool_false_imp ((hasLibrary_false_iff c _).2 hn))
        (by decide!))) h
  · intro h
    by_contra hn
    have hf : (c.hasLibrary "go-migration" && c.Database != "none") = false := by
      cases hb2 : (c.hasLibrary "go-migration" && c.Database != "none")
      · rfl
      · exact absurd (hmig.1 hb2) hn
    exact not_contains_of_safe (by decide) (generateMainContent_safe c _
      (mainHeader_safe_lines c _ hmod (by decide!) (by decide!))
      (mainBody_safe c _ true false true
        (bool_imp_true _) (bool_false_imp hf) (bool_imp_true _) (by decide!))) h

/-- C7 (witness): the example selection, whose module path `my-api` contains
none of the five texts and which selects `go-logger` only. -/
theorem C7_entrypoint_blocks_witness :
    (¬ Contains exampleSelection.ModulePath loggerBlock
        ∧ ¬ Contains exampleSelection.ModulePath metricsBlock)
      ∧ (Contains (generateMainContent exampleSelection) loggerBlock
          ↔ "go-logger" ∈ exampleSelection.Libraries)
      ∧ (Contains (generateMainContent exampleSelection) metricsBlock
          ↔ "go-metrics" ∈ exampleSelection.Libraries) :=
  have h := C7_entrypoint_blocks exampleSelection
  ⟨⟨by decide, by decide⟩, h.1 (by decide), h.2.1 (by decide)⟩

/-! ## C9: the entrypoint reads declared fields only -/

theorem cfgReads_bodyParts : ∀ lg mg mt : Bool,
    cfgReads (joinAll (bodyParts lg mg mt)).data
      = (if lg = true then ["LogLevel"] else []) ++ (if mg = true then ["DatabaseURL"] else [])
        ++ (if mt = true then ["AppName"] else []) ++ ["Port"] := by
  decide!

/-- C9: the fields of `cfg` that the function `main` of the generated
entrypoint reads are `LogLevel` when `go-logger` is selected, `DatabaseURL`
when `go-migration` is selected and the database is not `none`, `AppName`
when `go-metrics` is selected, and `Port`; each of them is a field that the
`Config` struct generated for the same selection declares. -/
theorem C9_reads_declared (c : ProjectConfig) :
    cfgReads (mainBody c).data
        = (if "go-logger" ∈ c.Libraries then ["LogLevel"] else [])
          ++ (if "go-migration" ∈ c.Libraries ∧ c.Database ≠ "none" then ["DatabaseURL"] else [])
          ++ (if "go-metrics" ∈ c.Libraries then ["AppName"] else []) ++ ["Port"]
      ∧ ∀ field ∈ cfgReads (mainBody c).data, field ∈ declaredFields (configStruct c) := by
  have hmig : (c.hasLibrary "go-migration" && c.Database != "none") = true
      ↔ ("go-migration" ∈ c.Libraries ∧ c.Database ≠ "none") := by
    rw [Bool.and_eq_true, hasLibrary_iff]; simp
  have e : cfgReads (mainBody c).data
        = (if "go-logger" ∈ c.Libraries then ["LogLevel"] else [])
          ++ (if "go-migration" ∈ c.Libraries ∧ c.Database ≠ "none" then ["DatabaseURL"] else [])
          ++ (if "go-metrics" ∈ c.Libraries then ["AppName"] else []) ++ ["Port"] := by
    rw [mainBody_eq, cfgReads_bodyParts]
    simp only [hmig, hasLibrary_iff]
  refine ⟨e, ?_⟩
  rw [e, declaredFields_configStruct]
  intro field hf
  simp only [List.mem_append, List.mem_singleton] at hf
  unfold configFields
  simp only [List.mem_append]
  rcases hf with ((hf | hf) | hf) | hf
  · split_ifs at hf with h1
    · rw [List.mem_singleton] at hf
      exact Or.inr (by simp [h1, hf])
    · exact absurd hf (List.not_mem_nil _)
  · split_ifs at hf with h2
    · rw [List.mem_singleton] at hf
      exact Or.inl (Or.inl (Or.inr (by simp [h2.2, hf])))
    · exact absurd hf (List.not_mem_nil _)
  · split_ifs at hf with h3
    · rw [List.mem_singleton] at hf
      exact Or.inl (Or.inl (Or.inl (by simp [hf])))
    · exact absurd hf (List.not_mem_nil _)
  · exact Or.inl (Or.inl (Or.inl (by simp [hf])))

/-! ## C10: order of the libraries -/

theorem foldl_append_joinAll {β : Type} (g : β → String) :
    ∀ (l : List β) (init : String),
      l.foldl (fun acc x => acc ++ g x) init = init ++ joinAll (l.map g)
  | [], init => by simp [joinAll]
  | x :: l, init => by
    rw [List.foldl_cons, foldl_append_joinAll g l (init ++ g x)]
    simp [joinAll, String.append_assoc]

theorem addLibraryImport_append (imports : List String) (lib : String) :
    addLibraryImport imports lib = imports ++ addLibraryImport [] lib := by
  unfold addLibraryImport
  split_ifs <;> simp

theorem foldl_addLibraryImport_eq : ∀ (libs imports : List String),
    libs.foldl addLibraryImport imports = imports ++ libs.flatMap (addLibraryImport [])
  | [], imports => by simp
  | lib :: libs, imports => by
    rw [List.foldl_cons, foldl_addLibraryImport_eq libs, addLibraryImport_append imports lib]
    simp [List.flatMap_cons, List.append_assoc]

theorem joinAll_append : ∀ (l1 l2 : List String), joinAll (l1 ++ l2) = joinAll l1 ++ joinAll l2
  | [], l2 => by simp [joinAll]
  | s :: l1, l2 => by simp [joinAll, joinAll_append l1 l2, String.append_assoc]

theorem goModRequire_eq (c : ProjectConfig) :
    goModRequire c
      = "module " ++ c.ModulePath ++ goModAfterModule
        ++ joinAll (goModLibraryLines c.Libraries) := by
  unfold goModRequire goModLibraryLines goModAfterModule
  exact foldl_append_joinAll _ _ _

theorem mainHeader_eq (c : ProjectConfig) :
    mainHeader c
      = "package main\n\nimport (\n"
        ++ joinAll (["\t" ++ "\"log\"" ++ "\n", "\t" ++ "\"github.com/gin-gonic/gin\"" ++ "\n",
            "\t" ++ ("\"" ++ c.ModulePath ++ "/config\"") ++ "\n"]
          ++ libraryImportLines c.Libraries)
        ++ ")\n\n" := by
  simp only [mainHeader, mainImports, libraryImportLines, foldl_append_joinAll,
    foldl_addLibraryImport_eq, List.map_append, List.map_cons, List.map_nil]

theorem hasLibrary_perm {c1 c2 : ProjectConfig} (h : c1.Libraries.Perm c2.Libraries)
    (lib : String) : c1.hasLibrary lib = c2.hasLibrary lib := by
  rw [hasLibrary_eq_decide, hasLibrary_eq_decide]
  exact decide_eq_decide.2 h.mem_iff

/-- C10 (counterexample): two selections that differ only in the order of
their two libraries get different go.mod contents, different import blocks in
the entrypoint and different readme contents. -/
theorem C10_order_matters :
    selectionLoggerMetrics.Libraries.Perm selectionMetricsLogger.Libraries
      ∧ generateGoModContent selectionLoggerMetrics ≠ generateGoModContent selectionMetricsLogger
      ∧ mainHeader selectionLoggerMetrics ≠ mainHeader selectionMetricsLogger
      ∧ generateReadmeContent selectionLoggerMetrics
          ≠ generateReadmeContent selectionMetricsLogger := by
  refine ⟨List.Perm.swap _ _ _, ?_, ?_, ?_⟩ <;> decide!

theorem addDatabaseDrivers_append (database content : String) :
    addDatabaseDrivers database content = content ++ addDatabaseDrivers database "" := by
  unfold addDatabaseDrivers
  split_ifs <;> simp [String.append_assoc]

theorem generateGoModContent_eq (c : ProjectConfig) :
    generateGoModContent c
      = "module " ++ c.ModulePath ++ goModAfterModule
        ++ joinAll (goModLibraryLines c.Libraries)
        ++ (addDatabaseDrivers c.Database "" ++ ")\n") := by
  simp only [generateGoModContent, goModRequire_eq]
  rw [addDatabaseDrivers_append, String.append_assoc]

theorem readmeFeatures_eq (c : ProjectConfig) :
    readmeFeatures c
      = "# " ++ c.Name ++ "\n\n" ++ "A Go API generated with go-starter.\n\n" ++ "## Features\n\n"
        ++ joinAll (readmeFeatureLines c.Libraries) := by
  unfold readmeFeatures readmeFeatureLines
  exact foldl_append_joinAll _ _ _

/-- C10 (amended): for two selections that agree in name, module path,
structure, database and deployment and whose libraries lists are permutations
of one another, the config loader, the handlers file, the auth middleware,
the environment file content, the deployment descriptor and the function
`main` of the entrypoint are identical.  go.mod, the import block of the
entrypoint and the readme list the libraries in the order of the libraries
list: each is the same fixed text before and after its library lines in both
selections, the library lines of the one selection are a permutation of those
of the other, and the file is identical in both selections whenever its
library lines come in the same order. -/
theorem C10_stable_under_permutation (c1 c2 : ProjectConfig)
    (hN : c1.Name = c2.Name) (hM : c1.ModulePath = c2.ModulePath)
    (hS : c1.Structure = c2.Structure) (hD : c1.Database = c2.Database)
    (hP : c1.Deployment = c2.Deployment) (hperm : c1.Libraries.Perm c2.Libraries) :
    generateConfigContent c1 = generateConfigContent c2
      ∧ generateHandlersContent c1 = generateHandlersContent c2
      ∧ generateMiddlewareContent c1 = generateMiddlewareContent c2
      ∧ generateEnvContent c1 = generateEnvContent c2
      ∧ generateRailwayContent c1 = generateRailwayContent c2
      ∧ mainBody c1 = mainBody c2
      ∧ ((goModLibraryLines c1.Libraries).Perm (goModLibraryLines c2.Libraries)
          ∧ ∃ before after : String,
              generateGoModContent c1
                  = before ++ joinAll (goModLibraryLines c1.Libraries) ++ after
                ∧ generateGoModContent c2
                  = before ++ joinAll (goModLibraryLines c2.Libraries) ++ after)
      ∧ ((libraryImportLines c1.Libraries).Perm (libraryImportLines c2.Libraries)
          ∧ ∃ before after : String,
              generateMainContent c1
                  = before ++ joinAll (libraryImportLines c1.Libraries) ++ after
                ∧ generateMainContent c2
                  = before ++ joinAll (libraryImportLines c2.Libraries) ++ after)
      ∧ ((readmeFeatureLines c1.Libraries).Perm (readmeFeatureLines c2.Libraries)
          ∧ ∃ before after : String,
              generateReadmeContent c1
                  = before ++ joinAll (readmeFeatureLines c1.Libraries) ++ after
                ∧ generateReadmeContent c2
                  = before ++ joinAll (readmeFeatureLines c2.Libraries) ++ after)
      ∧ (goModLibraryLines c1.Libraries = goModLibraryLines c2.Libraries →
          generateGoModContent c1 = generateGoModContent c2)
      ∧ (libraryImportLines c1.Libraries = libraryImportLines c2.Libraries →
          generateMainContent c1 = generateMainContent c2)
      ∧ (readmeFeatureLines c1.Libraries = readmeFeatureLines c2.Libraries →
          generateReadmeContent c1 = generateReadmeContent c2) := by
  have hl := hasLibrary_perm hperm
  have hbody : mainBody c1 = mainBody c2 := by simp only [mainBody, hD, hl]
  have hrest : readmeRest c1 = readmeRest c2 := by simp only [readmeRest, hP, hl]
  refine ⟨?_, ?_, ?_, ?_, ?_, hbody,
    ⟨hperm.map _, "module " ++ c1.ModulePath ++ goModAfterModule,
      addDatabaseDrivers c1.Database "" ++ ")\n", generateGoModContent_eq c1, ?_⟩,
    ⟨(hperm.flatMap_right _).map _, ?_⟩,
    ⟨hperm.map _, "# " ++ c2.Name ++ "\n\n" ++ "A Go API generated with go-starter.\n\n"
      ++ "## Features\n\n", readmeRest c2, ?_, ?_⟩, ?_, ?_, ?_⟩
  · simp only [generateConfigContent, configStruct, configLoad, hN, hD, hl]
  · simp only [generateHandlersContent, handlerPkg, hS, hl]
  · simp only [generateMiddlewareContent, middlewarePkg, hS]
  · simp only [generateEnvContent, hN, hD, hl]
  · simp only [generateRailwayContent, startCmd, hS]
  · rw [generateGoModContent_eq c2, hM, hD]
  · refine ⟨"package main\n\nimport (\n" ++ joinAll ["\t" ++ "\"log\"" ++ "\n",
        "\t" ++ "\"github.com/gin-gonic/gin\"" ++ "\n",
        "\t" ++ ("\"" ++ c2.ModulePath ++ "/config\"") ++ "\n"], ")\n\n" ++ mainBody c2, ?_, ?_⟩
    · simp only [generateMainContent, mainHeader_eq, hM, hbody, joinAll_append,
        String.append_assoc]
    · simp only [generateMainContent, mainHeader_eq, joinAll_append, String.append_assoc]
  · show readmeFeatures c1 ++ readmeRest c1 = _
    rw [readmeFeatures_eq, hrest, hN]
  · show readmeFeatures c2 ++ readmeRest c2 = _
    rw [readmeFeatures_eq]
  · intro h
    rw [generateGoModContent_eq c1, generateGoModContent_eq c2, hM, hD, h]
  · intro h
    simp only [generateMainContent, mainHeader_eq, hM, hbody, h]
  · intro h
    show readmeFeatures c1 ++ readmeRest c1 = readmeFeatures c2 ++ readmeRest c2
    rw [readmeFeatures_eq, readmeFeatures_eq, hrest, hN, h]

/-- C10 (witness): the two selections with `go-logger` and `go-metrics` in
either order. -/
theorem C10_stable_under_permutation_witness :
    (selectionLoggerMetrics.Name = selectionMetricsLogger.Name
        ∧ selectionLoggerMetrics.ModulePath = selectionMetricsLogger.ModulePath
        ∧ selectionLoggerMetrics.Structure = selectionMetricsLogger.Structure
        ∧ selectionLoggerMetrics.Database = selectionMetricsLogger.Database
        ∧ selectionLoggerMetrics.Deployment = selectionMetricsLogger.Deployment
        ∧ selectionLoggerMetrics.Libraries.Perm selectionMetricsLogger.Libraries)
      ∧ generateConfigContent selectionLoggerMetrics = generateConfigContent selectionMetricsLogger
      ∧ generateHandlersContent selectionLoggerMetrics
          = generateHandlersContent selectionMetricsLogger
      ∧ mainBody selectionLoggerMetrics = mainBody selectionMetricsLogger :=
  have h := C10_stable_under_permutation selectionLoggerMetrics selectionMetricsLogger rfl rfl rfl
    rfl rfl (List.Perm.swap _ _ _)
  ⟨⟨rfl, rfl, rfl, rfl, rfl, List.Perm.swap _ _ _⟩, h.1, h.2.1, h.2.2.2.2.2.1⟩

/-! ## C11: determinism -/

theorem corresponds_andThen {o1 o2 : String} {r1 r2 : Outcome} {k1 k2 : FileSystem → Outcome}
    (h : Corresponds o1 o2 r1 r2)
    (hk : ∀ fs, Rooted o1 fs → Corresponds o1 o2 (k1 fs) (k2 (fs.reroot o2))) :
    Corresponds o1 o2 (r1.andThen k1) (r2.andThen k2) := by
  obtain ⟨he, hf, hr⟩ := h
  unfold Outcome.andThen
  rw [he]
  cases h1 : r1.err with
  | none => simp only []; rw [hf]; exact hk _ hr
  | some e => exact ⟨rfl, hf, hr⟩

theorem filter_reroot (o1 o2 rel : String) : ∀ (files : List (Path × String)),
    (∀ f ∈ files, f.1.root = o1) →
    (files.map (fun f => (f.1.reroot o2, f.2))).filter (fun f => f.1 ≠ (⟨o2, rel⟩ : Path))
      = (files.filter (fun f => f.1 ≠ (⟨o1, rel⟩ : Path))).map (fun f => (f.1.reroot o2, f.2))
  | [], _ => rfl
  | f :: files, h => by
    have ih := filter_reroot o1 o2 rel files (fun g hg => h g (List.mem_cons_of_mem _ hg))
    have hroot : f.1.root = o1 := h f (List.mem_cons_self _ _)
    have hiff : (f.1.reroot o2 = (⟨o2, rel⟩ : Path)) ↔ (f.1 = (⟨o1, rel⟩ : Path)) := by
      obtain ⟨⟨r, l⟩, content⟩ := f
      simp only [Path.reroot, Path.mk.injEq, true_and] at hroot ⊢
      simp [hroot]
    have e1 : decide ((f.1.reroot o2, f.2).1 ≠ (⟨o2, rel⟩ : Path))
        = decide (f.1 ≠ (⟨o1, rel⟩ : Path)) := decide_eq_decide.2 (not_congr hiff)
    rw [List.map_cons, List.filter_cons, List.filter_cons, e1, ih]
    split_ifs
    · rfl
    · rfl

theorem corresponds_writeFile {o1 o2 : String} {d1 d2 : Disk} (hd : Disk.Alike d1 o1 d2 o2)
    (fs : FileSystem) (hr : Rooted o1 fs) (rel content : String) :
    Corresponds o1 o2 (writeFile d1 fs ⟨o1, rel⟩ content)
      (writeFile d2 (fs.reroot o2) ⟨o2, rel⟩ content) := by
  unfold writeFile
  rw [hd.2 rel]
  cases d1.writeOk ⟨o1, rel⟩
  · exact ⟨rfl, rfl, hr⟩
  · refine ⟨rfl, ?_, hr.1, ?_⟩
    · simp only [FileSystem.reroot, if_true, List.map_append, List.map_cons, List.map_nil]
      rw [filter_reroot o1 o2 rel fs.files hr.2]
      rfl
    · intro f hf
      simp only [if_true] at hf
      rcases List.mem_append.1 hf with hf | hf
      · exact hr.2 f (List.mem_of_mem_filter hf)
      · rw [List.mem_singleton.1 hf]

theorem mem_reroot_iff {o1 o2 rel : String} {dirs : List Path} (h : ∀ p ∈ dirs, p.root = o1) :
    (⟨o2, rel⟩ : Path) ∈ dirs.map (Path.reroot o2) ↔ (⟨o1, rel⟩ : Path) ∈ dirs := by
  constructor
  · intro hm
    obtain ⟨p, hp, e⟩ := List.mem_map.1 hm
    have := h p hp
    obtain ⟨r, l⟩ := p
    simp only [Path.reroot, Path.mk.injEq, true_and] at e this
    subst e; subst this
    exact hp
  · intro hm
    exact List.mem_map.2 ⟨_, hm, rfl⟩

theorem corresponds_mkdirAll {o1 o2 : String} {d1 d2 : Disk} (hd : Disk.Alike d1 o1 d2 o2)
    (fs : FileSystem) (hr : Rooted o1 fs) (rel : String) :
    Corresponds o1 o2 (mkdirAll d1 fs ⟨o1, rel⟩) (mkdirAll d2 (fs.reroot o2) ⟨o2, rel⟩) := by
  unfold mkdirAll
  rw [hd.1 rel]
  cases d1.mkdirOk ⟨o1, rel⟩
  · exact ⟨rfl, rfl, hr⟩
  · have hiff := @mem_reroot_iff o1 o2 rel fs.dirs hr.1
    by_cases hm : (⟨o1, rel⟩ : Path) ∈ fs.dirs
    · have hm2 : (⟨o2, rel⟩ : Path) ∈ (fs.reroot o2).dirs := hiff.2 hm
      simp only [if_true, hm, hm2]
      exact ⟨rfl, rfl, hr⟩
    · have hm2 : ¬ (⟨o2, rel⟩ : Path) ∈ (fs.reroot o2).dirs := fun e => hm (hiff.1 e)
      simp only [if_true, hm, hm2, if_false]
      refine ⟨rfl, ?_, ?_, hr.2⟩
      · simp [FileSystem.reroot, Path.reroot]
      · intro p hp
        rcases List.mem_append.1 hp with hp | hp
        · exact hr.1 p hp
        · rw [List.mem_singleton.1 hp]

theorem corresponds_mkdirEach {o1 o2 : String} {d1 d2 : Disk} (hd : Disk.Alike d1 o1 d2 o2) :
    ∀ (dirs : List String) (fs : FileSystem), Rooted o1 fs →
      Corresponds o1 o2 (mkdirEach d1 o1 dirs fs) (mkdirEach d2 o2 dirs (fs.reroot o2))
  | [], _, hr => ⟨rfl, rfl, hr⟩
  | dir :: rest, fs, hr => by
    rw [mkdirEach, mkdirEach]
    exact corresponds_andThen (corresponds_mkdirAll hd fs hr dir)
      (fun fs2 h2 => corresponds_mkdirEach hd rest fs2 h2)

theorem setDefaults_reroot (c : ProjectConfig) (o2 : String) :
    setDefaults { c with OutputDir := o2 } = { setDefaults c with OutputDir := o2 } := by
  unfold setDefaults
  simp only []
  split_ifs <;> rfl

/-- The pipeline after the defaulting, on a configuration `x`. -/
theorem pipeline_corresponds {d1 d2 : Disk} (x : ProjectConfig) (o2 : String)
    (hd : Disk.Alike d1 x.OutputDir d2 o2) (fs : FileSystem) (hr : Rooted x.OutputDir fs) :
    Corresponds x.OutputDir o2
      ((createDirectoryStructure d1 x fs).andThen fun fs =>
        (generateGoMod d1 x fs).andThen fun fs =>
        (generateMain d1 x fs).andThen fun fs =>
        (generateConfig d1 x fs).andThen fun fs =>
        (generateHandlers d1 x fs).andThen fun fs =>
        (if x.hasLibrary "go-auth" then generateMiddleware d1 x fs else ⟨none, fs⟩).andThen fun fs =>
        (generateEnvFiles d1 x fs).andThen fun fs =>
        (generateGitignore d1 x fs).andThen fun fs =>
        (if x.Deployment = "railway" then generateRailwayConfig d1 x fs
          else ⟨none, fs⟩).andThen fun fs =>
        (generateReadme d1 x fs).andThen fun fs =>
        ⟨none, fs⟩)
      ((createDirectoryStructure d2 { x with OutputDir := o2 } (fs.reroot o2)).andThen fun fs =>
        (generateGoMod d2 { x with OutputDir := o2 } fs).andThen fun fs =>
        (generateMain d2 { x with OutputDir := o2 } fs).andThen fun fs =>
        (generateConfig d2 { x with OutputDir := o2 } fs).andThen fun fs =>
        (generateHandlers d2 { x with OutputDir := o2 } fs).andThen fun fs =>
        (if ({ x with OutputDir := o2 } : ProjectConfig).hasLibrary "go-auth" then
            generateMiddleware d2 { x with OutputDir := o2 } fs else ⟨none, fs⟩).andThen fun fs =>
        (generateEnvFiles d2 { x with OutputDir := o2 } fs).andThen fun fs =>
        (generateGitignore d2 { x with OutputDir := o2 } fs).andThen fun fs =>
        (if ({ x with OutputDir := o2 } : ProjectConfig).Deployment = "railway" then
            generateRailwayConfig d2 { x with OutputDir := o2 } fs
          else ⟨none, fs⟩).andThen fun fs =>
        (generateReadme d2 { x with OutputDir := o2 } fs).andThen fun fs =>
        ⟨none, fs⟩) := by
  have hw : ∀ (rel content : String) (fs : FileSystem), Rooted x.OutputDir fs →
      Corresponds x.OutputDir o2 (writeFile d1 fs ⟨x.OutputDir, rel⟩ content)
        (writeFile d2 (fs.reroot o2) ⟨o2, rel⟩ content) :=
    fun rel content fs hr => corresponds_writeFile hd fs hr rel content
  refine corresponds_andThen (corresponds_mkdirEach hd _ fs hr) fun fs hr => ?_
  refine corresponds_andThen (hw "go.mod" _ fs hr) fun fs hr => ?_
  refine corresponds_andThen (hw (mainPath x) _ fs hr) fun fs hr => ?_
  refine corresponds_andThen (hw "config/config.go" _ fs hr) fun fs hr => ?_
  refine corresponds_andThen (hw (handlerPath x) _ fs hr) fun fs hr => ?_
  refine corresponds_andThen ?_ fun fs hr => ?_
  · show Corresponds x.OutputDir o2
      (if x.hasLibrary "go-auth" then generateMiddleware d1 x fs else ⟨none, fs⟩)
      (if x.hasLibrary "go-auth" then generateMiddleware d2 { x with OutputDir := o2 } (fs.reroot o2)
        else ⟨none, fs.reroot o2⟩)
    split_ifs
    · exact hw (middlewarePath x) _ fs hr
    · exact ⟨rfl, rfl, hr⟩
  refine corresponds_andThen ?_ fun fs hr => ?_
  · have h1 := hw ".env" (generateEnvContent x) fs hr
    have h2 := hw ".env.example" (generateEnvContent x) _ h1.2.2
    rw [← h1.2.1] at h2
    exact ⟨rfl, h2.2.1, h2.2.2⟩
  refine corresponds_andThen (hw ".gitignore" _ fs hr) fun fs hr => ?_
  refine corresponds_andThen ?_ fun fs hr => ?_
  · show Corresponds x.OutputDir o2
      (if x.Deployment = "railway" then generateRailwayConfig d1 x fs else ⟨none, fs⟩)
      (if x.Deployment = "railway" then
          generateRailwayConfig d2 { x with OutputDir := o2 } (fs.reroot o2)
        else ⟨none, fs.reroot o2⟩)
    split_ifs
    · exact hw "railway.json" _ fs hr
    · exact ⟨rfl, rfl, hr⟩
  refine corresponds_andThen (hw "README.md" _ fs hr) fun fs hr => ?_
  exact ⟨rfl, rfl, hr⟩

theorem GenerateProject_corresponds {d1 d2 : Disk} (c : ProjectConfig) (o2 : String)
    (hd : Disk.Alike d1 c.OutputDir d2 o2) (fs : FileSystem) (hr : Rooted c.OutputDir fs) :
    Corresponds c.OutputDir o2 (GenerateProject d1 c fs)
      (GenerateProject d2 { c with OutputDir := o2 } (fs.reroot o2)) := by
  have ho := setDefaults_OutputDir c
  unfold GenerateProject
  refine corresponds_andThen (corresponds_mkdirAll hd fs hr "") fun fs hr => ?_
  simp only []
  rw [setDefaults_reroot c o2]
  have h := @pipeline_corresponds d1 d2 (setDefaults c) o2 (by rw [ho]; exact hd) fs
    (by rw [ho]; exact hr)
  rw [ho] at h
  exact h

theorem tree_reroot (root : String) (fs : FileSystem) : (fs.reroot root).tree = fs.tree := by
  simp [FileSystem.tree, FileSystem.reroot, Path.reroot, List.map_map, Function.comp]

theorem rooted_empty (root : String) : Rooted root FileSystem.empty :=
  ⟨fun _ h => absurd h (List.not_mem_nil _), fun _ h => absurd h (List.not_mem_nil _)⟩

theorem alike_healthy (o1 o2 : String) : Disk.Alike Disk.healthy o1 Disk.healthy o2 :=
  ⟨fun _ => rfl, fun _ => rfl⟩

/-- C11: two runs of `GenerateProject` on the same selection with different
output roots, on disks that behave alike below the two roots, return the same
error and leave trees with the same relative file paths, the same contents and
the same relative directories, every path lying below the respective output
root; on disks without failures this holds for any two output roots. -/
theorem C11_determinism (c : ProjectConfig) (o2 : String) (d1 d2 : Disk)
    (hd : Disk.Alike d1 c.OutputDir d2 o2) :
    (GenerateProject d2 { c with OutputDir := o2 } FileSystem.empty).err
        = (GenerateProject d1 c FileSystem.empty).err
      ∧ (GenerateProject d2 { c with OutputDir := o2 } FileSystem.empty).fs.tree
        = (GenerateProject d1 c FileSystem.empty).fs.tree
      ∧ (GenerateProject d2 { c with OutputDir := o2 } FileSystem.empty).fs.dirs.map Path.rel
        = (GenerateProject d1 c FileSystem.empty).fs.dirs.map Path.rel
      ∧ Rooted c.OutputDir (GenerateProject d1 c FileSystem.empty).fs
      ∧ Rooted o2 (GenerateProject d2 { c with OutputDir := o2 } FileSystem.empty).fs
      ∧ (GenerateProject Disk.healthy { c with OutputDir := o2 } FileSystem.empty).fs.tree
        = (GenerateProject Disk.healthy c FileSystem.empty).fs.tree := by
  have h := GenerateProject_corresponds c o2 hd FileSystem.empty (rooted_empty _)
  have hh := GenerateProject_corresponds c o2 (alike_healthy c.OutputDir o2) FileSystem.empty
    (rooted_empty _)
  have he : FileSystem.empty.reroot o2 = FileSystem.empty := rfl
  rw [he] at h hh
  obtain ⟨h1, h2, h3⟩ := h
  refine ⟨h1, by rw [h2, tree_reroot], ?_, h3, ?_, by rw [hh.2.1, tree_reroot]⟩
  · rw [h2]
    simp [FileSystem.reroot, Path.reroot, List.map_map, Function.comp]
  · rw [h2]
    constructor
    · intro p hp
      obtain ⟨q, _, e⟩ := List.mem_map.1 hp
      rw [← e]; rfl
    · intro f hf
      obtain ⟨g, _, e⟩ := List.mem_map.1 hf
      rw [← e]; rfl

/-- C11 (witness): the example selection moved to the root `elsewhere`, on a
disk that cannot write README.md. -/
theorem C11_determinism_witness :
    Disk.Alike diskNoReadme exampleSelection.OutputDir diskNoReadme "elsewhere"
      ∧ (GenerateProject diskNoReadme { exampleSelection with OutputDir := "elsewhere" }
            FileSystem.empty).err
          = (GenerateProject diskNoReadme exampleSelection FileSystem.empty).err
      ∧ (GenerateProject diskNoReadme { exampleSelection with OutputDir := "elsewhere" }
            FileSystem.empty).fs.tree
          = (GenerateProject diskNoReadme exampleSelection FileSystem.empty).fs.tree :=
  have hd : Disk.Alike diskNoReadme exampleSelection.OutputDir diskNoReadme "elsewhere" :=
    ⟨fun _ => rfl, fun _ => rfl⟩
  have h := C11_determinism exampleSelection "elsewhere" diskNoReadme diskNoReadme hd
  ⟨hd, h.1, h.2.1⟩

/-! ## C12: validation -/

theorem Handlers.GenerateProject_status (d : Disk)
    (createZip : FileSystem → String → String → Outcome) (now : Int)
    (req : Types.GenerateRequest) (fs : FileSystem) :
    (Handlers.GenerateProject d createZip now (some req) fs).1.status = 400
      ↔ (req.Name = "" ∨ req.ModulePath = "") := by
  unfold Handlers.GenerateProject
  simp only []
  by_cases hN : req.Name = ""
  · simp [hN, Handlers.Reply.status]
  · by_cases hM : req.ModulePath = ""
    · simp [hN, hM, Handlers.Reply.status]
    · simp only [hN, hM, if_false, or_self, iff_false]
      split
      · simp [Handlers.Reply.status]
      · split <;> simp [Handlers.Reply.status]

/-- C12: for a well-formed request body the generate handler replies with
status 400 exactly when the name or the module path is empty; an empty name
gives the failure body with error `Project name is required` (whatever the
module path), otherwise an empty module path gives `Module path is required`;
both replies have `success: false` and leave the file system as it was. -/
theorem C12_validation (d : Disk) (createZip : FileSystem → String → String → Outcome)
    (now : Int) (req : Types.GenerateRequest) (fs : FileSystem) :
    ((Handlers.GenerateProject d createZip now (some req) fs).1.status = 400
        ↔ (req.Name = "" ∨ req.ModulePath = ""))
      ∧ (req.Name = "" →
          Handlers.GenerateProject d createZip now (some req) fs
            = (Handlers.Reply.json 400 (Handlers.failure "Project name is required"), fs))
      ∧ (req.Name ≠ "" → req.ModulePath = "" →
          Handlers.GenerateProject d createZip now (some req) fs
            = (Handlers.Reply.json 400 (Handlers.failure "Module path is required"), fs))
      ∧ (Handlers.failure "Project name is required").Success = false
      ∧ (Handlers.failure "Module path is required").Success = false
      ∧ ((req.Name = "" ∨ req.ModulePath = "") →
          (Handlers.GenerateProject d createZip now (some req) fs).1.isFailure = true
            ∧ (Handlers.GenerateProject d createZip now (some req) fs).2 = fs) := by
  have h1 : req.Name = "" →
      Handlers.GenerateProject d createZip now (some req) fs
        = (Handlers.Reply.json 400 (Handlers.failure "Project name is required"), fs) := by
    intro hN
    simp [Handlers.GenerateProject, hN]
  have h2 : req.Name ≠ "" → req.ModulePath = "" →
      Handlers.GenerateProject d createZip now (some req) fs
        = (Handlers.Reply.json 400 (Handlers.failure "Module path is required"), fs) := by
    intro hN hM
    simp [Handlers.GenerateProject, hN, hM]
  refine ⟨Handlers.GenerateProject_status d createZip now req fs, h1, h2, rfl, rfl, ?_⟩
  intro h
  by_cases hN : req.Name = ""
  · rw [h1 hN]; exact ⟨rfl, rfl⟩
  · have hM : req.ModulePath = "" := h.resolve_left hN
    rw [h2 hN hM]; exact ⟨rfl, rfl⟩

/-! ## C13: defaulting -/

theorem setDefaults_Structure (c : ProjectConfig) :
    (setDefaults c).Structure = if c.Structure = "" then "simple" else c.Structure := by
  unfold setDefaults; simp only []; split_ifs <;> rfl

theorem setDefaults_Database (c : ProjectConfig) :
    (setDefaults c).Database = if c.Database = "" then "none" else c.Database := by
  unfold setDefaults; simp only []; split_ifs <;> rfl

theorem setDefaults_Deployment (c : ProjectConfig) :
    (setDefaults c).Deployment = if c.Deployment = "" then "railway" else c.Deployment := by
  unfold setDefaults; simp only []; split_ifs <;> rfl

theorem setDefaults_idem (c : ProjectConfig) : setDefaults (setDefaults c) = setDefaults c := by
  have h : ∀ x : ProjectConfig, x.Structure ≠ "" → x.Deployment ≠ "" → x.Database ≠ "" →
      setDefaults x = x := by
    intro x h1 h2 h3
    unfold setDefaults
    simp only [h1, h2, h3, if_false]
  apply h
  · rw [setDefaults_Structure]; split_ifs with e
    · decide
    · exact e
  · rw [setDefaults_Deployment]; split_ifs with e
    · decide
    · exact e
  · rw [setDefaults_Database]; split_ifs with e
    · decide
    · exact e

/-- C13: the defaulting of `GenerateProject` replaces an empty structure by
`simple`, an empty database by `none` and an empty deployment by `railway`,
and leaves every non-empty value of these fields, the name, the module path,
the libraries and the output directory as they are; defaulting twice is
defaulting once; and `GenerateProject` behaves on a selection as on the
defaulted selection. -/
theorem C13_defaulting (c : ProjectConfig) :
    (setDefaults c).Structure = (if c.Structure = "" then "simple" else c.Structure)
      ∧ (setDefaults c).Database = (if c.Database = "" then "none" else c.Database)
      ∧ (setDefaults c).Deployment = (if c.Deployment = "" then "railway" else c.Deployment)
      ∧ (setDefaults c).Name = c.Name
      ∧ (setDefaults c).ModulePath = c.ModulePath
      ∧ (setDefaults c).Libraries = c.Libraries
      ∧ (setDefaults c).OutputDir = c.OutputDir
      ∧ setDefaults (setDefaults c) = setDefaults c
      ∧ (∀ (d : Disk) (fs : FileSystem),
          GenerateProject d c fs = GenerateProject d (setDefaults c) fs) := by
  refine ⟨setDefaults_Structure c, setDefaults_Database c, setDefaults_Deployment c,
    setDefaults_Name c, setDefaults_ModulePath c, setDefaults_Libraries c,
    setDefaults_OutputDir c, setDefaults_idem c, ?_⟩
  intro d fs
  unfold GenerateProject
  simp only [setDefaults_idem, setDefaults_OutputDir]

/-! ## C14: the fields after defaulting -/

/-- C14 (counterexample): a request with a non-empty name and module path and
the structure `layered` passes validation (the reply has not status 400), and
after defaulting its structure is still `layered`, which is neither `simple`
nor `standard`. -/
theorem C14_structure_outside_enum :
    requestOddStructure.Name ≠ "" ∧ requestOddStructure.ModulePath ≠ ""
      ∧ (∀ (d : Disk) (createZip : FileSystem → String → String → Outcome) (now : Int)
            (fs : FileSystem),
          (Handlers.GenerateProject d createZip now (some requestOddStructure) fs).1.status ≠ 400)
      ∧ (∀ dir, (setDefaults (Handlers.projectConfig requestOddStructure dir)).Structure
          ∉ structureValues) := by
  refine ⟨by decide, by decide, ?_, ?_⟩
  · intro d createZip now fs h
    have := (Handlers.GenerateProject_status d createZip now requestOddStructure fs).1 h
    revert this
    decide
  · intro dir
    rw [setDefaults_Structure]
    show (if "layered" = "" then "simple" else "layered") ∉ structureValues
    decide

/-- C14 (amended): for a request that passes validation, after defaulting the
name, the module path, the structure, the database and the deployment are
non-empty; the structure is one of `simple`, `standard` exactly when the
requested structure was empty or one of them, and likewise the database for
`postgres`, `mysql`, `mongodb`, `none` and the deployment for `railway`,
`local`, `docker`: other requested values are neither rejected nor changed. -/
theorem C14_fields_after_defaulting (req : Types.GenerateRequest) (dir : String)
    (hN : req.Name ≠ "") (hM : req.ModulePath ≠ "") :
    (setDefaults (Handlers.projectConfig req dir)).Name ≠ ""
      ∧ (setDefaults (Handlers.projectConfig req dir)).ModulePath ≠ ""
      ∧ (setDefaults (Handlers.projectConfig req dir)).Structure ≠ ""
      ∧ (setDefaults (Handlers.projectConfig req dir)).Database ≠ ""
      ∧ (setDefaults (Handlers.projectConfig req dir)).Deployment ≠ ""
      ∧ ((setDefaults (Handlers.projectConfig req dir)).Structure ∈ structureValues
          ↔ (req.Structure = "" ∨ req.Structure ∈ structureValues))
      ∧ ((setDefaults (Handlers.projectConfig req dir)).Database ∈ databaseValues
          ↔ (req.Database.Type_ = "" ∨ req.Database.Type_ ∈ databaseValues))
      ∧ ((setDefaults (Handlers.projectConfig req dir)).Deployment ∈ deploymentValues
          ↔ (req.Deployment = "" ∨ req.Deployment ∈ deploymentValues)) := by
  have key : ∀ (v dflt : String) (vals : List String), dflt ≠ "" → dflt ∈ vals → "" ∉ vals →
      (if v = "" then dflt else v) ≠ ""
        ∧ ((if v = "" then dflt else v) ∈ vals ↔ (v = "" ∨ v ∈ vals)) := by
    intro v dflt vals h1 h2 h3
    by_cases hv : v = ""
    · simp only [hv, if_true, true_or, iff_true]; exact ⟨h1, h2⟩
    · simp only [hv, if_false, false_or]; exact ⟨hv, trivial⟩
  have k1 := key req.Structure "simple" structureValues (by decide) (by decide) (by decide)
  have k2 := key req.Database.Type_ "none" databaseValues (by decide) (by decide) (by decide)
  have k3 := key req.Deployment "railway" deploymentValues (by decide) (by decide) (by decide)
  rw [setDefaults_Name, setDefaults_ModulePath, setDefaults_Structure, setDefaults_Database,
    setDefaults_Deployment]
  exact ⟨hN, hM, k1.1, k2.1, k3.1, k1.2, k2.2, k3.2⟩

/-- C14 (witness): the request of the counterexample. -/
theorem C14_fields_after_defaulting_witness :
    (requestOddStructure.Name ≠ "" ∧ requestOddStructure.ModulePath ≠ "")
      ∧ (setDefaults (Handlers.projectConfig requestOddStructure "out")).Structure ≠ ""
      ∧ (setDefaults (Handlers.projectConfig requestOddStructure "out")).Database ∈ databaseValues :=
  have h := C14_fields_after_defaulting requestOddStructure "out" (by decide) (by decide)
  ⟨⟨by decide, by decide⟩, h.2.2.1, h.2.2.2.2.2.2.1.2 (by decide)⟩

/-! ## C15: write failures -/

theorem writeEach_nil (d : Disk) (root : String) :
    writeEach d root [] = fun fs => ⟨none, fs⟩ := funext fun _ => rfl

theorem writeEach_checked (d : Disk) (root rel content : String) (rest : List Artifact) :
    writeEach d root (⟨rel, content, true⟩ :: rest)
      = fun fs => (writeFile d fs ⟨root, rel⟩ content).andThen (writeEach d root rest) :=
  funext fun _ => rfl

theorem writeEach_unchecked (d : Disk) (root rel content : String) (rest : List Artifact) :
    writeEach d root (⟨rel, content, false⟩ :: rest)
      = fun fs => writeEach d root rest (writeFile d fs ⟨root, rel⟩ content).fs :=
  funext fun _ => rfl

theorem join_one (root a : String) : Path.join root [a] = ⟨root, a⟩ := rfl

theorem join_config (root : String) :
    Path.join root ["config", "config.go"] = ⟨root, "config/config.go"⟩ := by
  have h : String.intercalate "/" ["config", "config.go"] = "config/config.go" := by decide
  unfold Path.join
  rw [h]

/-- The pipeline of `GenerateProject` after the directories: the artifacts of
the defaulted configuration written in order. -/
theorem GenerateProject_eq_writeEach (d : Disk) (c : ProjectConfig) (fs : FileSystem) :
    GenerateProject d c fs
      = (mkdirAll d fs (Path.join c.OutputDir [])).andThen fun fs =>
          (createDirectoryStructure d (setDefaults c) fs).andThen
            (writeEach d (setDefaults c).OutputDir (artifacts (setDefaults c))) := by
  unfold GenerateProject artifacts generateGoMod generateMain generateConfig generateHandlers
    generateMiddleware generateEnvFiles generateGitignore generateRailwayConfig generateReadme
  simp only [join_one, join_config]
  cases hA : (setDefaults c).hasLibrary "go-auth" <;>
    by_cases hR : (setDefaults c).Deployment = "railway" <;>
    simp only [hR, if_true, if_false, Bool.false_eq_true, List.cons_append, List.nil_append,
      List.append_nil, writeEach_nil, writeEach_checked, writeEach_unchecked, andThen_none]

theorem within_refl (allowed : List String) (fs : FileSystem) : Within allowed fs fs :=
  fun _ hf => Or.inl hf

theorem within_mono {a1 a2 : List String} {fs0 fs : FileSystem} (h : Within a1 fs0 fs)
    (hsub : ∀ x ∈ a1, x ∈ a2) : Within a2 fs0 fs := by
  intro f hf
  rcases h f hf with h1 | h1
  · exact Or.inl h1
  · exact Or.inr (hsub _ h1)

theorem within_trans_write {allowed : List String} {fs0 : FileSystem} (d : Disk) (p : Path)
    (content : String) {fs2 : FileSystem}
    (h : Within allowed (writeFile d fs0 p content).fs fs2) :
    Within (p.rel :: allowed) fs0 fs2 := by
  intro f hf
  rcases h f hf with h1 | h1
  · have hw : Within [p.rel] fs0 (writeFile d fs0 p content).fs :=
      within_writeFile d p content (within_refl _ _) (List.mem_singleton.2 rfl)
    rcases hw f h1 with h2 | h2
    · exact Or.inl h2
    · exact Or.inr (List.mem_cons.2 (Or.inl (List.mem_singleton.1 h2)))
  · exact Or.inr (List.mem_cons_of_mem _ h1)

/-- A failed write of a checked artifact ends `writeEach` with an error, and
only the artifacts before it have been written. -/
theorem writeEach_fatal (d : Disk) (root : String) (a : Artifact) (post : List Artifact)
    (hc : a.checked = true) (hw : d.writeOk ⟨root, a.rel⟩ = false) :
    ∀ (pre : List Artifact) (fs : FileSystem),
      (writeEach d root (pre ++ a :: post) fs).err ≠ none
        ∧ Within (pre.map Artifact.rel) fs (writeEach d root (pre ++ a :: post) fs).fs
  | [], fs => by
    have e : writeEach d root ([] ++ a :: post) fs = ⟨some ("write " ++ a.rel), fs⟩ := by
      rw [List.nil_append, writeEach, if_pos hc, writeFile, hw]
      rfl
    rw [e]
    exact ⟨by simp, within_refl _ _⟩
  | b :: pre, fs => by
    have ih := writeEach_fatal d root a post hc hw pre
    have hstep : Within (b.rel :: pre.map Artifact.rel) fs
        (writeEach d root (pre ++ a :: post) (writeFile d fs ⟨root, b.rel⟩ b.content).fs).fs :=
      within_trans_write d ⟨root, b.rel⟩ b.content (ih _).2
    have hstop : Within (b.rel :: pre.map Artifact.rel) fs
        (writeFile d fs ⟨root, b.rel⟩ b.content).fs :=
      within_writeFile d ⟨root, b.rel⟩ b.content (within_refl _ _) (List.mem_cons_self _ _)
    rw [List.cons_append, writeEach, List.map_cons]
    by_cases hb : b.checked = true
    · rw [if_pos hb]
      unfold Outcome.andThen
      cases he : (writeFile d fs ⟨root, b.rel⟩ b.content).err with
      | some e => exact ⟨by simp, hstop⟩
      | none => exact ⟨(ih _).1, hstep⟩
    · rw [if_neg hb]
      exact ⟨(ih _).1, hstep⟩

theorem andThen_err_of_all {r : Outcome} {k : FileSystem → Outcome}
    (h : ∀ fs, (k fs).err ≠ none) : (r.andThen k).err ≠ none := by
  unfold Outcome.andThen
  cases he : r.err with
  | some e => simp
  | none => exact h _

/-- A failed write of any checked artifact is fatal: `GenerateProject` returns
an error, and the files it has written are those of the artifacts before the
failed one. -/
theorem GenerateProject_checked_write_fatal (d : Disk) (c : ProjectConfig) (fs : FileSystem)
    (pre post : List Artifact) (a : Artifact)
    (hsplit : artifacts (setDefaults c) = pre ++ a :: post) (hc : a.checked = true)
    (hw : d.writeOk ⟨(setDefaults c).OutputDir, a.rel⟩ = false) :
    (GenerateProject d c fs).err ≠ none
      ∧ Within (pre.map Artifact.rel) fs (GenerateProject d c fs).fs := by
  have hf := writeEach_fatal d (setDefaults c).OutputDir a post hc hw pre
  rw [GenerateProject_eq_writeEach, hsplit]
  constructor
  · exact andThen_err_of_all fun fs1 => andThen_err_of_all fun fs2 => (hf fs2).1
  · refine within_andThen (within_mkdirAll d _ (within_refl _ _)) fun fs1 h1 => ?_
    unfold createDirectoryStructure
    refine within_andThen (within_mkdirEach d _ _ _ h1) fun fs2 h2 => ?_
    intro f hf2
    rcases (hf fs2).2 f hf2 with h3 | h3
    · exact h2 f h3
    · exact Or.inr h3

/-- C15 fails for the two environment files: on a disk where every call
succeeds except the write of `.env`, `GenerateProject` for the example
selection returns no error and goes on to write `.env.example`, `.gitignore`,
`railway.json` and `README.md`. -/
theorem C15_env_write_failure_ignored :
    diskNoEnv.writeOk ⟨exampleSelection.OutputDir, ".env"⟩ = false
      ∧ (GenerateProject diskNoEnv exampleSelection FileSystem.empty).err = none
      ∧ (GenerateProject diskNoEnv exampleSelection FileSystem.empty).fs.files.map
          (fun f => f.1.rel)
        = ["go.mod", "main.go", "config/config.go", "handlers.go", ".env.example",
           ".gitignore", "railway.json", "README.md"] := by
  decide!

/-! ## What the pipeline writes, whatever fails -/

theorem andThen_preserves {P : FileSystem → Prop} {r : Outcome} {k : FileSystem → Outcome}
    (hr : P r.fs) (hk : ∀ fs, P fs → P (k fs).fs) : P (r.andThen k).fs := by
  unfold Outcome.andThen
  cases h : r.err with
  | none => exact hk _ hr
  | some e => exact hr

theorem mkdirAll_files (d : Disk) (fs : FileSystem) (p : Path) :
    (mkdirAll d fs p).fs.files = fs.files := by
  unfold mkdirAll
  split_ifs <;> rfl

theorem mkdirEach_files (d : Disk) (root : String) :
    ∀ (dirs : List String) (fs : FileSystem), (mkdirEach d root dirs fs).fs.files = fs.files
  | [], _ => rfl
  | dir :: rest, fs => by
    rw [mkdirEach]
    refine andThen_preserves (P := fun fs2 => fs2.files = fs.files) (mkdirAll_files d fs _) ?_
    intro fs2 h2
    rw [mkdirEach_files d root rest, h2]

theorem writeFile_files (d : Disk) (fs : FileSystem) (p : Path) (content : String) :
    ∀ f ∈ (writeFile d fs p content).fs.files, f ∈ fs.files ∨ f = (p, content) := by
  intro f hf
  unfold writeFile at hf
  split_ifs at hf
  · rcases List.mem_append.1 hf with h | h
    · exact Or.inl (List.mem_of_mem_filter h)
    · exact Or.inr (List.mem_singleton.1 h)
  · exact Or.inl hf

/-- Every file after `writeEach` was there before or is one of the artifacts. -/
theorem writeEach_written (d : Disk) (root : String) :
    ∀ (arts : List Artifact) (fs : FileSystem), ∀ f ∈ (writeEach d root arts fs).fs.files,
      f ∈ fs.files ∨ ∃ a ∈ arts, f = (⟨root, a.rel⟩, a.content)
  | [], _, f, hf => Or.inl hf
  | b :: rest, fs, f, hf => by
    have ih := writeEach_written d root rest
    have hstep : ∀ f ∈ (writeEach d root rest (writeFile d fs ⟨root, b.rel⟩ b.content).fs).fs.files,
        f ∈ fs.files ∨ ∃ a ∈ b :: rest, f = (⟨root, a.rel⟩, a.content) := by
      intro f hf
      rcases ih _ f hf with h | ⟨a, ha, h⟩
      · rcases writeFile_files d fs _ _ f h with h2 | h2
        · exact Or.inl h2
        · exact Or.inr ⟨b, List.mem_cons_self _ _, h2⟩
      · exact Or.inr ⟨a, List.mem_cons_of_mem _ ha, h⟩
    rw [writeEach] at hf
    by_cases hb : b.checked = true
    · rw [if_pos hb] at hf
      unfold Outcome.andThen at hf
      cases he : (writeFile d fs ⟨root, b.rel⟩ b.content).err with
      | some e =>
        rw [he] at hf
        rcases writeFile_files d fs _ _ f hf with h2 | h2
        · exact Or.inl h2
        · exact Or.inr ⟨b, List.mem_cons_self _ _, h2⟩
      | none =>
        rw [he] at hf
        exact hstep f hf
    · rw [if_neg hb] at hf
      exact hstep f hf

/-- Whatever calls fail, every file after `GenerateProject` was there before or
is an artifact of the defaulted configuration, with the content of that
artifact. -/
theorem GenerateProject_written (d : Disk) (c : ProjectConfig) (fs0 : FileSystem) :
    ∀ f ∈ (GenerateProject d c fs0).fs.files,
      f ∈ fs0.files
        ∨ ∃ a ∈ artifacts (setDefaults c), f = (⟨(setDefaults c).OutputDir, a.rel⟩, a.content) := by
  rw [GenerateProject_eq_writeEach]
  refine andThen_preserves
    (P := fun fs => ∀ f ∈ fs.files, f ∈ fs0.files
        ∨ ∃ a ∈ artifacts (setDefaults c), f = (⟨(setDefaults c).OutputDir, a.rel⟩, a.content))
    ?_ fun fs1 h1 => ?_
  · intro f hf
    rw [mkdirAll_files] at hf
    exact Or.inl hf
  · refine andThen_preserves
      (P := fun fs => ∀ f ∈ fs.files, f ∈ fs0.files
        ∨ ∃ a ∈ artifacts (setDefaults c), f = (⟨(setDefaults c).OutputDir, a.rel⟩, a.content))
      ?_ fun fs2 h2 => ?_
    · intro f hf
      unfold createDirectoryStructure at hf
      rw [mkdirEach_files] at hf
      exact h1 f hf
    · intro f hf
      rcases writeEach_written d _ _ fs2 f hf with h | h
      · exact h2 f h
      · exact Or.inr h

/-- The artifacts at the fixed relative paths and their contents. -/
theorem artifacts_content (c : ProjectConfig) : ∀ a ∈ artifacts c,
    ((a.rel = ".env" ∨ a.rel = ".env.example") → a.content = generateEnvContent c)
      ∧ (a.rel = "railway.json" → a.content = generateRailwayContent c)
      ∧ (a.rel = mainPath c → a.content = generateMainContent c)
      ∧ (a.rel = "config/config.go" → a.content = generateConfigContent c) := by
  by_cases hs : c.Structure = "standard" <;> by_cases hA : c.hasLibrary "go-auth" = true <;>
    by_cases hR : c.Deployment = "railway" <;>
    simp only [artifacts, mainPath, handlerPath, middlewarePath, hs, hA, hR, if_true, if_false,
      List.cons_append, List.nil_append, List.append_nil, List.mem_cons, List.mem_singleton,
      List.not_mem_nil, or_false, forall_eq_or_imp, forall_eq] <;>
    simp

/-- The generated files read back on a disk without failures. -/
theorem healthy_reads (c : ProjectConfig) :
    (GenerateProject Disk.healthy c FileSystem.empty).fs.read ⟨c.OutputDir, ".env"⟩
        = some (generateEnvContent (setDefaults c))
      ∧ (GenerateProject Disk.healthy c FileSystem.empty).fs.read ⟨c.OutputDir, ".env.example"⟩
        = some (generateEnvContent (setDefaults c))
      ∧ (GenerateProject Disk.healthy c FileSystem.empty).fs.read ⟨c.OutputDir, mainPath c⟩
        = some (generateMainContent (setDefaults c))
      ∧ (GenerateProject Disk.healthy c FileSystem.empty).fs.read
          ⟨c.OutputDir, "config/config.go"⟩
        = some (generateConfigContent (setDefaults c))
      ∧ (GenerateProject Disk.healthy c FileSystem.empty).fs.read ⟨c.OutputDir, "railway.json"⟩
        = if (setDefaults c).Deployment = "railway" then
            some (generateRailwayContent (setDefaults c))
          else none := by
  obtain ⟨ds, h⟩ := GenerateProject_healthy c
  rw [h]
  by_cases hs : c.Structure = "standard" <;> by_cases ha : "go-auth" ∈ c.Libraries <;>
    by_cases hr : (setDefaults c).Deployment = "railway" <;>
    simp [FileSystem.read, mainPath, handlerPath, middlewarePath, hs, ha, hr, List.find?]

/-! ## C16: the environment files mirror the config loader -/

theorem splitOnChar_free (sep : Char) : ∀ a : List Char, sep ∉ a → splitOnChar sep a = [a]
  | [], _ => rfl
  | c :: a, h => by
    have hc : c ≠ sep := fun e => h (by rw [e]; exact List.mem_cons_self _ _)
    rw [splitOnChar, if_neg hc, splitOnChar_free sep a (fun hm => h (List.mem_cons_of_mem _ hm))]

theorem splitOnChar_append (sep : Char) (rest : List Char) : ∀ a : List Char, sep ∉ a →
    splitOnChar sep (a ++ sep :: rest) = a :: splitOnChar sep rest
  | [], _ => by rw [List.nil_append, splitOnChar, if_pos rfl]
  | c :: a, h => by
    have hc : c ≠ sep := fun e => h (by rw [e]; exact List.mem_cons_self _ _)
    rw [List.cons_append, splitOnChar, if_neg hc,
      splitOnChar_append sep rest a (fun hm => h (List.mem_cons_of_mem _ hm))]

/-- Splitting a joined path at the slashes gives back its segments. -/

theorem generateEnvContent_split (c : ProjectConfig) :
    generateEnvContent c
      = "APP_NAME=" ++ (c.Name ++ ("\n"
          ++ envAfter (c.Database != "none") (c.hasLibrary "go-auth")
              (c.hasLibrary "go-logger"))) := by
  simp only [generateEnvContent, envAfter, joinAll]
  cases (c.Database != "none") <;> cases c.hasLibrary "go-auth" <;>
    cases c.hasLibrary "go-logger" <;>
    simp only [if_true, if_false, Bool.false_eq_true, String.append_assoc, String.append_empty,
      String.empty_append]

/-- The lines of the environment content, for a project name without a line
break: the line of `APP_NAME`, then the lines of the rest. -/
theorem env_lines (c : ProjectConfig) (hn : '\n' ∉ c.Name.data) :
    splitOnChar '\n' (generateEnvContent c).data
      = ("APP_NAME=".data ++ c.Name.data)
        :: splitOnChar '\n' (envAfter (c.Database != "none") (c.hasLibrary "go-auth")
            (c.hasLibrary "go-logger")).data := by
  have hfree : '\n' ∉ "APP_NAME=".data ++ c.Name.data := by
    intro h
    rcases List.mem_append.1 h with h | h
    · exact absurd h (by decide)
    · exact hn h
  have e : (generateEnvContent c).data
      = ("APP_NAME=".data ++ c.Name.data)
        ++ '\n' :: (envAfter (c.Database != "none") (c.hasLibrary "go-auth")
            (c.hasLibrary "go-logger")).data := by
    rw [generateEnvContent_split]
    simp only [String.data_append, List.append_assoc]
    rfl
  rw [e, splitOnChar_append '\n' _ _ hfree]

/-- The function `Load` is one initialiser line for each field of the loader. -/
theorem configLoad_fields (c : ProjectConfig) :
    configLoad c
      = "func Load() *Config \x7b\n\treturn &Config\x7b\n"
        ++ joinAll ((configFields c).map (fieldInit c.Name))
        ++ "\t\x7d\n\x7d\n\n" := by
  have key : ∀ db au lg : Bool, (c.Database != "none") = db → c.hasLibrary "go-auth" = au →
      c.hasLibrary "go-logger" = lg →
      configLoad c
          = "func Load() *Config \x7b\n\treturn &Config\x7b\n"
            ++ joinAll ((configFields c).map (fieldInit c.Name))
            ++ "\t\x7d\n\x7d\n\n" := by
    intro db au lg hdb hau hlg
    have e0 : "func Load() *Config \x7b\n\treturn &Config\x7b\n"
        = "func Load() *Config \x7b\n" ++ "\treturn &Config\x7b\n" := by decide
    have hdb2 : (c.Database ≠ "none") ↔ db = true := by
      rw [← hdb]; simp
    have hau2 : ("go-auth" ∈ c.Libraries) ↔ au = true := by rw [← hau, hasLibrary_iff]
    have hlg2 : ("go-logger" ∈ c.Libraries) ↔ lg = true := by rw [← hlg, hasLibrary_iff]
    simp only [configLoad, configFields, hdb, hau, hlg, hdb2, hau2, hlg2, e0]
    cases db <;> cases au <;> cases lg <;>
      simp only [if_true, if_false, Bool.false_eq_true, List.map_cons, List.map_nil,
        List.cons_append, List.nil_append, List.append_nil, joinAll, fieldInit_AppName,
        fieldInit_Port, fieldInit_DatabaseURL, fieldInit_JWTSecret, fieldInit_LogLevel,
        String.append_assoc, String.append_empty, String.empty_append]
  exact key _ _ _ rfl rfl rfl

theorem stripLeading_of_disagree : ∀ (pat l v : List Char), agree pat l = false →
    stripLeading pat (l ++ v) = none
  | [], _, _, h => by simp [agree] at h
  | _ :: _, [], _, h => by simp [agree] at h
  | a :: p, b :: s, v, h => by
    rw [agree] at h
    rw [List.cons_append, stripLeading]
    by_cases e : a = b
    · rw [if_pos e] at h ⊢
      exact stripLeading_of_disagree p s v h
    · rw [if_neg e]

theorem stripLeading_some : ∀ (pat l r : List Char), stripLeading pat l = some r → l = pat ++ r
  | [], l, r, h => by
    cases l <;> simp [stripLeading] at h <;> simp [h]
  | _ :: _, [], _, h => by simp [stripLeading] at h
  | a :: p, b :: s, r, h => by
    rw [stripLeading] at h
    by_cases e : a = b
    · rw [if_pos e] at h
      rw [e, stripLeading_some p s r h, List.cons_append]
    · rw [if_neg e] at h
      exact absurd h (by simp)

theorem afterFirst_cons (pat : List Char) (ch : Char) (rest : List Char) :
    afterFirst pat (ch :: rest)
      = match stripLeading pat (ch :: rest) with
        | some after => some after
        | none => afterFirst pat rest := rfl

/-- The first occurrence of `pat` does not begin in a fixed text that passes
the check. -/
theorem afterFirst_skip_lit (pat : List Char) : ∀ (lit v : List Char), noStart pat lit = true →
    afterFirst pat (lit ++ v) = afterFirst pat v
  | [], _, _ => rfl
  | b :: t, v, h => by
    simp only [noStart, Bool.and_eq_true, Bool.not_eq_true'] at h
    rw [List.cons_append, afterFirst_cons]
    have hs := stripLeading_of_disagree pat (b :: t) v h.1
    rw [List.cons_append] at hs
    rw [hs]
    exact afterFirst_skip_lit pat t v h.2

theorem noRunFree_spec (ch : Char) (lit : List Char) : ∀ (pat u q : List Char),
    noRunFree ch pat lit = true → pat = u ++ q → u ≠ [] → ch ∉ u → agree q lit = false
  | [], u, q, _, e, hu, _ => absurd (List.append_eq_nil.1 e.symm).1 hu
  | a :: p, [], _, _, _, hu, _ => absurd rfl hu
  | a :: p, b :: u, q, h, e, _, hc => by
    rw [List.cons_append, List.cons.injEq] at e
    have hb : a ≠ ch := by
      rw [e.1]
      exact fun e2 => hc (by rw [e2]; exact List.mem_cons_self _ _)
    rw [noRunFree, if_neg hb, Bool.and_eq_true, Bool.not_eq_true'] at h
    by_cases hu : u = []
    · rw [hu, List.nil_append] at e
      rw [← e.2]; exact h.1
    · exact noRunFree_spec ch lit p u q h.2 e.2 hu (fun hm => hc (List.mem_cons_of_mem _ hm))

/-- The first occurrence of `pat` does not begin in a text that lacks a
character of `pat`, when no occurrence can run from it into the text that
follows. -/
theorem afterFirst_skip_var (pat lit : List Char) (ch : Char) (hp : ch ∈ pat)
    (hr : noRunFree ch pat lit = true) : ∀ v : List Char, ch ∉ v →
    afterFirst pat (v ++ lit) = afterFirst pat lit
  | [], _ => rfl
  | a :: v, hv => by
    have hv2 : ch ∉ v := fun h => hv (List.mem_cons_of_mem _ h)
    rw [List.cons_append, afterFirst_cons]
    cases hs : stripLeading pat (a :: (v ++ lit)) with
    | none => exact afterFirst_skip_var pat lit ch hp hr v hv2
    | some r =>
      exfalso
      have e := stripLeading_some pat _ r hs
      have e2 : (a :: v) ++ lit = pat ++ r := by simpa using e
      rcases List.append_eq_append_iff.1 e2 with ⟨q, hq1, hq2⟩ | ⟨q, hq1, _⟩
      · -- pat = (a :: v) ++ q
        have h1 := noRunFree_spec ch lit pat (a :: v) q hr hq1 (List.cons_ne_nil _ _) hv
        have h2 := agree_of_isPrefix_append q lit [] ⟨r, by simpa using hq2.symm⟩
        rw [h1] at h2
        exact absurd h2 (by simp)
      · -- a :: v = pat ++ q
        exact hv (by rw [hq1]; exact List.mem_append_left _ hp)

theorem stripLeading_append_right : ∀ (pat l r v : List Char), stripLeading pat l = some r →
    stripLeading pat (l ++ v) = some (r ++ v)
  | pat, l, r, v, h => by
    rw [stripLeading_some pat l r h, List.append_assoc, stripLeading_append]

theorem stripLeading_none_append : ∀ (pat l v : List Char), stripLeading pat l = none →
    pat.length ≤ l.length → stripLeading pat (l ++ v) = none
  | [], l, _, h, _ => by cases l <;> simp [stripLeading] at h
  | _ :: _, [], _, _, hl => by simp at hl
  | a :: p, b :: s, v, h, hl => by
    rw [stripLeading] at h
    rw [List.cons_append, stripLeading]
    by_cases e : a = b
    · rw [if_pos e] at h ⊢
      exact stripLeading_none_append p s v h (by simpa using hl)
    · rw [if_neg e]

theorem afterFirst_length (pat : List Char) : ∀ (l r : List Char), afterFirst pat l = some r →
    pat.length ≤ l.length
  | [], r, h => by
    rw [afterFirst] at h
    have := stripLeading_some pat [] r h
    have h2 : pat = [] := (List.append_eq_nil.1 this.symm).1
    rw [h2]
  | ch :: rest, r, h => by
    rw [afterFirst_cons] at h
    cases hs : stripLeading pat (ch :: rest) with
    | some after =>
      have := stripLeading_some pat _ after hs
      rw [this]; simp
    | none =>
      rw [hs] at h
      have := afterFirst_length pat rest r h
      simp only [List.length_cons]
      omega

/-- The first occurrence of `pat` in a text is its first occurrence in every
continuation of the text. -/
theorem afterFirst_append (pat : List Char) : ∀ (l r v : List Char), afterFirst pat l = some r →
    afterFirst pat (l ++ v) = some (r ++ v)
  | [], r, v, h => by
    rw [afterFirst] at h
    have h1 := stripLeading_some pat [] r h
    have h2 : pat = [] := (List.append_eq_nil.1 h1.symm).1
    have h3 : r = [] := (List.append_eq_nil.1 h1.symm).2
    simp only [h2, h3, List.nil_append]
    cases v <;> rfl
  | ch :: rest, r, v, h => by
    rw [afterFirst_cons] at h
    rw [List.cons_append, afterFirst_cons]
    cases hs : stripLeading pat (ch :: rest) with
    | some after =>
      rw [hs] at h
      have h2 := stripLeading_append_right pat _ after v hs
      rw [List.cons_append] at h2
      rw [h2]
      simpa using h
    | none =>
      rw [hs] at h
      have hl := afterFirst_length pat rest r h
      have h2 := stripLeading_none_append pat (ch :: rest) v hs
        (by simp only [List.length_cons]; omega)
      rw [List.cons_append] at h2
      rw [h2]
      exact afterFirst_append pat rest r v h

theorem takeWhile_stop (q : Char) : ∀ (name rest : List Char), q ∉ name →
    (name ++ q :: rest).takeWhile (fun ch => ch != q) = name
  | [], rest, _ => by simp [List.takeWhile]
  | a :: name, rest, h => by
    have ha : a ≠ q := fun e => h (by rw [e]; exact List.mem_cons_self _ _)
    have ih := takeWhile_stop q name rest (fun hm => h (List.mem_cons_of_mem _ hm))
    have hb : (a != q) = true := by simpa using ha
    rw [List.cons_append, List.takeWhile_cons, hb]
    simp [ih]

theorem plainName_spec (name : String) (h : plainName name = true) :
    '"' ∉ name.data ∧ '\n' ∉ name.data := by
  unfold plainName at h
  rw [List.all_eq_true] at h
  constructor
  · intro hm
    have := h _ hm
    revert this
    decide
  · intro hm
    have := h _ hm
    revert this
    decide

theorem generateConfigContent_split (c : ProjectConfig) :
    generateConfigContent c
      = configBefore (c.Database != "none") (c.hasLibrary "go-auth") (c.hasLibrary "go-logger")
        ++ (c.Name
          ++ configAfter (c.Database != "none") (c.hasLibrary "go-auth")
              (c.hasLibrary "go-logger")) := by
  rw [generateConfigContent_eq]
  simp only [joinAll, configBefore, configAfter, String.append_assoc, String.append_empty]

/-- The default the generated loader passes for `APP_NAME` is the project
name, when the name holds no double quote. -/
theorem loaderDefault_name (c : ProjectConfig) (hq : '"' ∉ c.Name.data) :
    loaderDefault (generateConfigContent c) "APP_NAME" = some c.Name := by
  have h1 : ∀ db au lg : Bool,
      afterFirst ("getEnv(\"" ++ "APP_NAME" ++ "\", \"").data (configBefore db au lg).data
        = some [] := by
    intro db au lg
    cases db <;> cases au <;> cases lg <;> decide!
  have h2 : ∀ db au lg : Bool, ∃ rest, (configAfter db au lg).data = '"' :: rest := by
    intro db au lg
    cases db <;> cases au <;> cases lg <;> exact ⟨_, rfl⟩
  obtain ⟨rest, hrest⟩ := h2 (c.Database != "none") (c.hasLibrary "go-auth")
    (c.hasLibrary "go-logger")
  have e : ∀ a n b : String, (a ++ (n ++ b)).data = a.data ++ (n.data ++ b.data) := by
    intro a n b
    simp only [String.data_append]
  unfold loaderDefault quotedAfter
  rw [generateConfigContent_split, e, afterFirst_append _ _ _ _ (h1 _ _ _), Option.map_some',
    List.nil_append, hrest, takeWhile_stop '"' _ _ hq]

/-- The default the generated loader passes for a variable other than
`APP_NAME` is read after the project name, when the name holds no double
quote. -/
theorem loaderDefault_after (c : ProjectConfig) (key : String) (hq : '"' ∉ c.Name.data)
    (h1 : noStart ("getEnv(\"" ++ key ++ "\", \"").data
      (configBefore (c.Database != "none") (c.hasLibrary "go-auth")
        (c.hasLibrary "go-logger")).data = true)
    (h2 : noRunFree '"' ("getEnv(\"" ++ key ++ "\", \"").data
      (configAfter (c.Database != "none") (c.hasLibrary "go-auth")
        (c.hasLibrary "go-logger")).data = true) :
    loaderDefault (generateConfigContent c) key
      = loaderDefault (configAfter (c.Database != "none") (c.hasLibrary "go-auth")
          (c.hasLibrary "go-logger")) key := by
  have hp : '"' ∈ ("getEnv(\"" ++ key ++ "\", \"").data := by
    simp only [String.data_append, List.mem_append]
    exact Or.inr (by decide)
  have e : ∀ a n b : String, (a ++ (n ++ b)).data = a.data ++ (n.data ++ b.data) := by
    intro a n b
    simp only [String.data_append]
  unfold loaderDefault quotedAfter
  rw [generateConfigContent_split, e, afterFirst_skip_lit _ _ _ h1,
    afterFirst_skip_var _ _ '"' hp h2 _ hq]

/-- The defaults the generated loader passes to `getEnv`, read from the text of
the config loader, for a project name without a double quote. -/
theorem loader_defaults (c : ProjectConfig) (hq : '"' ∉ c.Name.data) :
    loaderDefault (generateConfigContent c) "APP_NAME" = some c.Name
      ∧ loaderDefault (generateConfigContent c) "PORT" = some "8080"
      ∧ loaderDefault (generateConfigContent c) "DATABASE_URL"
          = (if c.Database ≠ "none" then some "" else none)
      ∧ loaderDefault (generateConfigContent c) "JWT_SECRET"
          = (if "go-auth" ∈ c.Libraries then some "" else none)
      ∧ loaderDefault (generateConfigContent c) "LOG_LEVEL"
          = (if "go-logger" ∈ c.Libraries then some "info" else none) := by
  have key : ∀ db au lg : Bool, (c.Database != "none") = db → c.hasLibrary "go-auth" = au →
      c.hasLibrary "go-logger" = lg →
      loaderDefault (generateConfigContent c) "PORT" = some "8080"
        ∧ loaderDefault (generateConfigContent c) "DATABASE_URL"
            = (if db = true then some "" else none)
        ∧ loaderDefault (generateConfigContent c) "JWT_SECRET"
            = (if au = true then some "" else none)
        ∧ loaderDefault (generateConfigContent c) "LOG_LEVEL"
            = (if lg = true then some "info" else none) := by
    intro db au lg hdb hau hlg
    have hk : ∀ key : String,
        noStart ("getEnv(\"" ++ key ++ "\", \"").data (configBefore db au lg).data = true →
        noRunFree '"' ("getEnv(\"" ++ key ++ "\", \"").data (configAfter db au lg).data
          = true →
        loaderDefault (generateConfigContent c) key = loaderDefault (configAfter db au lg) key := by
      intro key h1 h2
      have := loaderDefault_after c key hq (by rw [hdb, hau, hlg]; exact h1)
        (by rw [hdb, hau, hlg]; exact h2)
      rw [hdb, hau, hlg] at this
      exact this
    cases db <;> cases au <;> cases lg <;>
      refine ⟨?_, ?_, ?_, ?_⟩ <;>
      (rw [hk _ (by decide!) (by decide!)]; decide!)
  have hdb2 : (c.Database ≠ "none") ↔ (c.Database != "none") = true := by simp
  have hau2 : ("go-auth" ∈ c.Libraries) ↔ c.hasLibrary "go-auth" = true := by
    rw [hasLibrary_iff]
  have hlg2 : ("go-logger" ∈ c.Libraries) ↔ c.hasLibrary "go-logger" = true := by
    rw [hasLibrary_iff]
  simp only [hdb2, hau2, hlg2]
  exact ⟨loaderDefault_name c hq, key _ _ _ rfl rfl rfl⟩

/-- The values on the lines of the generated environment content, for a project
name without a line break. -/
theorem env_values (c : ProjectConfig) (hn : '\n' ∉ c.Name.data) :
    envValue (generateEnvContent c) "APP_NAME" = some c.Name
      ∧ envValue (generateEnvContent c) "PORT" = some "8080"
      ∧ envValue (generateEnvContent c) "DATABASE_URL"
          = (if c.Database ≠ "none" then some "" else none)
      ∧ envValue (generateEnvContent c) "JWT_SECRET"
          = (if "go-auth" ∈ c.Libraries then some "your-secret-key" else none)
      ∧ envValue (generateEnvContent c) "LOG_LEVEL"
          = (if "go-logger" ∈ c.Libraries then some "info" else none) := by
  have hname : envValue (generateEnvContent c) "APP_NAME" = some c.Name := by
    unfold envValue
    rw [env_lines c hn, List.filterMap_cons]
    have e : stripLeading ("APP_NAME" ++ "=").data ("APP_NAME=".data ++ c.Name.data)
        = some c.Name.data := stripLeading_append "APP_NAME=".data c.Name.data
    rw [e]
    rfl
  have hother : ∀ key : String,
      stripLeading (key ++ "=").data ("APP_NAME=".data ++ c.Name.data) = none →
      envValue (generateEnvContent c) key
        = envValue (envAfter (c.Database != "none") (c.hasLibrary "go-auth")
            (c.hasLibrary "go-logger")) key := by
    intro key h
    unfold envValue
    rw [env_lines c hn, List.filterMap_cons, h]
  have hdb2 : (c.Database ≠ "none") ↔ (c.Database != "none") = true := by simp
  have hau2 : ("go-auth" ∈ c.Libraries) ↔ c.hasLibrary "go-auth" = true := by
    rw [hasLibrary_iff]
  have hlg2 : ("go-logger" ∈ c.Libraries) ↔ c.hasLibrary "go-logger" = true := by
    rw [hasLibrary_iff]
  simp only [hdb2, hau2, hlg2]
  refine ⟨hname, ?_, ?_, ?_, ?_⟩
  · rw [hother "PORT" rfl]
    cases (c.Database != "none") <;> cases c.hasLibrary "go-auth" <;>
      cases c.hasLibrary "go-logger" <;> decide!
  · rw [hother "DATABASE_URL" rfl]
    cases (c.Database != "none") <;> cases c.hasLibrary "go-auth" <;>
      cases c.hasLibrary "go-logger" <;> decide!
  · rw [hother "JWT_SECRET" rfl]
    cases (c.Database != "none") <;> cases c.hasLibrary "go-auth" <;>
      cases c.hasLibrary "go-logger" <;> decide!
  · rw [hother "LOG_LEVEL" rfl]
    cases (c.Database != "none") <;> cases c.hasLibrary "go-auth" <;>
      cases c.hasLibrary "go-logger" <;> decide!

/-- C17 fails for `JWT_SECRET`, and for `APP_NAME` when the project name does
not stand for itself: for the example selection with `go-auth`, the config
loader written to `config/config.go` passes the empty default to `getEnv` for
`JWT_SECRET`, while the line of that variable in the written `.env.example`
has the value `your-secret-key`; for a project name with a double quote the
default of `APP_NAME` in the loader ends at the quote while the line has the
whole name, and for a project name with a line break the line ends at the
break while the default has the whole name. -/
theorem C17_jwt_secret_default_differs :
    (GenerateProject Disk.healthy selectionAuth FileSystem.empty).fs.read
        ⟨"out", "config/config.go"⟩ = some (generateConfigContent selectionAuth)
      ∧ (GenerateProject Disk.healthy selectionAuth FileSystem.empty).fs.read
        ⟨"out", ".env.example"⟩ = some (generateEnvContent selectionAuth)
      ∧ "JWTSecret" ∈ declaredFields (generateConfigContent selectionAuth)
      ∧ loaderDefault (generateConfigContent selectionAuth) "JWT_SECRET" = some ""
      ∧ envValue (generateEnvContent selectionAuth) "JWT_SECRET" = some "your-secret-key"
      ∧ loaderDefault (generateConfigContent selectionQuote) "APP_NAME" = some "a"
      ∧ envValue (generateEnvContent selectionQuote) "APP_NAME" = some "a\"b"
      ∧ loaderDefault (generateConfigContent selectionLineBreak) "APP_NAME" = some "my\napi"
      ∧ envValue (generateEnvContent selectionLineBreak) "APP_NAME" = some "my" := by
  have hd : setDefaults selectionAuth = selectionAuth := by decide
  have h := healthy_reads selectionAuth
  rw [hd] at h
  refine ⟨h.2.2.2.1, h.2.1, ?_, ?_, ?_, ?_, ?_, ?_, ?_⟩ <;> decide!

/-- C17 (amended): for every selection whose project name holds no double
quote, no backslash and no line break, the default the generated config
loader passes to `getEnv`, read from the text of the loader, equals the value
on the line of the variable in the generated environment content, read from
that text, for `APP_NAME` (the project name), `PORT` (`8080`), `DATABASE_URL`
(empty, with a database) and `LOG_LEVEL` (`info`, with `go-logger`); for
`JWT_SECRET` (with `go-auth`) the loader passes the empty default and the line
has `your-secret-key`; and the environment content has a line for a variable
exactly when the loader reads it. -/
theorem C17_defaults_mirrored_except_secret (c : ProjectConfig)
    (hname : plainName c.Name = true) :
    (∀ key ∈ ["APP_NAME", "PORT", "DATABASE_URL", "LOG_LEVEL"],
        loaderDefault (generateConfigContent c) key = envValue (generateEnvContent c) key)
      ∧ loaderDefault (generateConfigContent c) "APP_NAME" = some c.Name
      ∧ loaderDefault (generateConfigContent c) "PORT" = some "8080"
      ∧ loaderDefault (generateConfigContent c) "DATABASE_URL"
          = (if c.Database ≠ "none" then some "" else none)
      ∧ loaderDefault (generateConfigContent c) "LOG_LEVEL"
          = (if "go-logger" ∈ c.Libraries then some "info" else none)
      ∧ loaderDefault (generateConfigContent c) "JWT_SECRET"
          = (if "go-auth" ∈ c.Libraries then some "" else none)
      ∧ envValue (generateEnvContent c) "JWT_SECRET"
          = (if "go-auth" ∈ c.Libraries then some "your-secret-key" else none)
      ∧ (∀ key ∈ ["APP_NAME", "PORT", "DATABASE_URL", "JWT_SECRET", "LOG_LEVEL"],
          (loaderDefault (generateConfigContent c) key).isSome
            = (envValue (generateEnvContent c) key).isSome) := by
  obtain ⟨hq, hn⟩ := plainName_spec c.Name hname
  obtain ⟨l1, l2, l3, l4, l5⟩ := loader_defaults c hq
  obtain ⟨e1, e2, e3, e4, e5⟩ := env_values c hn
  refine ⟨?_, l1, l2, l3, l5, l4, e4, ?_⟩
  · intro key hkey
    simp only [List.mem_cons, List.mem_singleton, List.not_mem_nil, or_false] at hkey
    rcases hkey with rfl | rfl | rfl | rfl
    · rw [l1, e1]
    · rw [l2, e2]
    · rw [l3, e3]
    · rw [l5, e5]
  · intro key hkey
    simp only [List.mem_cons, List.mem_singleton, List.not_mem_nil, or_false] at hkey
    rcases hkey with rfl | rfl | rfl | rfl | rfl
    · rw [l1, e1]
    · rw [l2, e2]
    · rw [l3, e3]
    · rw [l4, e4]; split_ifs <;> rfl
    · rw [l5, e5]

/-- C17 (witness): the example selection, whose loader reads `LOG_LEVEL`. -/
theorem C17_defaults_mirrored_except_secret_witness :
    plainName exampleSelection.Name = true
      ∧ loaderDefault (generateConfigContent exampleSelection) "LOG_LEVEL"
          = envValue (generateEnvContent exampleSelection) "LOG_LEVEL"
      ∧ loaderDefault (generateConfigContent exampleSelection) "LOG_LEVEL" = some "info" :=
  have h := C17_defaults_mirrored_except_secret exampleSelection (by decide)
  ⟨by decide, h.1 "LOG_LEVEL" (by decide), by rw [h.2.2.2.2.1]; decide⟩

/-! ## C19: the start command -/

theorem mainPath_setDefaults (c : ProjectConfig) : mainPath (setDefaults c) = mainPath c := by
  simp only [mainPath, setDefaults_standard]

theorem startCommand_railway (c : ProjectConfig) :
    startCommand (generateRailwayContent c) = some (startCmd c) := by
  by_cases hs : c.Structure = "standard" <;>
    simp only [generateRailwayContent, startCmd, hs, if_true, if_false] <;> decide!

theorem startCmd_mainPath (c : ProjectConfig) : startCmd c = "go run " ++ mainPath c := by
  by_cases hs : c.Structure = "standard" <;>
    simp only [startCmd, mainPath, hs, if_true, if_false] <;> decide

/-- C19: the start command of the generated railway.json is `go run ` followed
by the relative path of the entrypoint of the same selection, that is
`go run cmd/server/main.go` when the structure is `standard` and
`go run main.go` otherwise; whatever calls fail, a file written at
`railway.json` has this start command, and on a disk without failures the
descriptor is written exactly when the defaulted deployment is `railway`, and
the entrypoint is written at that path. -/
theorem C19_start_command (c : ProjectConfig) :
    startCommand (generateRailwayContent c) = some ("go run " ++ mainPath c)
      ∧ mainPath c = (if c.Structure = "standard" then "cmd/server/main.go" else "main.go")
      ∧ "go run " ++ mainPath c
        = (if c.Structure = "standard" then "go run cmd/server/main.go" else "go run main.go")
      ∧ (∀ (d : Disk) (fs0 : FileSystem), ∀ f ∈ (GenerateProject d c fs0).fs.files,
          f ∉ fs0.files → f.1.rel = "railway.json" →
            startCommand f.2 = some ("go run " ++ mainPath c))
      ∧ (GenerateProject Disk.healthy c FileSystem.empty).fs.read ⟨c.OutputDir, "railway.json"⟩
        = (if (setDefaults c).Deployment = "railway" then
            some (generateRailwayContent (setDefaults c))
          else none)
      ∧ (GenerateProject Disk.healthy c FileSystem.empty).fs.read ⟨c.OutputDir, mainPath c⟩
        = some (generateMainContent (setDefaults c)) := by
  refine ⟨by rw [startCommand_railway, startCmd_mainPath], ?_, ?_, ?_, (healthy_reads c).2.2.2.2,
    (healthy_reads c).2.2.1⟩
  · simp only [mainPath]
  · by_cases hs : c.Structure = "standard" <;>
      simp only [mainPath, hs, if_true, if_false] <;> decide
  · intro d fs0 f hf hnew hrel
    rcases GenerateProject_written d c fs0 f hf with h | ⟨a, ha, h⟩
    · exact absurd h hnew
    · rw [h] at hrel ⊢
      show startCommand a.content = _
      rw [(artifacts_content _ a ha).2.1 hrel, startCommand_railway, startCmd_mainPath,
        mainPath_setDefaults]

/-! ## C18: the example scenario -/

/-- C18: for the example selection (already defaulted) on a disk without
failures, `GenerateProject` succeeds and writes go.mod, main.go,
config/config.go, handlers.go, .env, .env.example, .gitignore, railway.json
and README.md; main.go is the entrypoint, its only OkanUysal import is
`go-logger`, and it mentions neither `go-auth` nor `go-migration`; the `Config` struct of config/config.go
declares exactly `AppName`, `Port`, `LogLevel`; `.env` consists of the three
lines `APP_NAME=my-api`, `PORT=8080`, `LOG_LEVEL=info`; and the start command
of railway.json is `go run main.go`. -/
theorem C18_example_scenario :
    setDefaults exampleSelection = exampleSelection
      ∧ (GenerateProject Disk.healthy exampleSelection FileSystem.empty).err = none
      ∧ (GenerateProject Disk.healthy exampleSelection FileSystem.empty).fs.files.map
          (fun f => f.1.rel)
        = ["go.mod", "main.go", "config/config.go", "handlers.go", ".env", ".env.example",
           ".gitignore", "railway.json", "README.md"]
      ∧ (GenerateProject Disk.healthy exampleSelection FileSystem.empty).fs.read
          ⟨"out", "main.go"⟩ = some (generateMainContent exampleSelection)
      ∧ importedLibraries (generateMainContent exampleSelection).data = ["go-logger"]
      ∧ ¬ Contains (generateMainContent exampleSelection) "go-auth"
      ∧ ¬ Contains (generateMainContent exampleSelection) "go-migration"
      ∧ (GenerateProject Disk.healthy exampleSelection FileSystem.empty).fs.read
          ⟨"out", "config/config.go"⟩ = some (generateConfigContent exampleSelection)
      ∧ declaredFields (generateConfigContent exampleSelection) = ["AppName", "Port", "LogLevel"]
      ∧ (GenerateProject Disk.healthy exampleSelection FileSystem.empty).fs.read
          ⟨"out", ".env"⟩ = some (generateEnvContent exampleSelection)
      ∧ generateEnvContent exampleSelection = "APP_NAME=my-api\nPORT=8080\nLOG_LEVEL=info\n"
      ∧ envPairs (generateEnvContent exampleSelection)
        = [("APP_NAME", "my-api"), ("PORT", "8080"), ("LOG_LEVEL", "info")]
      ∧ (GenerateProject Disk.healthy exampleSelection FileSystem.empty).fs.read
          ⟨"out", "railway.json"⟩ = some (generateRailwayContent exampleSelection)
      ∧ startCommand (generateRailwayContent exampleSelection) = some "go run main.go" := by
  have hd : setDefaults exampleSelection = exampleSelection := by decide
  have h := healthy_reads exampleSelection
  rw [hd] at h
  refine ⟨hd, ?_, ?_, h.2.2.1, ?_, ?_, ?_, h.2.2.2.1, ?_, h.1, ?_, ?_,
    h.2.2.2.2.trans (if_pos rfl), ?_⟩ <;> decide!

/-! ## C20: catalog resolution -/

theorem getVersion_spec (versions : Types.GoMap) (name : String) :
    Types.getVersion versions name
      = (match versions name with
          | some v => if v = "" then Types.defaultVersions.index name else v
          | none => Types.defaultVersions.index name) := by
  unfold Types.getVersion
  cases versions name with
  | none => rfl
  | some v => by_cases hv : v = "" <;> simp [hv]

theorem defaultVersions_index : ∀ name ∈ Types.libraries,
    Types.defaultVersions.index name ≠ "" := by
  decide

theorem getVersion_ne_empty (versions : Types.GoMap) (name : String)
    (h : name ∈ Types.libraries) : Types.getVersion versions name ≠ "" := by
  rw [getVersion_spec]
  cases hv : versions name with
  | none => exact defaultVersions_index name h
  | some v =>
    by_cases he : v = ""
    · simp only [he, if_true]; exact defaultVersions_index name h
    · simp only [he, if_false]; exact he

theorem availableLibraries_names (versions : Types.GoMap) :
    (Types.availableLibraries versions).map (fun l => (l.Name, l.Version))
      = Types.libraries.map (fun name => (name, Types.getVersion versions name)) := rfl

theorem FetchLatestVersions_lookup (fetch : String → String) (name : String) :
    Types.FetchLatestVersions fetch name
      = (if name ∈ Types.libraries ∧ fetch name ≠ "" then some (fetch name) else none) := by
  have step : ∀ (libs : List String) (m : Types.GoMap),
      libs.foldl (fun versions lib =>
          let version := fetch lib
          if version != "" then versions.set lib version else versions) m name
        = (if name ∈ libs ∧ fetch name ≠ "" then some (fetch name) else m name) := by
    intro libs
    induction libs with
    | nil => intro m; simp
    | cons lib rest ih =>
      intro m
      rw [List.foldl_cons, ih]
      by_cases h1 : name ∈ rest ∧ fetch name ≠ ""
      · rw [if_pos h1, if_pos ⟨List.mem_cons_of_mem _ h1.1, h1.2⟩]
      · rw [if_neg h1]
        by_cases h2 : name = lib
        · subst h2
          by_cases h3 : fetch name = ""
          · simp [h3]
          · simp [h3, Types.GoMap.set]
        · by_cases h3 : fetch lib = ""
          · have : ¬ (name ∈ lib :: rest ∧ fetch name ≠ "") := by
              rintro ⟨hm, hf⟩
              rcases List.mem_cons.1 hm with h | h
              · exact h2 h
              · exact h1 ⟨h, hf⟩
            rw [if_neg this]
            simp [h3]
          · have : ¬ (name ∈ lib :: rest ∧ fetch name ≠ "") := by
              rintro ⟨hm, hf⟩
              rcases List.mem_cons.1 hm with h | h
              · exact h2 h
              · exact h1 ⟨h, hf⟩
            rw [if_neg this]
            simp [h3, Types.GoMap.set, h2]
  unfold Types.FetchLatestVersions
  rw [step]
  simp [Types.GoMap.empty]

theorem FetchLatestVersions_eq (fetch : String → String) :
    Types.FetchLatestVersions fetch
      = fun name => if name ∈ Types.libraries ∧ fetch name ≠ "" then some (fetch name) else none :=
  funext (FetchLatestVersions_lookup fetch)

theorem availableLibraries_mem (versions : Types.GoMap) :
    ∀ l ∈ Types.availableLibraries versions,
      l.Name ∈ Types.libraries ∧ l.Version = Types.getVersion versions l.Name := by
  intro l hl
  have h : (l.Name, l.Version)
      ∈ (Types.availableLibraries versions).map (fun l => (l.Name, l.Version)) :=
    List.mem_map.2 ⟨l, hl, rfl⟩
  rw [availableLibraries_names] at h
  obtain ⟨name, hn, he⟩ := List.mem_map.1 h
  have h1 : name = l.Name := congrArg Prod.fst he
  have h2 : Types.getVersion versions name = l.Version := congrArg Prod.snd he
  subst h1
  exact ⟨hn, h2.symm⟩

/-- C20: for every result of the version lookup, the catalog is the same ten
entries in the same order (`go-auth`, `go-migration`, `go-logger`, `go-cache`,
`go-swagger`, `go-response`, `go-validator`, `go-pagination`, `go-websocket`,
`go-metrics`) with the same name, display name, description, repository,
category and database flag as for the empty lookup; the version of an entry is
the looked-up value when its id is present with a non-empty value and the
default of that id otherwise, and it is never empty; with the empty lookup the
versions are the defaults; `FetchLatestVersions` holds exactly the non-empty
answers for the ten ids, so a lookup that fails everywhere gives the catalog of
the empty lookup; and the catalog endpoint always answers 200 with `success`
and the ten entries. -/
theorem C20_catalog_resolution (versions : Types.GoMap) (fetch : String → String) :
    (Types.availableLibraries versions).map metadata
        = (Types.availableLibraries Types.GoMap.empty).map metadata
      ∧ (Types.availableLibraries versions).map (fun l => l.Name) = Types.libraries
      ∧ (Types.availableLibraries versions).length = 10
      ∧ (∀ l ∈ Types.availableLibraries versions,
          l.Version
              = (match versions l.Name with
                  | some v => if v = "" then Types.defaultVersions.index l.Name else v
                  | none => Types.defaultVersions.index l.Name)
            ∧ l.Version ≠ "")
      ∧ (Types.availableLibraries Types.GoMap.empty).map (fun l => (l.Name, l.Version))
        = [("go-auth", "v1.0.0"), ("go-migration", "v1.0.0"), ("go-logger", "v1.0.1"),
           ("go-cache", "v1.0.0"), ("go-swagger", "v1.1.1"), ("go-response", "v1.0.0"),
           ("go-validator", "v1.0.0"), ("go-pagination", "v1.0.0"), ("go-websocket", "v1.0.0"),
           ("go-metrics", "v1.0.5")]
      ∧ Types.GetAvailableLibraries fetch
        = Types.availableLibraries
            (fun name => if name ∈ Types.libraries ∧ fetch name ≠ "" then some (fetch name)
              else none)
      ∧ Types.GetAvailableLibraries fetchNothing = Types.availableLibraries Types.GoMap.empty
      ∧ (Types.GetAvailableLibraries fetchLoggerOnly).map (fun l => (l.Name, l.Version))
        = [("go-auth", "v1.0.0"), ("go-migration", "v1.0.0"), ("go-logger", "v9.9.9"),
           ("go-cache", "v1.0.0"), ("go-swagger", "v1.1.1"), ("go-response", "v1.0.0"),
           ("go-validator", "v1.0.0"), ("go-pagination", "v1.0.0"), ("go-websocket", "v1.0.0"),
           ("go-metrics", "v1.0.5")]
      ∧ Handlers.GetLibraries fetch = ⟨200, true, Types.GetAvailableLibraries fetch, 10⟩ := by
  refine ⟨rfl, rfl, rfl, ?_, by decide, ?_, ?_, by decide, rfl⟩
  · intro l hl
    obtain ⟨hn, hv⟩ := availableLibraries_mem versions l hl
    rw [hv]
    exact ⟨getVersion_spec versions l.Name, getVersion_ne_empty versions l.Name hn⟩
  · show Types.availableLibraries (Types.FetchLatestVersions fetch) = _
    rw [FetchLatestVersions_eq]
  · show Types.availableLibraries (Types.FetchLatestVersions fetchNothing) = _
    rw [FetchLatestVersions_eq]
    have : (fun name => if name ∈ Types.libraries ∧ fetchNothing name ≠ "" then
        some (fetchNothing name) else none) = Types.GoMap.empty := by
      funext name
      simp [fetchNothing, Types.GoMap.empty]
    rw [this]

/-! ## Directory trees -/

theorem tempTree_walk :
    (Walk [] tempTree).map (fun v => v.path)
      = [["temp"], ["temp", "a_1"], ["temp", "a_1", "fresh.txt"], ["temp", "b_2"],
         ["temp", "b_2", "new.zip"], ["temp", "b_2", "old.zip"], ["temp", "edge"]] := by
  decide

theorem lexLe_total : ∀ a b : List Char, lexLe a b = true ∨ lexLe b a = true
  | [], _ => Or.inl (by simp [lexLe])
  | _ :: _, [] => Or.inr (by simp [lexLe])
  | a :: as, b :: bs => by
    rcases lexLe_total as bs with h | h
    · by_cases h1 : a.toNat < b.toNat
      · left; simp [lexLe, h1]
      · by_cases h2 : b.toNat < a.toNat
        · right; simp [lexLe, h2]
        · left; simp [lexLe, h1, h2, h]
    · by_cases h1 : b.toNat < a.toNat
      · right; simp [lexLe, h1]
      · by_cases h2 : a.toNat < b.toNat
        · left; simp [lexLe, h2]
        · right; simp [lexLe, h1, h2, h]

theorem lexLe_trans : ∀ a b c : List Char, lexLe a b = true → lexLe b c = true →
    lexLe a c = true
  | [], _, _, _, _ => by simp [lexLe]
  | _ :: _, [], _, h, _ => by simp [lexLe] at h
  | _ :: _, _ :: _, [], _, h => by simp [lexLe] at h
  | a :: as, b :: bs, c :: cs, h1, h2 => by
    have ih := lexLe_trans as bs cs
    simp only [lexLe] at h1 h2 ⊢
    by_cases hab : a.toNat < b.toNat
    · by_cases hbc : b.toNat < c.toNat
      · have : a.toNat < c.toNat := by omega
        simp [this]
      · by_cases hcb : c.toNat < b.toNat
        · simp [hbc, hcb] at h2
        · have : a.toNat < c.toNat := by omega
          simp [this]
    · by_cases hba : b.toNat < a.toNat
      · simp [hab, hba] at h1
      · simp only [hab, hba, if_false] at h1
        by_cases hbc : b.toNat < c.toNat
        · have : a.toNat < c.toNat := by omega
          simp [this]
        · by_cases hcb : c.toNat < b.toNat
          · simp [hbc, hcb] at h2
          · simp only [hbc, hcb, if_false] at h2
            have e1 : ¬ a.toNat < c.toNat := by omega
            have e2 : ¬ c.toNat < a.toNat := by omega
            simp only [e1, e2, if_false]
            exact ih h1 h2

theorem nodeLe_total : IsTotal Node Node.le :=
  ⟨fun a b => lexLe_total a.name.data b.name.data⟩

theorem nodeLe_trans : IsTrans Node Node.le :=
  ⟨fun a b c h1 h2 => lexLe_trans a.name.data b.name.data c.name.data h1 h2⟩

theorem walkKids_append (path : List String) : ∀ xs ys : List Node,
    walkKids path (xs ++ ys) = walkKids path xs ++ walkKids path ys
  | [], _ => by simp [walkKids]
  | x :: xs, ys => by
    rw [List.cons_append, walkKids, walkKids, walkKids_append path xs ys, List.append_assoc]

theorem agesKids_perm (path : List String) (above : List Int) {xs ys : List Node}
    (h : xs.Perm ys) : (agesKids path above xs).Perm (agesKids path above ys) := by
  induction h with
  | nil => exact List.Perm.refl _
  | cons x _ ih => rw [agesKids, agesKids]; exact List.Perm.append_left _ ih
  | swap x y l =>
    rw [agesKids, agesKids, agesKids, agesKids]
    exact List.perm_append_comm_assoc _ _ _
  | trans _ _ ih1 ih2 => exact ih1.trans ih2

mutual
/-- Sorting the listings permutes the entries of a tree. -/
theorem agesNode_sortTree (path : List String) (above : List Int) : ∀ t : Node,
    (agesNode path above t.sortTree).Perm (agesNode path above t)
  | Node.file n m c => by rw [Node.sortTree]
  | Node.dir n m cs => by
    rw [Node.sortTree, agesNode, agesNode]
    exact List.Perm.cons _ (agesKids_sortKids (path ++ [n]) (m :: above) cs)
theorem agesKids_sortKids (path : List String) (above : List Int) : ∀ cs : List Node,
    (agesKids path above (sortKids cs)).Perm (agesKids path above cs)
  | [] => by rw [sortKids]
  | c :: cs => by
    rw [sortKids]
    refine (agesKids_perm path above (List.perm_orderedInsert Node.le _ _)).trans ?_
    rw [agesKids, agesKids]
    exact (agesNode_sortTree path above c).append (agesKids_sortKids path above cs)
end

mutual
theorem agesNode_fst (path : List String) (above : List Int) : ∀ t : Node,
    (agesNode path above t).map Prod.fst = walkNode path t
  | Node.file n m c => by simp [agesNode, walkNode]
  | Node.dir n m cs => by
    rw [agesNode, walkNode, List.map_cons, agesKids_fst (path ++ [n]) (m :: above) cs]
theorem agesKids_fst (path : List String) (above : List Int) : ∀ cs : List Node,
    (agesKids path above cs).map Prod.fst = walkKids path cs
  | [] => by simp [agesKids, walkKids]
  | c :: cs => by
    rw [agesKids, walkKids, List.map_append, agesNode_fst path above c,
      agesKids_fst path above cs]
end

mutual
theorem agesNode_above (path : List String) (above : List Int) : ∀ t : Node,
    ∀ e ∈ agesNode path above t, ∀ x ∈ above, x ∈ e.2
  | Node.file n m c => by
    intro e he x hx
    rw [agesNode, List.mem_singleton] at he
    rw [he]; exact List.mem_cons_of_mem _ hx
  | Node.dir n m cs => by
    intro e he x hx
    rw [agesNode, List.mem_cons] at he
    rcases he with he | he
    · rw [he]; exact List.mem_cons_of_mem _ hx
    · exact agesKids_above (path ++ [n]) (m :: above) cs e he x (List.mem_cons_of_mem _ hx)
theorem agesKids_above (path : List String) (above : List Int) : ∀ cs : List Node,
    ∀ e ∈ agesKids path above cs, ∀ x ∈ above, x ∈ e.2
  | [] => by intro e he; rw [agesKids] at he; exact absurd he (List.not_mem_nil _)
  | c :: cs => by
    intro e he x hx
    rw [agesKids, List.mem_append] at he
    rcases he with he | he
    · exact agesNode_above path above c e he x hx
    · exact agesKids_above path above cs e he x hx
end

theorem filter_survives_nil (now maxAge : Int) (l : List (Visit × List Int)) (m : Int)
    (hm : isOld now maxAge m = true) (h : ∀ e ∈ l, m ∈ e.2) :
    l.filter (survives now maxAge) = [] := by
  rw [List.filter_eq_nil_iff]
  intro e he hs
  unfold survives at hs
  have := (List.all_eq_true.1 hs) m (h e he)
  rw [hm] at this
  exact absurd this (by decide)

/-! ## Sorted listings -/

theorem kidsOrdered_iff : ∀ cs : List Node, KidsOrdered cs ↔ ∀ c ∈ cs, c.Ordered
  | [] => by simp [KidsOrdered]
  | c :: cs => by
    rw [KidsOrdered, kidsOrdered_iff cs]
    simp

mutual
/-- The tree as `Walk` reads it has every listing in the order of the names. -/
theorem sortTree_ordered : ∀ t : Node, t.sortTree.Ordered
  | Node.file n m c => by rw [Node.sortTree, Node.Ordered]; trivial
  | Node.dir n m cs => by
    rw [Node.sortTree, Node.Ordered]
    exact sortKids_ordered cs
theorem sortKids_ordered : ∀ cs : List Node,
    KidsOrdered (sortKids cs) ∧ (sortKids cs).Sorted Node.le
  | [] => by rw [sortKids]; exact ⟨trivial, List.sorted_nil⟩
  | c :: cs => by
    have ih := sortKids_ordered cs
    haveI := nodeLe_total
    haveI := nodeLe_trans
    rw [sortKids]
    refine ⟨?_, List.Sorted.orderedInsert _ _ ih.2⟩
    rw [kidsOrdered_iff]
    intro x hx
    rcases (List.mem_orderedInsert Node.le).1 hx with h | h
    · rw [h]; exact sortTree_ordered c
    · exact (kidsOrdered_iff _).1 ih.1 x h
end

theorem orderedInsert_head (c : Node) (cs : List Node) (h : (c :: cs).Sorted Node.le) :
    List.orderedInsert Node.le c cs = c :: cs := by
  cases cs with
  | nil => rfl
  | cons b l =>
    exact List.orderedInsert_of_le Node.le l (List.rel_of_sorted_cons h b (List.mem_cons_self _ _))

mutual
/-- Reading a tree whose listings are in order changes nothing. -/
theorem sortTree_fixed : ∀ t : Node, t.Ordered → t.sortTree = t
  | Node.file n m c, _ => by rw [Node.sortTree]
  | Node.dir n m cs, h => by
    rw [Node.Ordered] at h
    rw [Node.sortTree, sortKids_fixed cs h.1 h.2]
theorem sortKids_fixed : ∀ cs : List Node, KidsOrdered cs → cs.Sorted Node.le → sortKids cs = cs
  | [], _, _ => by rw [sortKids]
  | c :: cs, h, hs => by
    rw [KidsOrdered] at h
    rw [sortKids, sortTree_fixed c h.1, sortKids_fixed cs h.2 (List.Sorted.of_cons hs)]
    exact orderedInsert_head c cs hs
end

theorem sorted_of_names {xs ys : List Node} (h : (xs.map Node.name).Sublist (ys.map Node.name))
    (hs : ys.Sorted Node.le) : xs.Sorted Node.le := by
  have e : ∀ l : List Node, l.Sorted Node.le
      ↔ (l.map Node.name).Pairwise (fun a b => lexLe a.data b.data = true) := by
    intro l
    unfold List.Sorted
    rw [List.pairwise_map]
    exact Iff.rfl
  rw [e] at hs ⊢
  exact hs.sublist h

/-! ## The archive -/

theorem projectTree_archive :
    (createZip ZipDisk.healthy '\\' ["temp", "my-api_1"] projectTree).2.map
        (fun e => (e.header.Name, e.data))
      = [("my-api/.env", "PORT=8080\n"), ("my-api/config/", ""),
         ("my-api/config/config.go", "package config\n"), ("my-api/internal/", ""),
         ("my-api/internal/handlers/", ""),
         ("my-api/internal/handlers/handlers.go", "package handlers\n"),
         ("my-api/main.go", "package main\n"), ("my-api/migrations/", "")] := by
  decide

theorem projectTree_wellFormed : projectTree.wellFormed '\\' = true := by decide

theorem projectTree_unpack :
    unpack "dest" (createZip ZipDisk.healthy '\\' ["temp", "my-api_1"] projectTree).2
      = ⟨[⟨"dest", "my-api/config"⟩, ⟨"dest", "my-api/internal"⟩,
          ⟨"dest", "my-api/internal/handlers"⟩, ⟨"dest", "my-api/migrations"⟩],
         [(⟨"dest", "my-api/.env"⟩, "PORT=8080\n"),
          (⟨"dest", "my-api/config/config.go"⟩, "package config\n"),
          (⟨"dest", "my-api/internal/handlers/handlers.go"⟩, "package handlers\n"),
          (⟨"dest", "my-api/main.go"⟩, "package main\n")]⟩ := by
  decide

/-! ## Paths of the entries of a tree -/

mutual
/-- The walk below a longer path is the walk below the shorter one with the
paths extended. -/
theorem walkNode_extend (p q : List String) : ∀ t : Node,
    walkNode (p ++ q) t = (walkNode q t).map (fun v => { v with path := p ++ v.path })
  | Node.file n m c => by simp [walkNode, List.append_assoc]
  | Node.dir n m cs => by
    rw [walkNode, walkNode, List.map_cons, List.append_assoc, walkKids_extend p (q ++ [n]) cs]
theorem walkKids_extend (p q : List String) : ∀ cs : List Node,
    walkKids (p ++ q) cs = (walkKids q cs).map (fun v => { v with path := p ++ v.path })
  | [] => by simp [walkKids]
  | c :: cs => by
    rw [walkKids, walkKids, List.map_append, walkNode_extend p q c, walkKids_extend p q cs]
end

theorem goodName_iff (sep : Char) (n : String) :
    goodName sep n = true ↔ n.data ≠ [] ∧ '/' ∉ n.data ∧ sep ∉ n.data := by
  unfold goodName
  cases h : n.data with
  | nil => simp
  | cons a l => simp [List.isEmpty, and_assoc]

mutual
/-- The path of every call for a well-formed entry starts with the path of the
entry, and goes on with good names; a directory is visited without content. -/
theorem walkNode_below (sep : Char) (q : List String) : ∀ t : Node, t.wellFormed sep = true →
    ∀ v ∈ walkNode q t,
      (∃ rest, v.path = q ++ t.name :: rest ∧ ∀ s ∈ rest, goodName sep s = true)
        ∧ (v.isDir = true → v.content = "")
  | Node.file n m c, _ => by
    intro v hv
    rw [walkNode, List.mem_singleton] at hv
    rw [hv]
    exact ⟨⟨[], by simp [Node.name], fun _ h => absurd h (List.not_mem_nil _)⟩, by simp⟩
  | Node.dir n m cs, h => by
    intro v hv
    rw [Node.wellFormed, Bool.and_eq_true, Bool.and_eq_true] at h
    rw [walkNode, List.mem_cons] at hv
    rcases hv with hv | hv
    · rw [hv]
      exact ⟨⟨[], by simp [Node.name], fun _ h => absurd h (List.not_mem_nil _)⟩, fun _ => rfl⟩
    · obtain ⟨⟨c, hc, hg, rest, hp, hr⟩, hd⟩ := walkKids_below sep (q ++ [n]) cs h.1.2 v hv
      refine ⟨⟨c.name :: rest, by rw [hp]; simp [Node.name], ?_⟩, hd⟩
      intro s hs
      rcases List.mem_cons.1 hs with rfl | hs
      · exact hg
      · exact hr s hs
theorem walkKids_below (sep : Char) (q : List String) : ∀ cs : List Node,
    kidsWellFormed sep cs = true →
    ∀ v ∈ walkKids q cs,
      (∃ c ∈ cs, goodName sep c.name = true
          ∧ ∃ rest, v.path = q ++ c.name :: rest ∧ ∀ s ∈ rest, goodName sep s = true)
        ∧ (v.isDir = true → v.content = "")
  | [], _ => by intro v hv; rw [walkKids] at hv; exact absurd hv (List.not_mem_nil _)
  | c :: cs, h => by
    intro v hv
    rw [kidsWellFormed, Bool.and_eq_true] at h
    rw [walkKids, List.mem_append] at hv
    rcases hv with hv | hv
    · obtain ⟨⟨rest, hp, hr⟩, hd⟩ := walkNode_below sep q c h.1 v hv
      have hg : goodName sep c.name = true := by
        cases c with
        | file n m x => exact h.1
        | dir n m xs =>
          have h1 := h.1
          rw [Node.wellFormed, Bool.and_eq_true, Bool.and_eq_true] at h1
          exact h1.1.1
      exact ⟨⟨c, List.mem_cons_self _ _, hg, rest, hp, hr⟩, hd⟩
    · obtain ⟨⟨c2, hc2, hg, rest, hp, hr⟩, hd⟩ := walkKids_below sep q cs h.2 v hv
      exact ⟨⟨c2, List.mem_cons_of_mem _ hc2, hg, rest, hp, hr⟩, hd⟩
end

mutual
/-- In a well-formed tree different entries have different paths. -/
theorem walkNode_nodup (sep : Char) (q : List String) : ∀ t : Node, t.wellFormed sep = true →
    ((walkNode q t).map (fun v => v.path)).Nodup
  | Node.file n m c, _ => by simp [walkNode]
  | Node.dir n m cs, h => by
    rw [Node.wellFormed, Bool.and_eq_true, Bool.and_eq_true, decide_eq_true_eq] at h
    rw [walkNode, List.map_cons, List.nodup_cons]
    refine ⟨?_, walkKids_nodup sep (q ++ [n]) cs h.1.2 h.2⟩
    intro hmem
    obtain ⟨v, hv, hp⟩ := List.mem_map.1 hmem
    obtain ⟨⟨c, -, -, rest, hpath, -⟩, -⟩ := walkKids_below sep (q ++ [n]) cs h.1.2 v hv
    have hp2 : v.path = q ++ [n] := hp
    rw [hpath] at hp2
    have := congrArg List.length hp2
    simp at this
theorem walkKids_nodup (sep : Char) (q : List String) : ∀ cs : List Node,
    kidsWellFormed sep cs = true → (cs.map Node.name).Nodup →
    ((walkKids q cs).map (fun v => v.path)).Nodup
  | [], _, _ => by simp [walkKids]
  | c :: cs, h, hn => by
    rw [kidsWellFormed, Bool.and_eq_true] at h
    rw [List.map_cons, List.nodup_cons] at hn
    rw [walkKids, List.map_append, List.nodup_append]
    refine ⟨walkNode_nodup sep q c h.1, walkKids_nodup sep q cs h.2 hn.2, ?_⟩
    intro x hx1 hx2
    obtain ⟨v1, hv1, hp1⟩ := List.mem_map.1 hx1
    obtain ⟨v2, hv2, hp2⟩ := List.mem_map.1 hx2
    obtain ⟨⟨r1, e1, -⟩, -⟩ := walkNode_below sep q c h.1 v1 hv1
    obtain ⟨⟨c2, hc2, -, r2, e2, -⟩, -⟩ := walkKids_below sep q cs h.2 v2 hv2
    have e : q ++ c.name :: r1 = q ++ c2.name :: r2 := by
      rw [← e1, ← e2]
      exact hp1.trans hp2.symm
    have e3 := List.append_cancel_left e
    have e4 : c.name = c2.name := (List.cons.inj e3).1
    exact hn.1 (by rw [e4]; exact List.mem_map.2 ⟨c2, hc2, rfl⟩)
end

/-! ## Paths as text -/

theorem joinSep_cons_cons (sep : Char) (s t : String) (rest : List String) :
    joinSep sep (s :: t :: rest) = s.data ++ sep :: joinSep sep (t :: rest) := rfl

theorem joinSep_singleton (sep : Char) (s : String) : joinSep sep [s] = s.data := rfl

/-- `ToSlash` turns the separators of a joined path into slashes when no
segment holds a separator. -/
theorem toSlash_joinSep (sep : Char) : ∀ segs : List String, (∀ s ∈ segs, sep ∉ s.data) →
    ToSlash sep (joinSep sep segs) = joinSep '/' segs := by
  intro segs h
  unfold ToSlash
  by_cases hs : sep = '/'
  · rw [if_pos hs, hs]
  · rw [if_neg hs]
    have hid : ∀ l : List Char, sep ∉ l →
        l.map (fun ch => if ch = sep then '/' else ch) = l := by
      intro l hl
      induction l with
      | nil => rfl
      | cons a l ih =>
        rw [List.map_cons, ih (fun hm => hl (List.mem_cons_of_mem _ hm))]
        have : a ≠ sep := fun e => hl (by rw [e]; exact List.mem_cons_self _ _)
        rw [if_neg this]
    induction segs with
    | nil => rfl
    | cons s rest ih =>
      cases rest with
      | nil =>
        rw [joinSep_singleton, joinSep_singleton]
        exact hid _ (h s (List.mem_cons_self _ _))
      | cons t rest2 =>
        rw [joinSep_cons_cons, joinSep_cons_cons, List.map_append, List.map_cons,
          hid _ (h s (List.mem_cons_self _ _)), if_pos rfl,
          ih (fun x hx => h x (List.mem_cons_of_mem _ hx))]

theorem splitOnChar_joinSep : ∀ segs : List String, segs ≠ [] → (∀ s ∈ segs, '/' ∉ s.data) →
    splitOnChar '/' (joinSep '/' segs) = segs.map String.data
  | [], h, _ => absurd rfl h
  | [s], _, h => by
    rw [joinSep_singleton, splitOnChar_free '/' _ (h s (List.mem_cons_self _ _))]
    rfl
  | s :: t :: rest, _, h => by
    rw [joinSep_cons_cons, splitOnChar_append '/' _ _ (h s (List.mem_cons_self _ _)),
      splitOnChar_joinSep (t :: rest) (List.cons_ne_nil _ _)
        (fun x hx => h x (List.mem_cons_of_mem _ hx))]
    rfl

theorem joinSep_injective {segs1 segs2 : List String} (h1 : segs1 ≠ []) (h2 : segs2 ≠ [])
    (f1 : ∀ s ∈ segs1, '/' ∉ s.data) (f2 : ∀ s ∈ segs2, '/' ∉ s.data)
    (e : joinSep '/' segs1 = joinSep '/' segs2) : segs1 = segs2 := by
  have e2 : segs1.map String.data = segs2.map String.data := by
    rw [← splitOnChar_joinSep segs1 h1 f1, ← splitOnChar_joinSep segs2 h2 f2, e]
  have hinj : Function.Injective String.data := fun a b hab => data_injective hab
  exact List.map_injective_iff.2 hinj e2

theorem joinSep_ne_nil (sep : Char) : ∀ segs : List String, segs ≠ [] →
    (∀ s ∈ segs, s.data ≠ []) → joinSep sep segs ≠ []
  | [], h, _ => absurd rfl h
  | [s], _, h => by rw [joinSep_singleton]; exact h s (List.mem_cons_self _ _)
  | s :: t :: rest, _, _ => by rw [joinSep_cons_cons]; simp

/-- A joined path of good names does not end in a slash. -/
theorem joinSep_getLast : ∀ segs : List String, segs ≠ [] →
    (∀ s ∈ segs, s.data ≠ [] ∧ '/' ∉ s.data) → (joinSep '/' segs).getLast? ≠ some '/'
  | [], h, _ => absurd rfl h
  | [s], _, h => by
    rw [joinSep_singleton]
    intro hl
    exact (h s (List.mem_cons_self _ _)).2 (List.mem_of_mem_getLast? hl)
  | s :: t :: rest, _, h => by
    have ih := joinSep_getLast (t :: rest) (List.cons_ne_nil _ _)
      (fun x hx => h x (List.mem_cons_of_mem _ hx))
    have hne : joinSep '/' (t :: rest) ≠ [] :=
      joinSep_ne_nil '/' _ (List.cons_ne_nil _ _)
        (fun x hx => (h x (List.mem_cons_of_mem _ hx)).1)
    rw [joinSep_cons_cons, List.getLast?_append]
    cases hj : joinSep '/' (t :: rest) with
    | nil => exact absurd hj hne
    | cons a l =>
      rw [hj] at ih
      rw [List.getLast?_cons_cons]
      intro hl
      apply ih
      cases hx : (a :: l).getLast? with
      | none => exact absurd (List.getLast?_eq_none_iff.1 hx) (List.cons_ne_nil _ _)
      | some y => rw [hx] at hl; simpa using hl

theorem joinSep_mem (sep : Char) (ch : Char) : ∀ segs : List String, ch ∈ joinSep sep segs →
    ch = sep ∨ ∃ s ∈ segs, ch ∈ s.data
  | [], h => by simp [joinSep] at h
  | [s], h => Or.inr ⟨s, List.mem_cons_self _ _, h⟩
  | s :: t :: rest, h => by
    rw [joinSep_cons_cons, List.mem_append, List.mem_cons] at h
    rcases h with h | h | h
    · exact Or.inr ⟨s, List.mem_cons_self _ _, h⟩
    · exact Or.inl h
    · rcases joinSep_mem sep ch (t :: rest) h with h2 | ⟨x, hx, hc⟩
      · exact Or.inl h2
      · exact Or.inr ⟨x, List.mem_cons_of_mem _ hx, hc⟩

theorem joinSep_starts (sep : Char) (n : String) (rest : List String) (h : rest ≠ []) :
    (n.data ++ [sep]) <+: joinSep sep (n :: rest) := by
  cases rest with
  | nil => exact absurd rfl h
  | cons t rest2 =>
    rw [joinSep_cons_cons]
    exact ⟨joinSep sep (t :: rest2), by simp⟩

theorem relSegments_append : ∀ (base rest : List String),
    relSegments base (base ++ rest) = rest
  | [], _ => by rw [List.nil_append, relSegments]
  | b :: base, rest => by
    rw [List.cons_append, relSegments, if_pos rfl, relSegments_append base rest]

/-! ## The entries of the archive -/

theorem walkKids_sortKids_perm (q : List String) (cs : List Node) :
    (walkKids q (sortKids cs)).Perm (walkKids q cs) := by
  rw [← agesKids_fst q [] (sortKids cs), ← agesKids_fst q [] cs]
  exact (agesKids_sortKids q [] cs).map _

theorem zipHeader_method (sep : Char) (sourceDir : List String) (v : Visit) :
    (zipHeader sep sourceDir v).Method = zipDeflate := by
  unfold zipHeader
  simp only []
  split_ifs <;> rfl

theorem entryName_getLast (sep : Char) (w : Visit) (hne : w.path ≠ [])
    (hg : ∀ s ∈ w.path, goodName sep s = true) :
    (entryName w).data.getLast? = some '/' ↔ w.isDir = true := by
  unfold entryName
  cases hd : w.isDir with
  | true => simp [List.getLast?_concat]
  | false =>
    simp only [Bool.false_eq_true, if_false, List.append_nil, iff_false]
    exact joinSep_getLast w.path hne (fun s hs =>
      ⟨((goodName_iff sep s).1 (hg s hs)).1, ((goodName_iff sep s).1 (hg s hs)).2.1⟩)

/-- The header `createZip` builds for a call below the root has the name the
archive is to give the entry. -/
theorem zipHeader_below (sep : Char) (parent : List String) (n : String) (w : Visit)
    (hs : ∀ s ∈ w.path, sep ∉ s.data) :
    zipHeader sep (parent ++ [n]) { w with path := parent ++ w.path }
      = ⟨entryName w, zipDeflate, w.modTime, w.isDir⟩ := by
  have h2 : relSegments (parent ++ [n]).dropLast (parent ++ w.path) = w.path := by
    rw [List.dropLast_concat, relSegments_append]
  have h3 := toSlash_joinSep sep w.path hs
  unfold zipHeader
  simp only [h2, h3, FileInfoHeader]
  cases hdir : w.isDir with
  | false => simp only [Bool.false_eq_true, if_false, entryName, hdir, List.append_nil]
  | true =>
    have hn : String.mk (joinSep '/' w.path) ++ "/" = String.mk (joinSep '/' w.path ++ ['/']) := by
      apply data_injective
      rw [String.data_append]
    simp only [if_true, entryName, hdir, hn]

/-- On a disk without failures the callback adds, for a call below the root,
the entry the archive is to hold. -/
theorem zipVisit_healthy (sep : Char) (parent : List String) (n : String) (w : Visit)
    (rest : List String) (hp : w.path = n :: rest) (hr : rest ≠ [])
    (hg : ∀ s ∈ w.path, goodName sep s = true) (hd : w.isDir = true → w.content = "") :
    zipVisit ZipDisk.healthy sep (parent ++ [n]) { w with path := parent ++ w.path }
      = (none, [entryFor w]) := by
  have h1 : parent ++ w.path ≠ parent ++ [n] := by
    rw [hp]
    intro e
    have := List.append_cancel_left e
    exact hr (List.cons.inj this).2
  have hs : ∀ s ∈ w.path, sep ∉ s.data := fun s hs => ((goodName_iff sep s).1 (hg s hs)).2.2
  have hl := entryName_getLast sep w (by rw [hp]; exact List.cons_ne_nil _ _) hg
  unfold zipVisit
  simp only [h1, if_false, zipHeader_below sep parent n w hs, ZipDisk.healthy, Bool.not_true,
    Bool.false_eq_true, CreateHeader]
  cases hdir : w.isDir with
  | false =>
    have hl2 : ¬ (entryName w).data.getLast? = some '/' := by
      intro h
      have := hl.1 h
      rw [hdir] at this
      exact absurd this (by decide)
    simp only [hl2, if_false, Bool.not_false, if_true, entryFor, hdir, Bool.false_eq_true]
  | true =>
    have hl2 : (entryName w).data.getLast? = some '/' := hl.2 hdir
    have hc := hd hdir
    simp only [hl2, if_true, Bool.not_true, Bool.false_eq_true, if_false, entryFor, hdir, hc]

theorem zipWalk_healthy (sep : Char) (parent : List String) (n : String) :
    ∀ ws : List Visit,
      (∀ w ∈ ws, (∃ rest, w.path = n :: rest ∧ rest ≠ [])
        ∧ (∀ s ∈ w.path, goodName sep s = true) ∧ (w.isDir = true → w.content = "")) →
      zipWalk ZipDisk.healthy sep (parent ++ [n])
          (ws.map (fun v => { v with path := parent ++ v.path }))
        = (none, ws.map entryFor)
  | [], _ => rfl
  | w :: ws, h => by
    obtain ⟨⟨rest, hp, hr⟩, hg, hd⟩ := h w (List.mem_cons_self _ _)
    have ih := zipWalk_healthy sep parent n ws (fun x hx => h x (List.mem_cons_of_mem _ hx))
    rw [List.map_cons, zipWalk, zipVisit_healthy sep parent n w rest hp hr hg hd]
    simp only [ih, List.map_cons, List.singleton_append]

/-- The calls below a well-formed root, with paths from the name of the root
on: each path goes on below the root with good names. -/
theorem below_root (sep : Char) (n : String) (m : Int) (cs : List Node)
    (hwf : (Node.dir n m cs).wellFormed sep = true) :
    ∀ w ∈ walkKids [n] (sortKids cs),
      (∃ rest, w.path = n :: rest ∧ rest ≠ [])
        ∧ (∀ s ∈ w.path, goodName sep s = true) ∧ (w.isDir = true → w.content = "") := by
  intro w hw
  rw [Node.wellFormed, Bool.and_eq_true, Bool.and_eq_true] at hwf
  have hw2 : w ∈ walkKids [n] cs := (walkKids_sortKids_perm [n] cs).mem_iff.1 hw
  obtain ⟨⟨c, hc, hg, rest, hp, hr⟩, hd⟩ := walkKids_below sep [n] cs hwf.1.2 w hw2
  have hp2 : w.path = n :: c.name :: rest := hp
  refine ⟨⟨c.name :: rest, hp2, List.cons_ne_nil _ _⟩, ?_, hd⟩
  intro s hs
  rw [hp2] at hs
  rcases List.mem_cons.1 hs with rfl | hs
  · exact hwf.1.1
  · rcases List.mem_cons.1 hs with rfl | hs
    · exact hg
    · exact hr s hs

theorem createZip_healthy (sep : Char) (parent : List String) (n : String) (m : Int)
    (cs : List Node) (hwf : (Node.dir n m cs).wellFormed sep = true) :
    createZip ZipDisk.healthy sep parent (Node.dir n m cs)
      = (none, (walkKids [n] (sortKids cs)).map entryFor) := by
  have hb := below_root sep n m cs hwf
  have hroot : zipVisit ZipDisk.healthy sep (parent ++ [n]) ⟨parent ++ [n], true, m, ""⟩
      = (none, []) := by
    unfold zipVisit
    simp
  unfold createZip Walk
  rw [Node.sortTree, walkNode, walkKids_extend parent [n]]
  simp only [ZipDisk.healthy, Bool.not_true, Bool.false_eq_true, if_false, Node.name]
  rw [zipWalk]
  have hr2 := hroot
  simp only [ZipDisk.healthy] at hr2
  rw [hr2]
  have hz := zipWalk_healthy sep parent n (walkKids [n] (sortKids cs)) hb
  simp only [ZipDisk.healthy] at hz
  rw [hz]
  rfl

/-- Different entries below a well-formed root have different paths as text. -/
theorem below_root_nodup (sep : Char) (n : String) (m : Int) (cs : List Node)
    (hwf : (Node.dir n m cs).wellFormed sep = true) :
    ((walkKids [n] (sortKids cs)).map (fun v => joinSep '/' v.path)).Nodup := by
  have hb := below_root sep n m cs hwf
  have hwf2 := hwf
  rw [Node.wellFormed, Bool.and_eq_true, Bool.and_eq_true, decide_eq_true_eq] at hwf2
  have hn : ((walkKids [n] (sortKids cs)).map (fun v => v.path)).Nodup :=
    ((walkKids_sortKids_perm [n] cs).map _).nodup_iff.2
      (walkKids_nodup sep [n] cs hwf2.1.2 hwf2.2)
  have hfree : ∀ w ∈ walkKids [n] (sortKids cs), w.path ≠ [] ∧ ∀ s ∈ w.path, '/' ∉ s.data := by
    intro w hw
    obtain ⟨⟨rest, hp, -⟩, hg, -⟩ := hb w hw
    exact ⟨by rw [hp]; exact List.cons_ne_nil _ _,
      fun s hs => ((goodName_iff sep s).1 (hg s hs)).2.1⟩
  have e : (walkKids [n] (sortKids cs)).map (fun v => joinSep '/' v.path)
      = ((walkKids [n] (sortKids cs)).map (fun v => v.path)).map (joinSep '/') := by
    rw [List.map_map]; rfl
  rw [e]
  refine List.Nodup.map_on ?_ hn
  intro x hx y hy hxy
  obtain ⟨v1, hv1, rfl⟩ := List.mem_map.1 hx
  obtain ⟨v2, hv2, rfl⟩ := List.mem_map.1 hy
  exact joinSep_injective (hfree v1 hv1).1 (hfree v2 hv2).1 (hfree v1 hv1).2 (hfree v2 hv2).2 hxy

/-! ## C21: the entries of the archive -/

/-- C21 fails for directories: in the archive of the project tree the
directory entries are recorded with the store method, although the header
`createZip` builds for each of them asks for the deflate method. -/
theorem C21_directory_entry_stored :
    (createZip ZipDisk.healthy '/' ["temp", "my-api_1"] projectTree).2.map
        (fun e => (e.header.Name, e.header.Method))
      = [("my-api/.env", zipDeflate), ("my-api/config/", zipStore),
         ("my-api/config/config.go", zipDeflate), ("my-api/internal/", zipStore),
         ("my-api/internal/handlers/", zipStore),
         ("my-api/internal/handlers/handlers.go", zipDeflate),
         ("my-api/main.go", zipDeflate), ("my-api/migrations/", zipStore)]
      ∧ zipHeader '/' ["temp", "my-api_1", "my-api"]
          ⟨["temp", "my-api_1", "my-api", "config"], true, 6, ""⟩
        = ⟨"my-api/config/", zipDeflate, 6, true⟩
      ∧ zipStore ≠ zipDeflate := by
  decide

/-- C21 (amended): for a well-formed tree rooted at the directory `n` in
`parent`, on a disk without failures and for any host separator, `createZip`
returns no error and the archive holds one entry for every call of the walk
after the root, in the order of the walk: depth first, every listing in the
order of the names; these calls are a permutation of the files and directories
below the root as the disk holds them, an empty directory included; the name of
an entry is the path from the name of the root on, joined with forward slashes,
with a trailing slash for a directory; the names are pairwise distinct, start
with the name of the root and a slash, end in a slash exactly for directories
and hold no host separator other than the slash; every header `createZip`
builds asks for the deflate method, and the archive records a file entry with
the deflate method and a directory entry with the store method; and the data
of a file entry are the bytes of the file. -/
theorem C21_archive_entries (sep : Char) (parent : List String) (n : String) (m : Int)
    (cs : List Node) (hwf : (Node.dir n m cs).wellFormed sep = true) :
    createZip ZipDisk.healthy sep parent (Node.dir n m cs)
        = (none, ((Walk [] (Node.dir n m cs)).tail).map entryFor)
      ∧ (Walk [] (Node.dir n m cs)).tail = walkKids [n] (sortKids cs)
      ∧ (Node.dir n m cs).sortTree.Ordered
      ∧ ((Walk [] (Node.dir n m cs)).tail).Perm (walkKids [n] cs)
      ∧ (∀ (path : List String) (dn : String) (dm : Int),
          walkNode path (Node.dir dn dm []) = [⟨path ++ [dn], true, dm, ""⟩])
      ∧ (∀ w : Visit, entryFor w
          = ⟨⟨String.mk (joinSep '/' w.path ++ (if w.isDir then ['/'] else [])),
              if w.isDir then zipStore else zipDeflate, w.modTime, w.isDir⟩, w.content⟩)
      ∧ (∀ (sourceDir : List String) (v : Visit),
          (zipHeader sep sourceDir v).Method = zipDeflate)
      ∧ ((createZip ZipDisk.healthy sep parent (Node.dir n m cs)).2.map
          (fun e => e.header.Name)).Nodup
      ∧ (∀ e ∈ (createZip ZipDisk.healthy sep parent (Node.dir n m cs)).2,
          (n.data ++ ['/']) <+: e.header.Name.data
            ∧ (e.header.Name.data.getLast? = some '/' ↔ e.header.IsDir = true)
            ∧ (sep ≠ '/' → sep ∉ e.header.Name.data)
            ∧ e.header.Method = (if e.header.IsDir then zipStore else zipDeflate)) := by
  have hz := createZip_healthy sep parent n m cs hwf
  have hb := below_root sep n m cs hwf
  have ht : (Walk [] (Node.dir n m cs)).tail = walkKids [n] (sortKids cs) := rfl
  refine ⟨by rw [hz, ht], ht, sortTree_ordered _, by rw [ht]; exact walkKids_sortKids_perm [n] cs,
    fun _ _ _ => rfl, fun _ => rfl, fun src v => zipHeader_method sep src v, ?_, ?_⟩
  · rw [hz]
    show (((walkKids [n] (sortKids cs)).map entryFor).map (fun e => e.header.Name)).Nodup
    rw [List.map_map]
    have hn := below_root_nodup sep n m cs hwf
    have hw : (walkKids [n] (sortKids cs)).Nodup := List.Nodup.of_map _ hn
    refine List.Nodup.map_on ?_ hw
    intro x hx y hy hxy
    have hxy2 : entryName x = entryName y := hxy
    have hpath : joinSep '/' x.path = joinSep '/' y.path := by
      have gx := entryName_getLast sep x
        (by obtain ⟨⟨r, hp, -⟩, -⟩ := hb x hx; rw [hp]; exact List.cons_ne_nil _ _) (hb x hx).2.1
      have gy := entryName_getLast sep y
        (by obtain ⟨⟨r, hp, -⟩, -⟩ := hb y hy; rw [hp]; exact List.cons_ne_nil _ _) (hb y hy).2.1
      have hk : x.isDir = y.isDir := by
        rw [hxy2] at gx
        cases hx1 : x.isDir <;> cases hy1 : y.isDir <;> simp_all
      have hd : (entryName x).data = (entryName y).data := by rw [hxy2]
      unfold entryName at hd
      rw [hk] at hd
      exact List.append_cancel_right hd
    exact List.inj_on_of_nodup_map hn hx hy hpath
  · intro e he
    rw [hz] at he
    obtain ⟨w, hw, rfl⟩ := List.mem_map.1 he
    obtain ⟨⟨rest, hp, hr⟩, hg, -⟩ := hb w hw
    refine ⟨?_, ?_, ?_, rfl⟩
    · show (n.data ++ ['/']) <+: (joinSep '/' w.path ++ (if w.isDir then ['/'] else []))
      rw [hp]
      exact (joinSep_starts '/' n rest hr).trans (List.prefix_append _ _)
    · exact entryName_getLast sep w (by rw [hp]; exact List.cons_ne_nil _ _) hg
    · intro hs hmem
      have hmem2 : sep ∈ joinSep '/' w.path ++ (if w.isDir then ['/'] else []) := hmem
      rw [List.mem_append] at hmem2
      rcases hmem2 with h1 | h1
      · rcases joinSep_mem '/' sep w.path h1 with h2 | ⟨s, hs2, hc⟩
        · exact hs h2
        · exact ((goodName_iff sep s).1 (hg s hs2)).2.2 hc
      · split_ifs at h1
        · exact hs (List.mem_singleton.1 h1)
        · exact absurd h1 (List.not_mem_nil _)

/-- C21 (witness): the project tree on a host whose separator is the
backslash. -/
theorem C21_archive_entries_witness :
    projectTree.wellFormed '\\' = true
      ∧ createZip ZipDisk.healthy '\\' ["temp", "my-api_1"] projectTree
        = (none, ((Walk [] projectTree).tail).map entryFor) :=
  ⟨by decide,
    (C21_archive_entries '\\' ["temp", "my-api_1"] "my-api" 5 _ (by decide)).1⟩

/-! ## C22: the round trip of the archive -/

theorem mkdirAll_healthy_fresh (fs : FileSystem) (p : Path) (h : p ∉ fs.dirs) :
    (mkdirAll Disk.healthy fs p).fs = { fs with dirs := fs.dirs ++ [p] } := by
  unfold mkdirAll
  simp [Disk.healthy, h]

theorem treeDirs_append (dest : String) (xs ys : List Visit) :
    treeDirs dest (xs ++ ys) = treeDirs dest xs ++ treeDirs dest ys := by
  simp [treeDirs]

theorem treeFiles_append (dest : String) (xs ys : List Visit) :
    treeFiles dest (xs ++ ys) = treeFiles dest xs ++ treeFiles dest ys := by
  simp [treeFiles]

/-- Unpacking the entries of the remaining calls after those of the calls done
gives the directories and the files of all the calls. -/
theorem unpack_fold (sep : Char) (dest : String) : ∀ (rest done : List Visit),
    ((done ++ rest).map (fun v => joinSep '/' v.path)).Nodup →
    (∀ w ∈ rest, w.path ≠ [] ∧ ∀ s ∈ w.path, goodName sep s = true) →
    (rest.map entryFor).foldl (unpackEntry dest) ⟨treeDirs dest done, treeFiles dest done⟩
      = ⟨treeDirs dest (done ++ rest), treeFiles dest (done ++ rest)⟩
  | [], done, _, _ => by simp
  | w :: rest, done, hn, hg => by
    have hn2 : (((done ++ [w]) ++ rest).map (fun v => joinSep '/' v.path)).Nodup := by
      rw [List.append_assoc]; exact hn
    have ih := unpack_fold sep dest rest (done ++ [w]) hn2
      (fun x hx => hg x (List.mem_cons_of_mem _ hx))
    have hfresh : ∀ v ∈ done, joinSep '/' v.path ≠ joinSep '/' w.path := by
      intro v hv e
      rw [List.map_append, List.map_cons, List.nodup_append] at hn
      exact hn.2.2 (List.mem_map.2 ⟨v, hv, e⟩) (List.mem_cons_self _ _)
    have hlast := entryName_getLast sep w (hg w (List.mem_cons_self _ _)).1
      (hg w (List.mem_cons_self _ _)).2
    rw [List.map_cons, List.foldl_cons]
    have hstep : unpackEntry dest ⟨treeDirs dest done, treeFiles dest done⟩ (entryFor w)
        = ⟨treeDirs dest (done ++ [w]), treeFiles dest (done ++ [w])⟩ := by
      unfold unpackEntry
      cases hd : w.isDir with
      | true =>
        have h1 : (entryFor w).header.Name.data.getLast? = some '/' := hlast.2 hd
        have h2 : String.mk (entryFor w).header.Name.data.dropLast
            = String.mk (joinSep '/' w.path) := by
          show String.mk (joinSep '/' w.path ++ (if w.isDir then ['/'] else [])).dropLast = _
          rw [hd, if_pos rfl, List.dropLast_concat]
        rw [if_pos h1, h2, mkdirAll_healthy_fresh]
        · simp [treeDirs, treeFiles, hd, List.filter_append]
        · intro hmem
          have hmem2 : (⟨dest, String.mk (joinSep '/' w.path)⟩ : Path) ∈ treeDirs dest done := hmem
          unfold treeDirs at hmem2
          obtain ⟨v, hv, e⟩ := List.mem_map.1 hmem2
          have e2 : joinSep '/' v.path = joinSep '/' w.path := by
            have := congrArg Path.rel e
            exact congrArg String.data this
          exact hfresh v (List.mem_of_mem_filter hv) e2
      | false =>
        have h1 : ¬ (entryFor w).header.Name.data.getLast? = some '/' := by
          intro h
          have := hlast.1 h
          rw [hd] at this
          exact absurd this (by decide)
        have h3 : (entryFor w).header.Name = String.mk (joinSep '/' w.path) := by
          show String.mk (joinSep '/' w.path ++ (if w.isDir then ['/'] else [])) = _
          rw [hd, if_neg (by decide), List.append_nil]
        rw [if_neg h1, h3, writeFile_healthy_fresh]
        · simp [treeDirs, treeFiles, hd, List.filter_append, entryFor]
        · intro f hf e
          unfold treeFiles at hf
          obtain ⟨v, hv, e3⟩ := List.mem_map.1 hf
          have e2 : joinSep '/' v.path = joinSep '/' w.path := by
            have h5 : f.1 = (⟨dest, String.mk (joinSep '/' v.path)⟩ : Path) := by rw [← e3]
            have := congrArg Path.rel (h5.symm.trans e)
            exact congrArg String.data this
          exact hfresh v (List.mem_of_mem_filter hv) e2
    rw [hstep, ih, List.append_assoc]
    rfl

/-- C22: for a well-formed tree rooted at the directory `n`, unpacking the
archive `createZip` produces on a disk without failures, into an empty
directory, creates exactly the directories and the files of the calls of the
walk after the root, each file with its bytes; these calls are a permutation of
the files and directories below the root as the disk holds them, so the
unpacked tree has the relative paths of the archived tree, directories and
files, and for every file the same bytes. -/
theorem C22_archive_round_trip (sep : Char) (parent : List String) (dest n : String) (m : Int)
    (cs : List Node) (hwf : (Node.dir n m cs).wellFormed sep = true) :
    unpack dest (createZip ZipDisk.healthy sep parent (Node.dir n m cs)).2
        = ⟨treeDirs dest (walkKids [n] (sortKids cs)), treeFiles dest (walkKids [n] (sortKids cs))⟩
      ∧ (treeDirs dest (walkKids [n] (sortKids cs))).Perm (treeDirs dest (walkKids [n] cs))
      ∧ (treeFiles dest (walkKids [n] (sortKids cs))).Perm (treeFiles dest (walkKids [n] cs))
      ∧ ((treeDirs dest (walkKids [n] cs)).map Path.rel
          ++ (treeFiles dest (walkKids [n] cs)).map (fun f => f.1.rel)).Nodup := by
  have hz := createZip_healthy sep parent n m cs hwf
  have hb := below_root sep n m cs hwf
  have hn := below_root_nodup sep n m cs hwf
  have hp := walkKids_sortKids_perm [n] cs
  refine ⟨?_, ?_, ?_, ?_⟩
  · rw [hz]
    have := unpack_fold sep dest (walkKids [n] (sortKids cs)) [] (by simpa using hn)
      (fun w hw => ⟨by obtain ⟨⟨r, hp, -⟩, -⟩ := hb w hw; rw [hp]; exact List.cons_ne_nil _ _,
        (hb w hw).2.1⟩)
    simpa [unpack, treeDirs, treeFiles, FileSystem.empty] using this
  · exact (hp.filter _).map _
  · exact (hp.filter _).map _
  · have hn2 : ((walkKids [n] cs).map (fun v => joinSep '/' v.path)).Nodup :=
      (hp.map _).nodup_iff.1 hn
    have hs : ((treeDirs dest (walkKids [n] cs)).map Path.rel
          ++ (treeFiles dest (walkKids [n] cs)).map (fun f => f.1.rel)).Perm
        ((walkKids [n] cs).map (fun v => String.mk (joinSep '/' v.path))) := by
      unfold treeDirs treeFiles
      rw [List.map_map, List.map_map]
      have e1 : (Path.rel ∘ fun v : Visit => (⟨dest, String.mk (joinSep '/' v.path)⟩ : Path))
          = fun v => String.mk (joinSep '/' v.path) := rfl
      have e2 : ((fun f : Path × String => f.1.rel) ∘ fun v : Visit =>
          ((⟨dest, String.mk (joinSep '/' v.path)⟩ : Path), v.content))
          = fun v => String.mk (joinSep '/' v.path) := rfl
      rw [e1, e2, ← List.map_append]
      refine List.Perm.map _ ?_
      have := List.filter_append_perm (fun v : Visit => v.isDir) (walkKids [n] cs)
      simpa using this
    rw [hs.nodup_iff]
    have e3 : (walkKids [n] cs).map (fun v => String.mk (joinSep '/' v.path))
        = ((walkKids [n] cs).map (fun v => joinSep '/' v.path)).map String.mk := by
      rw [List.map_map]; rfl
    rw [e3]
    exact List.Nodup.map (fun a b h => by injection h) hn2

/-- C22 (witness): the project tree unpacked into `dest`. -/
theorem C22_archive_round_trip_witness :
    projectTree.wellFormed '\\' = true
      ∧ unpack "dest" (createZip ZipDisk.healthy '\\' ["temp", "my-api_1"] projectTree).2
        = ⟨treeDirs "dest" (walkKids ["my-api"] (sortKids
              [Node.file "main.go" 7 "package main\n",
               Node.dir "migrations" 6 [],
               Node.file ".env" 8 "PORT=8080\n",
               Node.dir "internal" 6
                 [Node.dir "handlers" 6 [Node.file "handlers.go" 9 "package handlers\n"]],
               Node.dir "config" 6 [Node.file "config.go" 7 "package config\n"]])),
           treeFiles "dest" (walkKids ["my-api"] (sortKids
              [Node.file "main.go" 7 "package main\n",
               Node.dir "migrations" 6 [],
               Node.file ".env" 8 "PORT=8080\n",
               Node.dir "internal" 6
                 [Node.dir "handlers" 6 [Node.file "handlers.go" 9 "package handlers\n"]],
               Node.dir "config" 6 [Node.file "config.go" 7 "package config\n"]]))⟩ :=
  ⟨by decide,
    (C22_archive_round_trip '\\' ["temp", "my-api_1"] "dest" "my-api" 5 _ (by decide)).1⟩

/-! ## The archive of a generated project -/

/-- The tree generated for the layered example selection, archived and
unpacked: the names of the entries and the unpacked paths. -/
theorem generated_tree_archive :
    ((GenerateProject Disk.healthy selectionStandard FileSystem.empty).fs.toNode
        "my-api").wellFormed '/' = true
      ∧ (createZip ZipDisk.healthy '/' ["temp", "my-api_1769873486"]
          ((GenerateProject Disk.healthy selectionStandard FileSystem.empty).fs.toNode
            "my-api")).2.map (fun e => e.header.Name)
        = ["my-api/.env", "my-api/.env.example", "my-api/.gitignore", "my-api/README.md",
           "my-api/cmd/", "my-api/cmd/server/", "my-api/cmd/server/main.go", "my-api/config/",
           "my-api/config/config.go", "my-api/go.mod", "my-api/internal/",
           "my-api/internal/handlers/", "my-api/internal/handlers/handlers.go",
           "my-api/internal/middleware/", "my-api/internal/models/", "my-api/railway.json"]
      ∧ (unpack "dest" (createZip ZipDisk.healthy '/' ["temp", "my-api_1769873486"]
          ((GenerateProject Disk.healthy selectionStandard FileSystem.empty).fs.toNode
            "my-api")).2).read ⟨"dest", "my-api/cmd/server/main.go"⟩
        = some (generateMainContent selectionStandard) := by
  refine ⟨?_, ?_, ?_⟩ <;> decide!

/-! ## The expiry sweep -/

theorem tempTree_cleanup :
    (CleanupOldFiles SweepDisk.healthy 1000 100 [] (some tempTree)).err = none
      ∧ entriesBelow [] (CleanupOldFiles SweepDisk.healthy 1000 100 [] (some tempTree)).root
        = [⟨["temp", "b_2"], true, 950, ""⟩, ⟨["temp", "b_2", "new.zip"], false, 990, "y"⟩,
           ⟨["temp", "edge"], false, 900, "e"⟩]
      ∧ (CleanupOldFiles SweepDisk.healthy 1000 100 [] (some tempTree)).removed
        = [["temp", "a_1"], ["temp", "b_2", "old.zip"]] := by
  decide

/-- A removal that fails after it removed a part stops the sweep: the name
read before is gone, `lstat` fails and the error is returned; the entries
after it are not visited. -/
theorem tempTree_part_removal :
    (CleanupOldFiles diskPartRemoval 1000 100 [] (some tempTree)).err
        = some (WalkError.lstat ["temp", "a_1", "fresh.txt"])
      ∧ entriesBelow [] (CleanupOldFiles diskPartRemoval 1000 100 [] (some tempTree)).root
        = [⟨["temp", "a_1"], true, 100, ""⟩, ⟨["temp", "b_2"], true, 950, ""⟩,
           ⟨["temp", "b_2", "new.zip"], false, 990, "y"⟩,
           ⟨["temp", "b_2", "old.zip"], false, 10, "z"⟩, ⟨["temp", "edge"], false, 900, "e"⟩]
      ∧ (CleanupOldFiles diskPartRemoval 1000 100 [] (some tempTree)).removed = [] := by
  decide

theorem sweepNode_healthy_file (now maxAge : Int) (path : List String) (n : String) (m : Int)
    (c : String) :
    sweepNode SweepDisk.healthy now maxAge present path (Node.file n m c)
      = if isOld now maxAge m = true then ⟨none, [], [path ++ [n]]⟩
        else ⟨none, [Node.file n m c], []⟩ := by
  rw [sweepNode]; rfl

theorem sweepNode_healthy_dir (now maxAge : Int) (path : List String) (n : String) (m : Int)
    (cs : List Node) :
    sweepNode SweepDisk.healthy now maxAge present path (Node.dir n m cs)
      = if isOld now maxAge m = true then ⟨none, [], [path ++ [n]]⟩
        else Swept.inDir n m
          (sweepKids SweepDisk.healthy now maxAge present present (path ++ [n]) cs) := by
  rw [sweepNode]; rfl

theorem sweepKids_present_cons (d : SweepDisk) (now maxAge : Int) (path : List String) (c : Node)
    (cs : List Node) :
    sweepKids d now maxAge present present path (c :: cs)
      = Swept.andThen (sweepNode d now maxAge present path c) (pruneKids present path cs)
          (sweepKids d now maxAge present present path cs) := by
  rw [sweepKids]; rfl

theorem Swept.andThen_ok (r : Swept) (rest : List Node) (s : Swept) (h : r.err = none) :
    Swept.andThen r rest s = ⟨s.err, r.left ++ s.left, r.removed ++ s.removed⟩ := by
  unfold Swept.andThen
  rw [h]

mutual
/-- With every removal succeeding and every directory read, the sweep of an
entry meets no error. -/
theorem sweepNode_healthy_err (now maxAge : Int) (path : List String) : ∀ t : Node,
    (sweepNode SweepDisk.healthy now maxAge present path t).err = none
  | Node.file n m c => by
    rw [sweepNode_healthy_file]
    split_ifs <;> rfl
  | Node.dir n m cs => by
    rw [sweepNode_healthy_dir]
    split_ifs
    · rfl
    · exact sweepKids_healthy_err now maxAge (path ++ [n]) cs
theorem sweepKids_healthy_err (now maxAge : Int) (path : List String) : ∀ cs : List Node,
    (sweepKids SweepDisk.healthy now maxAge present present path cs).err = none
  | [] => by rw [sweepKids]
  | c :: cs => by
    rw [sweepKids_present_cons, Swept.andThen_ok _ _ _ (sweepNode_healthy_err now maxAge path c)]
    exact sweepKids_healthy_err now maxAge path cs
end

theorem sweepKids_healthy_cons (now maxAge : Int) (path : List String) (c : Node)
    (cs : List Node) :
    sweepKids SweepDisk.healthy now maxAge present present path (c :: cs)
      = ⟨(sweepKids SweepDisk.healthy now maxAge present present path cs).err,
          (sweepNode SweepDisk.healthy now maxAge present path c).left
            ++ (sweepKids SweepDisk.healthy now maxAge present present path cs).left,
          (sweepNode SweepDisk.healthy now maxAge present path c).removed
            ++ (sweepKids SweepDisk.healthy now maxAge present present path cs).removed⟩ := by
  rw [sweepKids_present_cons, Swept.andThen_ok _ _ _ (sweepNode_healthy_err now maxAge path c)]

mutual
/-- With every removal succeeding, what the sweep leaves of an entry is the
entry and the entries below it for which neither they nor a directory above
them is old. -/
theorem sweepNode_walk (now maxAge : Int) (path : List String) (above : List Int)
    (ha : above.all (fun m => !isOld now maxAge m) = true) : ∀ t : Node,
    walkKids path (sweepNode SweepDisk.healthy now maxAge present path t).left
      = ((agesNode path above t).filter (survives now maxAge)).map Prod.fst
  | Node.file n m c => by
    by_cases ho : isOld now maxAge m = true
    · have hf : (agesNode path above (Node.file n m c)).filter (survives now maxAge) = [] :=
        filter_survives_nil now maxAge _ m ho (by
          intro e he
          rw [agesNode, List.mem_singleton] at he
          rw [he]; exact List.mem_cons_self _ _)
      rw [hf, sweepNode_healthy_file, if_pos ho]
      rfl
    · have hs : survives now maxAge
          ((⟨path ++ [n], false, m, c⟩ : Visit), m :: above) = true := by
        unfold survives
        rw [List.all_cons, ha]
        simp [ho]
      rw [sweepNode_healthy_file, if_neg ho, agesNode, List.filter_cons, if_pos hs]
      simp [walkKids, walkNode]
  | Node.dir n m cs => by
    by_cases ho : isOld now maxAge m = true
    · have hf : (agesNode path above (Node.dir n m cs)).filter (survives now maxAge) = [] :=
        filter_survives_nil now maxAge _ m ho (by
          intro e he
          rw [agesNode, List.mem_cons] at he
          rcases he with he | he
          · rw [he]; exact List.mem_cons_self _ _
          · exact agesKids_above (path ++ [n]) (m :: above) cs e he m (List.mem_cons_self _ _))
      rw [hf, sweepNode_healthy_dir, if_pos ho]
      rfl
    · have ha2 : (m :: above).all (fun m => !isOld now maxAge m) = true := by
        rw [List.all_cons, ha]
        simp [ho]
      have hs : survives now maxAge
          ((⟨path ++ [n], true, m, ""⟩ : Visit), m :: above) = true := ha2
      rw [sweepNode_healthy_dir, if_neg ho, agesNode, List.filter_cons, if_pos hs, List.map_cons,
        ← sweepKids_walk now maxAge (path ++ [n]) (m :: above) ha2 cs]
      simp [walkKids, walkNode, Swept.inDir]
theorem sweepKids_walk (now maxAge : Int) (path : List String) (above : List Int)
    (ha : above.all (fun m => !isOld now maxAge m) = true) : ∀ cs : List Node,
    walkKids path (sweepKids SweepDisk.healthy now maxAge present present path cs).left
      = ((agesKids path above cs).filter (survives now maxAge)).map Prod.fst
  | [] => by simp [sweepKids, agesKids, walkKids]
  | c :: cs => by
    rw [sweepKids_healthy_cons, agesKids, walkKids_append, List.filter_append, List.map_append,
      sweepNode_walk now maxAge path above ha c, sweepKids_walk now maxAge path above ha cs]
end

mutual
/-- The modification time of an entry is the first of the times listed with
it. -/
theorem agesNode_own (path : List String) (above : List Int) : ∀ t : Node,
    ∀ e ∈ agesNode path above t, e.1.modTime ∈ e.2
  | Node.file n m c => by
    intro e he
    rw [agesNode, List.mem_singleton] at he
    rw [he]; exact List.mem_cons_self _ _
  | Node.dir n m cs => by
    intro e he
    rw [agesNode, List.mem_cons] at he
    rcases he with he | he
    · rw [he]; exact List.mem_cons_self _ _
    · exact agesKids_own (path ++ [n]) (m :: above) cs e he
theorem agesKids_own (path : List String) (above : List Int) : ∀ cs : List Node,
    ∀ e ∈ agesKids path above cs, e.1.modTime ∈ e.2
  | [] => by intro e he; rw [agesKids] at he; exact absurd he (List.not_mem_nil _)
  | c :: cs => by
    intro e he
    rw [agesKids, List.mem_append] at he
    rcases he with he | he
    · exact agesNode_own path above c e he
    · exact agesKids_own path above cs e he
end

/-- With every removal succeeding, no entry the sweep leaves is old at the
reading of the clock of that sweep. -/
theorem sweepKids_healthy_fresh (now maxAge : Int) (path : List String) (cs : List Node) :
    ∀ v ∈ walkKids path (sweepKids SweepDisk.healthy now maxAge present present path cs).left,
      isOld now maxAge v.modTime = false := by
  intro v hv
  rw [sweepKids_walk now maxAge path [] rfl cs, List.mem_map] at hv
  obtain ⟨e, he, rfl⟩ := hv
  have hs := (List.mem_filter.1 he).2
  unfold survives at hs
  have := (List.all_eq_true.1 hs) _ (agesKids_own path [] cs e (List.mem_filter.1 he).1)
  simpa using this

theorem sweepNode_names (now maxAge : Int) (path : List String) (t : Node) :
    (sweepNode SweepDisk.healthy now maxAge present path t).left.map Node.name = [t.name]
      ∨ (sweepNode SweepDisk.healthy now maxAge present path t).left = [] := by
  cases t with
  | file n m c =>
    rw [sweepNode_healthy_file]
    split_ifs
    · exact Or.inr rfl
    · exact Or.inl rfl
  | dir n m cs =>
    rw [sweepNode_healthy_dir]
    split_ifs
    · exact Or.inr rfl
    · exact Or.inl rfl

theorem sweepKids_names (now maxAge : Int) (path : List String) :
    ∀ cs : List Node,
      ((sweepKids SweepDisk.healthy now maxAge present present path cs).left.map
        Node.name).Sublist (cs.map Node.name)
  | [] => by rw [sweepKids]
  | c :: cs => by
    rw [sweepKids_healthy_cons, List.map_append, List.map_cons]
    rcases sweepNode_names now maxAge path c with h | h
    · rw [h]
      exact List.Sublist.cons₂ _ (sweepKids_names now maxAge path cs)
    · rw [h]
      exact List.Sublist.cons _ (sweepKids_names now maxAge path cs)

mutual
/-- The sweep keeps the listings in order. -/
theorem sweepNode_ordered (now maxAge : Int) (path : List String) :
    ∀ t : Node, t.Ordered →
      KidsOrdered (sweepNode SweepDisk.healthy now maxAge present path t).left
  | Node.file n m c, _ => by
    rw [sweepNode_healthy_file]
    split_ifs <;> simp [KidsOrdered, Node.Ordered]
  | Node.dir n m cs, h => by
    rw [Node.Ordered] at h
    have h1 := sweepKids_ordered now maxAge (path ++ [n]) cs h.1
    have h2 : (sweepKids SweepDisk.healthy now maxAge present present (path ++ [n])
        cs).left.Sorted Node.le :=
      sorted_of_names (sweepKids_names now maxAge (path ++ [n]) cs) h.2
    rw [sweepNode_healthy_dir]
    split_ifs
    · trivial
    · exact ⟨⟨h1, h2⟩, trivial⟩
theorem sweepKids_ordered (now maxAge : Int) (path : List String) :
    ∀ cs : List Node, KidsOrdered cs →
      KidsOrdered (sweepKids SweepDisk.healthy now maxAge present present path cs).left
  | [], _ => by rw [sweepKids]; trivial
  | c :: cs, h => by
    rw [KidsOrdered] at h
    rw [sweepKids_healthy_cons, kidsOrdered_iff]
    intro x hx
    rcases List.mem_append.1 hx with hx | hx
    · exact (kidsOrdered_iff _).1 (sweepNode_ordered now maxAge path c h.1) x hx
    · exact (kidsOrdered_iff _).1 (sweepKids_ordered now maxAge path cs h.2) x hx
end

mutual
/-- On a tree none of whose entries is old, with every directory read, the
sweep calls no removal, meets no error and leaves the tree as it was. -/
theorem sweepNode_fresh (d : SweepDisk) (hread : ∀ p, d.readable p = true) (now maxAge : Int)
    (path : List String) : ∀ t : Node,
    (∀ v ∈ walkNode path t, isOld now maxAge v.modTime = false) →
      sweepNode d now maxAge present path t = ⟨none, [t], []⟩
  | Node.file n m c, h => by
    have ho : isOld now maxAge m = false :=
      h ⟨path ++ [n], false, m, c⟩ (by rw [walkNode]; exact List.mem_singleton.2 rfl)
    rw [sweepNode, ho]
    rfl
  | Node.dir n m cs, h => by
    have ho : isOld now maxAge m = false :=
      h ⟨path ++ [n], true, m, ""⟩ (by rw [walkNode]; exact List.mem_cons_self _ _)
    have hk := sweepKids_fresh d hread now maxAge (path ++ [n]) cs
      (fun v hv => h v (by rw [walkNode]; exact List.mem_cons_of_mem _ hv))
    rw [sweepNode, hread, ho, hk]
    rfl
theorem sweepKids_fresh (d : SweepDisk) (hread : ∀ p, d.readable p = true) (now maxAge : Int)
    (path : List String) : ∀ cs : List Node,
    (∀ v ∈ walkKids path cs, isOld now maxAge v.modTime = false) →
      sweepKids d now maxAge present present path cs = ⟨none, cs, []⟩
  | [], _ => by rw [sweepKids]
  | c :: cs, h => by
    have h1 := sweepNode_fresh d hread now maxAge path c
      (fun v hv => h v (by rw [walkKids]; exact List.mem_append_left _ hv))
    have h2 := sweepKids_fresh d hread now maxAge path cs
      (fun v hv => h v (by rw [walkKids]; exact List.mem_append_right _ hv))
    rw [sweepKids_present_cons, h1, h2]
    rfl
end

/-- A run on a root none of whose entries is old at the reading of the clock,
with every directory read, removes nothing, returns no error and leaves the
tree as the walk reads it. -/
theorem cleanup_fresh (d : SweepDisk) (hread : ∀ p, d.readable p = true) (now maxAge : Int)
    (parent : List String) : ∀ root : Option Node,
    (∀ v ∈ entriesBelow parent root, isOld now maxAge v.modTime = false) →
      CleanupOldFiles d now maxAge parent root = ⟨none, root.map Node.sortTree, []⟩
  | none, _ => rfl
  | some (Node.file n m c), _ => rfl
  | some (Node.dir n m cs), h => by
    have hk := sweepKids_fresh d hread now maxAge (parent ++ [n]) (sortKids cs)
      (fun v hv => h v ((walkKids_sortKids_perm (parent ++ [n]) cs).mem_iff.1 hv))
    rw [CleanupOldFiles, if_pos (hread _), hk]
    rfl

/-- What a run with every removal succeeding leaves: the root with the entries
the sweep left. -/
theorem cleanup_healthy_root (now maxAge : Int) (parent : List String) (n : String) (m : Int)
    (cs : List Node) :
    (CleanupOldFiles SweepDisk.healthy now maxAge parent (some (Node.dir n m cs))).root
      = some (Node.dir n m
          (sweepKids SweepDisk.healthy now maxAge present present (parent ++ [n])
            (sortKids cs)).left) := rfl

/-- What a run with every removal succeeding leaves has its listings in
order: reading it again changes nothing. -/
theorem cleanup_healthy_sorted (now maxAge : Int) (parent : List String) :
    ∀ root : Option Node,
      (CleanupOldFiles SweepDisk.healthy now maxAge parent root).root.map Node.sortTree
        = (CleanupOldFiles SweepDisk.healthy now maxAge parent root).root
  | none => rfl
  | some (Node.file n m c) => rfl
  | some (Node.dir n m cs) => by
    have ho := sortKids_ordered cs
    have h1 := sweepKids_ordered now maxAge (parent ++ [n]) (sortKids cs) ho.1
    have h2 := sorted_of_names (sweepKids_names now maxAge (parent ++ [n]) (sortKids cs)) ho.2
    rw [cleanup_healthy_root, Option.map_some', Node.sortTree, sortKids_fixed _ h1 h2]

/-- No entry a run with every removal succeeding leaves is old at the reading
of the clock of that run. -/
theorem cleanup_healthy_fresh (now maxAge : Int) (parent : List String) :
    ∀ root : Option Node,
      ∀ v ∈ entriesBelow parent (CleanupOldFiles SweepDisk.healthy now maxAge parent root).root,
        isOld now maxAge v.modTime = false
  | none => fun v hv => absurd hv (List.not_mem_nil _)
  | some (Node.file n m c) => fun v hv => absurd hv (List.not_mem_nil _)
  | some (Node.dir n m cs) => by
    intro v hv
    rw [cleanup_healthy_root] at hv
    exact sweepKids_healthy_fresh now maxAge (parent ++ [n]) (sortKids cs) v hv

/-! ## C23: the postcondition of the expiry sweep -/

theorem timeSub_exact (t u : Int) (h1 : minDuration ≤ t - u) (h2 : t - u ≤ maxDuration) :
    timeSub t u = t - u := by
  unfold timeSub
  rw [if_neg (by omega), if_neg (by omega)]

theorem isOld_iff (now maxAge m : Int) (hlo : minDuration ≤ maxAge) (hhi : maxAge < maxDuration) :
    isOld now maxAge m = true ↔ now - m > maxAge := by
  unfold isOld timeSub
  rw [decide_eq_true_iff]
  split_ifs with h1 h2
  · constructor <;> intro _ <;> omega
  · constructor <;> intro _ <;> omega
  · exact Iff.rfl

/-- C23 fails at the largest maximum age, and when a directory cannot be read:
with `maxAge` the largest `time.Duration` and every removal succeeding, a file
last modified at time 0 has `now - modTime > maxAge` at the reading `2^63 + 5`
of the clock, and the run removes nothing and leaves the file:
`now.Sub(modTime)` is the largest duration, which is not greater than
`maxAge`.  And on the small tree under `temp`, when the names of `temp/b_2`
cannot be read the run returns that error and stops: the file
`temp/b_2/old.zip`, old at the reading 1000 with the maximum age 100, is
left. -/
theorem C23_largest_max_age_keeps_all :
    (2 ^ 63 + 5 : Int) - 0 > maxDuration
      ∧ (CleanupOldFiles SweepDisk.healthy (2 ^ 63 + 5) maxDuration [] (some ancientTree)).err
          = none
      ∧ (CleanupOldFiles SweepDisk.healthy (2 ^ 63 + 5) maxDuration [] (some ancientTree)).removed
          = []
      ∧ entriesBelow []
          (CleanupOldFiles SweepDisk.healthy (2 ^ 63 + 5) maxDuration [] (some ancientTree)).root
          = [⟨["temp", "ancient"], false, 0, "a"⟩]
      ∧ (CleanupOldFiles diskUnreadable 1000 100 [] (some tempTree)).err
          = some (WalkError.readDir ["temp", "b_2"])
      ∧ (CleanupOldFiles diskUnreadable 1000 100 [] (some tempTree)).removed = [["temp", "a_1"]]
      ∧ (1000 : Int) - 10 > 100
      ∧ (⟨["temp", "b_2", "old.zip"], false, 10, "z"⟩ : Visit)
          ∈ entriesBelow [] (CleanupOldFiles diskUnreadable 1000 100 [] (some tempTree)).root := by
  decide

/-- C23 (amended): when every removal succeeds and every directory can be
read, `CleanupOldFiles` returns no error and leaves the root as it was; the
entries it leaves below the root are, in the order of the walk, exactly the
entries for which neither the entry nor a directory above it below the root
is old (a permutation of those entries of the tree as the disk holds it),
where old is `now.Sub(modTime) > maxAge`; for every `maxAge` below the largest
`time.Duration` that is `now - modTime > maxAge`, strictly, so an entry aged
exactly `maxAge` stays, and a directory with `now - modTime > maxAge` is
removed by one `RemoveAll` of its path, whatever it contains; for `maxAge` the
largest `time.Duration` no entry is old and the run removes nothing. -/
theorem C23_sweep_postcondition (now maxAge : Int) (parent : List String) (root : Option Node) :
    (CleanupOldFiles SweepDisk.healthy now maxAge parent root).err = none
      ∧ (CleanupOldFiles SweepDisk.healthy now maxAge parent root).root.map
            (fun t => (t.name, t.isDir, t.modTime))
          = root.map (fun t => (t.name, t.isDir, t.modTime))
      ∧ entriesBelow parent (CleanupOldFiles SweepDisk.healthy now maxAge parent root).root
          = ((agesBelow parent (root.map Node.sortTree)).filter (survives now maxAge)).map
              Prod.fst
      ∧ (entriesBelow parent (CleanupOldFiles SweepDisk.healthy now maxAge parent root).root).Perm
          (((agesBelow parent root).filter (survives now maxAge)).map Prod.fst)
      ∧ (minDuration ≤ maxAge → maxAge < maxDuration →
          ∀ e : Visit × List Int, survives now maxAge e = true
            ↔ ∀ mt ∈ e.2, ¬ now - mt > maxAge)
      ∧ (minDuration ≤ maxAge → maxAge < maxDuration →
          isOld now maxAge (now - maxAge) = false)
      ∧ (minDuration ≤ maxAge → maxAge < maxDuration →
          ∀ (path : List String) (n : String) (m : Int) (cs : List Node),
            now - m > maxAge →
              sweepNode SweepDisk.healthy now maxAge present path (Node.dir n m cs)
                = ⟨none, [], [path ++ [n]]⟩)
      ∧ (maxAge = maxDuration →
          (∀ m : Int, isOld now maxAge m = false)
            ∧ CleanupOldFiles SweepDisk.healthy now maxAge parent root
              = ⟨none, root.map Node.sortTree, []⟩) := by
  refine ⟨?_, ?_, ?_, ?_, ?_, ?_, ?_, ?_⟩
  · cases root with
    | none => rfl
    | some t =>
      cases t with
      | file n m c => rfl
      | dir n m cs => exact sweepKids_healthy_err now maxAge (parent ++ [n]) (sortKids cs)
  · cases root with
    | none => rfl
    | some t => cases t <;> rfl
  · cases root with
    | none => rfl
    | some t =>
      cases t with
      | file n m c => rfl
      | dir n m cs =>
        rw [cleanup_healthy_root]
        show walkKids (parent ++ [n]) _ = _
        rw [sweepKids_walk now maxAge (parent ++ [n]) [] rfl (sortKids cs)]
        rfl
  · cases root with
    | none => exact List.Perm.refl _
    | some t =>
      cases t with
      | file n m c => exact List.Perm.refl _
      | dir n m cs =>
        rw [cleanup_healthy_root]
        show (walkKids (parent ++ [n]) _).Perm _
        rw [sweepKids_walk now maxAge (parent ++ [n]) [] rfl (sortKids cs)]
        exact ((agesKids_sortKids (parent ++ [n]) [] cs).filter _).map _
  · intro hlo hhi e
    unfold survives
    rw [List.all_eq_true]
    constructor
    · intro h mt hmt hgt
      have h1 := h mt hmt
      rw [(isOld_iff now maxAge mt hlo hhi).2 hgt] at h1
      exact absurd h1 (by decide)
    · intro h mt hmt
      cases ho : isOld now maxAge mt
      · rfl
      · exact absurd ((isOld_iff now maxAge mt hlo hhi).1 ho) (h mt hmt)
  · intro hlo hhi
    cases ho : isOld now maxAge (now - maxAge)
    · rfl
    · have := (isOld_iff now maxAge (now - maxAge) hlo hhi).1 ho
      omega
  · intro hlo hhi path n m cs ho
    rw [sweepNode_healthy_dir, if_pos ((isOld_iff now maxAge m hlo hhi).2 ho)]
  · intro hmax
    have hnone : ∀ m : Int, isOld now maxAge m = false := by
      intro m
      unfold isOld timeSub
      rw [hmax, decide_eq_false_iff_not]
      have hd : minDuration ≤ maxDuration := by decide
      split_ifs <;> omega
    exact ⟨hnone, cleanup_fresh SweepDisk.healthy (fun _ => rfl) now maxAge parent root
      (fun v _ => hnone v.modTime)⟩

/-- C23 (witness): the small tree under `temp` at the reading 1000 of the clock
with the maximum age 100, which is below the largest duration. -/
theorem C23_sweep_postcondition_witness :
    (minDuration ≤ 100 ∧ (100 : Int) < maxDuration)
      ∧ entriesBelow [] (CleanupOldFiles SweepDisk.healthy 1000 100 [] (some tempTree)).root
          = ((agesBelow [] ((some tempTree).map Node.sortTree)).filter (survives 1000 100)).map
              Prod.fst
      ∧ (∀ e : Visit × List Int, survives 1000 100 e = true
          ↔ ∀ mt ∈ e.2, ¬ (1000 : Int) - mt > 100) :=
  have h := C23_sweep_postcondition 1000 100 [] (some tempTree)
  ⟨⟨by decide, by decide⟩, h.2.2.1, h.2.2.2.2.1 (by decide) (by decide)⟩

/-! ## C24: a second sweep -/

/-- C24 fails when the clock moves on, when a directory cannot be read, and
after a first run that failed.  With every removal succeeding, a first run at
the reading 1000 with the maximum age 100 returns no error and leaves the file
`temp/edge`, aged exactly 100; a second run on what the first run left, with
the same maximum age and nothing added, at the reading 1001 removes
`temp/edge`.  A second run at the reading 1000 in which the names of
`temp/b_2` cannot be read returns that error.  And after a first run in which
the removal of `temp/a_1` failed, which returned an error and stopped, a
second run at the same reading removes `temp/a_1` and `temp/b_2/old.zip`. -/
theorem C24_later_reading_removes :
    (CleanupOldFiles SweepDisk.healthy 1000 100 [] (some tempTree)).err = none
      ∧ (⟨["temp", "edge"], false, 900, "e"⟩ : Visit)
          ∈ entriesBelow [] (CleanupOldFiles SweepDisk.healthy 1000 100 [] (some tempTree)).root
      ∧ (CleanupOldFiles SweepDisk.healthy 1001 100 []
          (CleanupOldFiles SweepDisk.healthy 1000 100 [] (some tempTree)).root).removed
          = [["temp", "edge"]]
      ∧ (⟨["temp", "edge"], false, 900, "e"⟩ : Visit)
          ∉ entriesBelow [] (CleanupOldFiles SweepDisk.healthy 1001 100 []
              (CleanupOldFiles SweepDisk.healthy 1000 100 [] (some tempTree)).root).root
      ∧ (CleanupOldFiles diskUnreadable 1000 100 []
          (CleanupOldFiles SweepDisk.healthy 1000 100 [] (some tempTree)).root).err
          = some (WalkError.readDir ["temp", "b_2"])
      ∧ (CleanupOldFiles diskPartRemoval 1000 100 [] (some tempTree)).err
          = some (WalkError.lstat ["temp", "a_1", "fresh.txt"])
      ∧ (CleanupOldFiles SweepDisk.healthy 1000 100 []
          (CleanupOldFiles diskPartRemoval 1000 100 [] (some tempTree)).root).removed
          = [["temp", "a_1"], ["temp", "b_2", "old.zip"]] := by
  decide

/-- C24 (amended): after a first run of `CleanupOldFiles` in which every
removal succeeded and every directory was read, no entry left is old at the
reading of the clock of that run; a second run on what the first run left,
with the same `maxAge`, with every directory read and whatever its removals
would do, removes nothing, changes nothing and returns no error when it reads
the clock as the first run did, and more generally at every reading at which
no entry left is old; a run on any root none of whose entries is old at its
reading removes nothing and returns no error; when the root does not exist a
run returns no error and does nothing; and on an empty root a run removes
nothing and returns no error. -/
theorem C24_cleanup_idempotent (d : SweepDisk) (now maxAge : Int) (parent : List String)
    (root : Option Node) (hread : ∀ p, d.readable p = true) :
    (∀ v ∈ entriesBelow parent (CleanupOldFiles SweepDisk.healthy now maxAge parent root).root,
        isOld now maxAge v.modTime = false)
      ∧ CleanupOldFiles d now maxAge parent
            (CleanupOldFiles SweepDisk.healthy now maxAge parent root).root
          = ⟨none, (CleanupOldFiles SweepDisk.healthy now maxAge parent root).root, []⟩
      ∧ (∀ later : Int,
          (∀ v ∈ entriesBelow parent
              (CleanupOldFiles SweepDisk.healthy now maxAge parent root).root,
            isOld later maxAge v.modTime = false) →
          CleanupOldFiles d later maxAge parent
              (CleanupOldFiles SweepDisk.healthy now maxAge parent root).root
            = ⟨none, (CleanupOldFiles SweepDisk.healthy now maxAge parent root).root, []⟩)
      ∧ ((∀ v ∈ entriesBelow parent root, isOld now maxAge v.modTime = false) →
          CleanupOldFiles d now maxAge parent root = ⟨none, root.map Node.sortTree, []⟩)
      ∧ (∀ d0 : SweepDisk, CleanupOldFiles d0 now maxAge parent none = ⟨none, none, []⟩)
      ∧ (∀ (n : String) (m : Int),
          CleanupOldFiles d now maxAge parent (some (Node.dir n m []))
            = ⟨none, some (Node.dir n m []), []⟩) := by
  have hlater : ∀ later : Int,
      (∀ v ∈ entriesBelow parent
          (CleanupOldFiles SweepDisk.healthy now maxAge parent root).root,
        isOld later maxAge v.modTime = false) →
      CleanupOldFiles d later maxAge parent
          (CleanupOldFiles SweepDisk.healthy now maxAge parent root).root
        = ⟨none, (CleanupOldFiles SweepDisk.healthy now maxAge parent root).root, []⟩ := by
    intro later h
    rw [cleanup_fresh d hread later maxAge parent _ h,
      cleanup_healthy_sorted now maxAge parent root]
  refine ⟨cleanup_healthy_fresh now maxAge parent root,
    hlater now (cleanup_healthy_fresh now maxAge parent root), hlater,
    cleanup_fresh d hread now maxAge parent root, fun _ => rfl, fun n m => ?_⟩
  exact cleanup_fresh d hread now maxAge parent (some (Node.dir n m []))
    (fun v hv => absurd hv (List.not_mem_nil _))

/-- C24 (witness): the small tree under `temp`, swept at the reading 1000 with
the maximum age 100, and a second run on a disk where every removal fails. -/
theorem C24_cleanup_idempotent_witness :
    (∀ p, diskNoRemoval.readable p = true)
      ∧ CleanupOldFiles diskNoRemoval 1000 100 []
            (CleanupOldFiles SweepDisk.healthy 1000 100 [] (some tempTree)).root
          = ⟨none, (CleanupOldFiles SweepDisk.healthy 1000 100 [] (some tempTree)).root, []⟩ :=
  ⟨fun _ => rfl,
    (C24_cleanup_idempotent diskNoRemoval 1000 100 [] (some tempTree) (fun _ => rfl)).2.1⟩

/-! ## C25: directories exist before files are written -/

theorem andThen_of_none {r : Outcome} (k : FileSystem → Outcome) (h : r.err = none) :
    r.andThen k = k r.fs := by
  unfold Outcome.andThen
  rw [h]

theorem andThen_of_some {r : Outcome} (k : FileSystem → Outcome) {e : String}
    (h : r.err = some e) : r.andThen k = ⟨some e, r.fs⟩ := by
  unfold Outcome.andThen
  rw [h]

theorem mkdirAll_ok (d : Disk) (fs : FileSystem) (p : Path) (h : (mkdirAll d fs p).err = none) :
    p ∈ (mkdirAll d fs p).fs.dirs ∧ ∀ q ∈ fs.dirs, q ∈ (mkdirAll d fs p).fs.dirs := by
  unfold mkdirAll at h ⊢
  by_cases hd : d.mkdirOk p = true
  · by_cases hp : p ∈ fs.dirs
    · rw [if_pos hd, if_pos hp]
      exact ⟨hp, fun q hq => hq⟩
    · rw [if_pos hd, if_neg hp]
      exact ⟨List.mem_append_right _ (List.mem_singleton.2 rfl),
        fun q hq => List.mem_append_left _ hq⟩
  · simp [hd] at h

theorem mkdirEach_ok (d : Disk) (root : String) :
    ∀ (dirs : List String) (fs : FileSystem), (mkdirEach d root dirs fs).err = none →
      (∀ dir ∈ dirs, (⟨root, dir⟩ : Path) ∈ (mkdirEach d root dirs fs).fs.dirs)
        ∧ ∀ q ∈ fs.dirs, q ∈ (mkdirEach d root dirs fs).fs.dirs
  | [], _, _ => ⟨fun _ h => absurd h (List.not_mem_nil _), fun _ hq => hq⟩
  | dir :: rest, fs, h => by
    rw [mkdirEach] at h ⊢
    cases h1 : (mkdirAll d fs ⟨root, dir⟩).err with
    | some e =>
      rw [andThen_of_some _ h1] at h
      exact absurd h (by simp)
    | none =>
      rw [andThen_of_none _ h1] at h ⊢
      obtain ⟨ha, hb⟩ := mkdirAll_ok d fs ⟨root, dir⟩ h1
      obtain ⟨hc, hd⟩ := mkdirEach_ok d root rest _ h
      refine ⟨fun x hx => ?_, fun q hq => hd q (hb q hq)⟩
      rcases List.mem_cons.1 hx with rfl | hx
      · exact hd _ ha
      · exact hc x hx

theorem writeFile_dirs (d : Disk) (fs : FileSystem) (p : Path) (content : String) :
    (writeFile d fs p content).fs.dirs = fs.dirs := by
  unfold writeFile
  split_ifs <;> rfl

/-- Writing artifacts creates and removes no directory. -/
theorem writeEach_dirs (d : Disk) (root : String) :
    ∀ (arts : List Artifact) (fs : FileSystem), (writeEach d root arts fs).fs.dirs = fs.dirs
  | [], _ => rfl
  | a :: rest, fs => by
    rw [writeEach]
    by_cases hc : a.checked = true
    · rw [if_pos hc]
      refine andThen_preserves (P := fun fs2 => fs2.dirs = fs.dirs) (writeFile_dirs d fs _ _) ?_
      intro fs2 h2
      rw [writeEach_dirs d root rest, h2]
    · rw [if_neg hc, writeEach_dirs d root rest, writeFile_dirs]

/-- The parent directory of every artifact is the output root or one of the
planned directories. -/
theorem artifacts_parent (c : ProjectConfig) : ∀ a ∈ artifacts c,
    parentDir a.rel = "" ∨ parentDir a.rel ∈ plannedDirs c := by
  have p1 : parentDir "go.mod" = "" := by decide
  have p2 : parentDir "main.go" = "" := by decide
  have p3 : parentDir "cmd/server/main.go" = "cmd/server" := by decide
  have p4 : parentDir "config/config.go" = "config" := by decide
  have p5 : parentDir "handlers.go" = "" := by decide
  have p6 : parentDir "internal/handlers/handlers.go" = "internal/handlers" := by decide
  have p7 : parentDir "middleware.go" = "" := by decide
  have p8 : parentDir "internal/middleware/auth.go" = "internal/middleware" := by decide
  have p9 : parentDir ".env" = "" := by decide
  have p10 : parentDir ".env.example" = "" := by decide
  have p11 : parentDir ".gitignore" = "" := by decide
  have p12 : parentDir "railway.json" = "" := by decide
  have p13 : parentDir "README.md" = "" := by decide
  by_cases hs : c.Structure = "standard" <;> by_cases hA : c.hasLibrary "go-auth" = true <;>
    by_cases hR : c.Deployment = "railway" <;>
    cases hM : c.hasLibrary "go-migration" <;>
    simp only [artifacts, plannedDirs, mainPath, handlerPath, middlewarePath, hs, hA, hR, hM,
      if_true, if_false, Bool.false_eq_true, List.cons_append, List.nil_append, List.append_nil,
      List.mem_cons, List.mem_singleton, List.not_mem_nil, or_false, forall_eq_or_imp,
      forall_eq, p1, p2, p3, p4, p5, p6, p7, p8, p9, p10, p11, p12, p13] <;>
    simp

/-- C25: the parent directory of every file of the pipeline is the output
root or one of the directories `createDirectoryStructure` plans for the same
(defaulted) selection; writing the files creates no directory; and whatever
calls fail, the parent directory of every file `GenerateProject` has written
is a directory it has created before: the output root or a planned
directory. -/
theorem C25_directories_before_files (c : ProjectConfig) :
    (∀ a ∈ artifacts (setDefaults c),
        parentDir a.rel = "" ∨ parentDir a.rel ∈ plannedDirs (setDefaults c))
      ∧ (∀ (d : Disk) (fs : FileSystem),
          (writeEach d (setDefaults c).OutputDir (artifacts (setDefaults c)) fs).fs.dirs = fs.dirs)
      ∧ (∀ (d : Disk), ∀ f ∈ (GenerateProject d c FileSystem.empty).fs.files,
          (⟨c.OutputDir, parentDir f.1.rel⟩ : Path)
              ∈ (GenerateProject d c FileSystem.empty).fs.dirs
            ∧ (parentDir f.1.rel = "" ∨ parentDir f.1.rel ∈ plannedDirs (setDefaults c)))
      ∧ parentDir (mainPath selectionStandard) = "cmd/server"
      ∧ parentDir (handlerPath selectionStandard) = "internal/handlers"
      ∧ parentDir (middlewarePath selectionStandard) = "internal/middleware"
      ∧ parentDir "config/config.go" = "config" := by
  refine ⟨artifacts_parent _, fun d fs => writeEach_dirs d _ _ fs, ?_, by decide, by decide,
    by decide, by decide⟩
  intro d f hf
  have hw := GenerateProject_written d c FileSystem.empty f hf
  rcases hw with h | ⟨a, ha, hfa⟩
  · exact absurd h (List.not_mem_nil _)
  have hpar := artifacts_parent _ a ha
  have hrel : f.1.rel = a.rel := by rw [hfa]
  rw [hrel]
  refine ⟨?_, hpar⟩
  rw [GenerateProject_eq_writeEach] at hf ⊢
  have hroot : (Path.join c.OutputDir []) = ⟨c.OutputDir, ""⟩ := rfl
  cases h1 : (mkdirAll d FileSystem.empty (Path.join c.OutputDir [])).err with
  | some e =>
    rw [andThen_of_some _ h1] at hf
    rw [mkdirAll_files] at hf
    exact absurd hf (List.not_mem_nil _)
  | none =>
    rw [andThen_of_none _ h1] at hf ⊢
    obtain ⟨hr, -⟩ := mkdirAll_ok d _ _ h1
    cases h2 : (createDirectoryStructure d (setDefaults c)
        (mkdirAll d FileSystem.empty (Path.join c.OutputDir [])).fs).err with
    | some e =>
      rw [andThen_of_some _ h2] at hf
      unfold createDirectoryStructure at hf
      rw [mkdirEach_files, mkdirAll_files] at hf
      exact absurd hf (List.not_mem_nil _)
    | none =>
      rw [andThen_of_none _ h2, writeEach_dirs]
      unfold createDirectoryStructure at h2 ⊢
      obtain ⟨hplan, hkeep⟩ := mkdirEach_ok d _ _ _ h2
      rw [setDefaults_OutputDir] at hplan hkeep ⊢
      rcases hpar with h0 | hin
      · rw [h0]
        exact hkeep _ (by rw [hroot] at hr; exact hr)
      · exact hplan _ hin

/-! ## C26: imports and body of the entrypoint -/

/-- C26 fails for `go-swagger`, and for `go-migration` without a database: the
entrypoint generated for the example selection with `go-swagger` imports
`github.com/OkanUysal/go-swagger` and contains no `swagger.` anywhere; the
entrypoint generated for the example selection with `go-migration` and
database `none` imports `github.com/OkanUysal/go-migration` and contains no
`migration.` anywhere. -/
theorem C26_unused_imports :
    importedLibraries (generateMainContent selectionSwagger).data = ["go-swagger"]
      ∧ ¬ Contains (generateMainContent selectionSwagger) (callThrough "swagger")
      ∧ importedLibraries (generateMainContent selectionMigration).data = ["go-migration"]
      ∧ selectionMigration.Database = "none"
      ∧ ¬ Contains (generateMainContent selectionMigration) (callThrough "migration") := by
  refine ⟨?_, ?_, ?_, rfl, ?_⟩ <;> decide!

/-! ## C27: the run command of the readme -/

/-- C27 fails for the layered structure: for the example selection with
structure `standard` the entrypoint is generated at `cmd/server/main.go` and no
file is written at `main.go`, the start command of railway.json is
`go run cmd/server/main.go`, and the run command of the generated README.md is
`go run main.go`. -/
theorem C27_readme_run_command_standard :
    mainPath selectionStandard = "cmd/server/main.go"
      ∧ (GenerateProject Disk.healthy selectionStandard FileSystem.empty).fs.read
          ⟨"out", "cmd/server/main.go"⟩ = some (generateMainContent selectionStandard)
      ∧ (GenerateProject Disk.healthy selectionStandard FileSystem.empty).fs.read
          ⟨"out", "main.go"⟩ = none
      ∧ (GenerateProject Disk.healthy selectionStandard FileSystem.empty).fs.read
          ⟨"out", "README.md"⟩ = some (generateReadmeContent selectionStandard)
      ∧ readmeRunCommand (generateReadmeContent selectionStandard) = some "go run main.go"
      ∧ startCommand (generateRailwayContent selectionStandard)
          = some "go run cmd/server/main.go" := by
  refine ⟨?_, ?_, ?_, ?_, ?_, ?_⟩ <;> decide!

end Generator
